import Mathlib

/-!
Request orchestration core of the uni-app template.

A shallow embedding of `src/api/core/request.js`, `src/api/core/interceptors.js`,
`src/auth/tokenManager.js` and `src/api/upload.js`, followed by theorems about
the embedded code.

Conventions of the embedding

* JavaScript values are the inductive `JsValue`; an object is the list of its
  own enumerable properties in property-enumeration order, an `Error` instance
  is the object of its `message` and `silent` properties.
* Numbers are integers (`Int`); timestamps and durations are natural numbers of
  milliseconds.
* Module-level and instance state (`requestTaskMap`, `pendingRequests`,
  `loadingCount`, the `TokenManager` fields, uni storage, the page stack) is one
  record `App` that every operation takes and returns; calls to the platform
  (`uni.request`, `task.abort`, `uni.reLaunch`, ...) are appended to `App.trace`.
* An `async` function is embedded twice where its suspension matters: as the
  synchronous prefix that runs when it is called and as the continuation that
  runs after its `await`; the composition of both is the run in which no other
  continuation is scheduled in between. `Date.now()` is the field `App.now`,
  which such a run leaves unchanged.
* The transport is the collaborator of the specification: `uni.request` returns
  a task handle and later delivers exactly one of the `success` and `fail`
  callbacks; `task.abort()` is a signal, its failure is reported through the
  `fail` callback after the caller of `abort` has returned.
-/

namespace UniappTemplate

/-! ## JavaScript values -/

/-- A JavaScript value. `obj` lists own enumerable string-keyed properties in
the order `Object.keys` reports them. -/
inductive JsValue where
  | undefined
  | null
  | bool (b : Bool)
  | num (n : Int)
  | str (s : String)
  | arr (items : List JsValue)
  | obj (props : List (String × JsValue))
  deriving Repr, Inhabited

namespace JsValue

/-- Truthiness of a value, as tested by `!x`, `x || y` and `if (x)`. -/
def truthy : JsValue → Bool
  | undefined => false
  | null => false
  | bool b => b
  | num n => n != 0
  | str s => s != ""
  | arr _ => true
  | obj _ => true

/-- The test `typeof x === 'object'` (true for `null`, arrays and objects). -/
def typeofIsObject : JsValue → Bool
  | null => true
  | arr _ => true
  | obj _ => true
  | _ => false

/-- Property read `x[k]` on an object; `undefined` when the key is missing. -/
def getProp (v : JsValue) (k : String) : JsValue :=
  match v with
  | obj props => (props.lookup k).getD undefined
  | _ => undefined

end JsValue

/-! ## Strings -/

/-- UTF-16 code units of one character. -/
def utf16Units (c : Char) : List Nat :=
  if c.toNat < 65536 then [c.toNat]
  else [55296 + (c.toNat - 65536) / 1024, 56320 + (c.toNat - 65536) % 1024]

/-- UTF-16 code units of a string, the sequence `Array.prototype.sort` compares. -/
def toUtf16 (s : String) : List Nat := s.data.flatMap utf16Units

/-- Default comparison of `Array.prototype.sort` on strings: `a` does not sort
after `b`. -/
def jsStringLe (a b : String) : Bool := decide (toUtf16 a ≤ toUtf16 b)

/-- Insertion of a key into a list sorted by `jsStringLe`. -/
def insertSorted (k : String) : List String → List String
  | [] => [k]
  | x :: xs => if jsStringLe k x then k :: x :: xs else x :: insertSorted k xs

/-- Embedding of `keys.sort()` on an array of strings. -/
def jsSort (ks : List String) : List String := ks.foldr insertSorted []

/-- Embedding of `s.includes(sub)`: `sub` occurs in `s` as a contiguous substring. -/
def includes (s sub : String) : Bool := decide (sub.data <:+: s.data)

/-- Embedding of `s.startsWith(p)`. -/
def startsWith (s p : String) : Bool := decide (p.data <+: s.data)

/-- Embedding of `s.toUpperCase()` on ASCII letters (HTTP method names). -/
def toUpperCase (s : String) : String := String.mk (s.data.map Char.toUpper)

/-- Value of a string of decimal digits. -/
def digitsValue (cs : List Char) : Nat :=
  cs.foldl (fun n c => 10 * n + (c.toNat - 48)) 0

/-- The array index a property key denotes, when it is a canonical numeric
string below `2^32 - 1`; such keys are enumerated first, in ascending order. -/
def arrayIndex? (k : String) : Option Nat :=
  if k.data ≠ [] ∧ k.data.all Char.isDigit ∧ (k.data.head? ≠ some '0' ∨ k.data.length = 1)
      ∧ digitsValue k.data < 4294967295 then
    some (digitsValue k.data)
  else none

/-- Position at which a new array-index key `n` is inserted: before the first
property that is not an array index or has a larger index. -/
def insertIndexProp {α : Type} (n : Nat) (k : String) (v : α) :
    List (String × α) → List (String × α)
  | [] => [(k, v)]
  | (k', v') :: ps =>
    match arrayIndex? k' with
    | some m => if m < n then (k', v') :: insertIndexProp n k v ps else (k, v) :: (k', v') :: ps
    | none => (k, v) :: (k', v') :: ps

/-- Assignment `r[k] = v` on the property list of an object: an existing key
keeps its position, a new array-index key goes to its numeric position, any
other new key is appended. -/
def setProp {α : Type} (props : List (String × α)) (k : String) (v : α) :
    List (String × α) :=
  if props.any (fun p => p.1 == k) then
    props.map (fun p => if p.1 == k then (k, v) else p)
  else
    match arrayIndex? k with
    | some n => insertIndexProp n k v props
    | none => props ++ [(k, v)]

/-! ## `JSON.stringify` and `String(x)` -/

/-- Lower-case hexadecimal digit. -/
def hexDigit (n : Nat) : Char :=
  if n < 10 then Char.ofNat (48 + n) else Char.ofNat (87 + n)

/-- Escape of one character inside a JSON string literal. -/
def jsonEscapeChar (c : Char) : List Char :=
  if c = '"' then ['\\', '"']
  else if c = '\\' then ['\\', '\\']
  else if c.toNat = 8 then ['\\', 'b']
  else if c.toNat = 9 then ['\\', 't']
  else if c.toNat = 10 then ['\\', 'n']
  else if c.toNat = 12 then ['\\', 'f']
  else if c.toNat = 13 then ['\\', 'r']
  else if c.toNat < 32 then ['\\', 'u', '0', '0', hexDigit (c.toNat / 16), hexDigit (c.toNat % 16)]
  else [c]

/-- JSON string literal for `s`. -/
def jsonQuote (s : String) : String :=
  String.mk ('"' :: (s.data.flatMap jsonEscapeChar ++ ['"']))

mutual
/-- Embedding of `JSON.stringify(v)`; `none` is the result `undefined`. -/
def jsonStringify : JsValue → Option String
  | .undefined => none
  | .null => some "null"
  | .bool b => some (if b then "true" else "false")
  | .num n => some (toString n)
  | .str s => some (jsonQuote s)
  | .arr items => some ("[" ++ ",".intercalate (jsonStringifyItems items) ++ "]")
  | .obj props => some ("\x7b" ++ ",".intercalate (jsonStringifyProps props) ++ "\x7d")
/-- Serialised elements of an array; `undefined` elements become `null`. -/
def jsonStringifyItems : List JsValue → List String
  | [] => []
  | v :: vs => (jsonStringify v).getD "null" :: jsonStringifyItems vs
/-- Serialised members of an object; members whose value is `undefined` are
omitted. -/
def jsonStringifyProps : List (String × JsValue) → List String
  | [] => []
  | (k, v) :: ps =>
    match jsonStringify v with
    | none => jsonStringifyProps ps
    | some s => (jsonQuote k ++ ":" ++ s) :: jsonStringifyProps ps
end

mutual
/-- Embedding of `String(v)`. -/
def jsString : JsValue → String
  | .undefined => "undefined"
  | .null => "null"
  | .bool b => if b then "true" else "false"
  | .num n => toString n
  | .str s => s
  | .arr items => ",".intercalate (jsStringItems items)
  | .obj _ => "[object Object]"
/-- Elements of an array as `Array.prototype.join` renders them. -/
def jsStringItems : List JsValue → List String
  | [] => []
  | .undefined :: vs => "" :: jsStringItems vs
  | .null :: vs => "" :: jsStringItems vs
  | v :: vs => jsString v :: jsStringItems vs
end

/-- Embedding of `Object.keys(v)` for an object or an array. -/
def objectKeys : JsValue → List String
  | .obj props => props.map Prod.fst
  | .arr items => (List.range items.length).map toString
  | _ => []

/-- Property read `v[k]` for an object or an array. -/
def readKey (v : JsValue) (k : String) : JsValue :=
  match v with
  | .obj props => (props.lookup k).getD .undefined
  | .arr items =>
    match arrayIndex? k with
    | some n => items.getD n .undefined
    | none => .undefined
  | _ => .undefined

/-! ## Request identity (`request.js` 46-58) -/

/-- Embedding of `getSortedString` (`request.js` 47-54): the keys of `obj` are
sorted, copied one by one into a fresh object and the copy is serialised. -/
def getSortedString (obj : JsValue) : String :=
  if !obj.truthy || !obj.typeofIsObject then jsString obj
  else
    (jsonStringify
      (.obj ((jsSort (objectKeys obj)).foldl (fun r k => setProp r k (readKey obj k)) []))).getD
      "undefined"

/-- The fields of a request descriptor (`options` of `request`). -/
structure RequestOptions where
  url : String
  method : Option String := none
  data : JsValue := .undefined
  header : List (String × String) := []
  loading : Option Bool := none
  loadingText : Option String := none
  showError : Option Bool := none
  cancelPrevious : Bool := false
  timeout : Option Nat := none
  _tokenRefreshed : Bool := false
  deriving Repr, Inhabited

/-- Embedding of `generateRequestId` (`request.js` 55-58). A missing or empty
method counts as `GET`. -/
def generateRequestId (o : RequestOptions) : String :=
  let safeMethod := toUpperCase (match o.method with
    | some m => if m != "" then m else "GET"
    | none => "GET")
  safeMethod ++ "_" ++ o.url ++ "_" ++ getSortedString o.data

/-! ## Application state -/

/-- An `Error` instance: its `message` and the `silent` flag the interceptors
set on it. An `Error` instance is an object, hence truthy. -/
structure JsError where
  message : String
  silent : Bool := false
  deriving Repr, Inhabited, DecidableEq

/-- The own properties of an `Error` instance as a value. -/
def JsError.toJs (e : JsError) : JsValue :=
  .obj [("message", .str e.message), ("silent", .bool e.silent)]

/-- How the promise returned by `_performRefresh` settles. -/
inductive RefreshOutcome where
  | resolved (tokenData : JsValue)
  | rejected (error : JsError)
  deriving Repr, Inhabited

/-- The promise stored in `refreshPromise`: its identity and its outcome. -/
structure RefreshPromise where
  id : Nat
  outcome : RefreshOutcome
  deriving Repr, Inhabited

/-- An entry of `pendingQueue` (`tokenManager.js` 134-138); `id` identifies the
promise whose `resolve` and `reject` the entry holds. -/
structure Waiter where
  id : Nat
  config : RequestOptions
  deriving Repr, Inhabited

/-- How a queued waiter is settled. -/
inductive WaiterOutcome where
  | resolved (config : RequestOptions)
  | rejected (error : JsError)
  deriving Repr, Inhabited

/-- An observable event, in the order it happens: a call into the platform, the
settlement of a queued waiter, and the calls of `refreshToken` and
`_performRefresh` themselves. -/
inductive Effect where
  | refreshTokenCalled
  | performRefresh
  | waiterSettled (waiter : Nat) (outcome : WaiterOutcome)
  | setTimeout (ms : Nat)
  | reLaunch (url : String)
  | uniRequest (task : Nat) (options : RequestOptions)
  | abort (task : Nat)
  | showLoading (title : String)
  | hideLoading
  | showToast (title : JsValue)
  deriving Repr, Inhabited

/-- Effect is a `uni.request` invocation. -/
def Effect.isUniRequest : Effect → Bool
  | .uniRequest _ _ => true
  | _ => false

/-- Effect is an execution of `_performRefresh`. -/
def Effect.isPerformRefresh : Effect → Bool
  | .performRefresh => true
  | _ => false

/-- Effect is a call of `refreshToken`. -/
def Effect.isRefreshTokenCalled : Effect → Bool
  | .refreshTokenCalled => true
  | _ => false

/-- The record `TokenManager.config` (`tokenManager.js` 11-15) with the defaults of
`config/token.js`. -/
structure TokenConfig where
  enableAutoRefresh : Bool := false
  bufferTime : Nat := 5 * 60 * 1000
  redirectDelay : Nat := 3000
  deriving Repr, Inhabited, DecidableEq

/-- The uni storage keys the token manager uses; `none` is a missing key. -/
structure TokenStorage where
  token : Option String := none
  refreshToken : Option String := none
  expiresTime : Option Nat := none
  userId : Option String := none
  deriving Repr, Inhabited, DecidableEq

/-- An entry of `getCurrentPages()`. -/
structure Page where
  route : Option String := none
  deriving Repr, Inhabited, DecidableEq

/-- Values read from `utils/env.js`; `failure` is the error its getters throw
when the environment type cannot be resolved. -/
structure Env where
  failure : Option JsError := none
  API_BASE_URL : String := ""
  TENANT_ID : String := ""
  LOGIN_USER_TYPE : String := ""
  deriving Repr, Inhabited, DecidableEq

/-- All mutable state the request core reads and writes. -/
structure App where
  /- `TokenManager` instance -/
  refreshPromise : Option RefreshPromise := none
  pendingQueue : List Waiter := []
  redirecting : Bool := false
  config : TokenConfig := {}
  /- platform -/
  storage : TokenStorage := {}
  pages : List Page := []
  now : Nat := 0
  env : Env := {}
  /- module state of `request.js` -/
  requestTaskMap : List (String × Nat) := []
  pendingRequests : List String := []
  loadingCount : Int := 0
  lastErrorTime : Nat := 0
  lastErrorMessage : JsValue := .str ""
  /- bookkeeping of the embedding -/
  nextPromise : Nat := 0
  nextTask : Nat := 0
  trace : List Effect := []
  deriving Repr, Inhabited

/-- Append one effect to the trace. -/
def App.emit (a : App) (e : Effect) : App := { a with trace := a.trace ++ [e] }

/-- Number of `uni.request` invocations so far. -/
def App.transportCalls (a : App) : Nat := a.trace.countP Effect.isUniRequest

/-- Number of `_performRefresh` executions so far. -/
def App.refreshExecutions (a : App) : Nat := a.trace.countP Effect.isPerformRefresh

/-- Number of `refreshToken` calls so far. -/
def App.refreshTokenCalls (a : App) : Nat := a.trace.countP Effect.isRefreshTokenCalled

/-! ## TokenManager (`auth/tokenManager.js`) -/

namespace TokenManager

/-- Embedding of `getToken` (60-62): `uni.getStorageSync` yields the empty
string for a missing key. -/
def getToken (a : App) : String := a.storage.token.getD ""

/-- Embedding of `getRefreshToken` (64-66). -/
def getRefreshToken (a : App) : String := a.storage.refreshToken.getD ""

/-- Embedding of `getExpiresTime` (68-70); `none` is a missing key. -/
def getExpiresTime (a : App) : Option Nat := a.storage.expiresTime

/-- Embedding of `setAutoRefresh` (23-26). -/
def setAutoRefresh (a : App) (enabled : Bool) : App :=
  { a with config := { a.config with enableAutoRefresh := enabled } }

/-- The argument of `saveToken`; `none` is an absent property. -/
structure TokenData where
  userId : Option String := none
  accessToken : Option String := none
  refreshToken : Option String := none
  expiresTime : Option Nat := none
  deriving Repr, Inhabited, DecidableEq

/-- Embedding of `saveToken` (72-78). -/
def saveToken (a : App) (tokenData : TokenData) : App :=
  { a with storage :=
      { token := tokenData.accessToken, refreshToken := tokenData.refreshToken,
        expiresTime := tokenData.expiresTime, userId := tokenData.userId } }

/-- Embedding of `isOnLoginPage` (54-58). -/
def isOnLoginPage (a : App) : Bool :=
  match a.pages.getLast? with
  | some currentPage =>
    match currentPage.route with
    | some route => includes route "login"
    | none => false
  | none => false

/-- Embedding of `isTokenExpired` (87-91); `!expiresTime` holds for a missing
key and for `0`. -/
def isTokenExpired (a : App) : Bool :=
  match getExpiresTime a with
  | none => true
  | some expiresTime =>
    if expiresTime = 0 then true else decide (a.now ≥ expiresTime)

/-- Embedding of `isTokenExpiringSoon` (48-52). -/
def isTokenExpiringSoon (a : App) : Bool :=
  match getExpiresTime a with
  | none => true
  | some expiresTime =>
    if expiresTime = 0 then true
    else decide ((a.now : Int) ≥ (expiresTime : Int) - (a.config.bufferTime : Int))

/-- Embedding of `_safeRedirectToLogin` (153-172), the part that runs when it
is called; the timer and the `fail` callback of `uni.reLaunch` run later. -/
def _safeRedirectToLogin (a : App) : App :=
  if a.redirecting then a
  else
    let a1 := ({ a with redirecting := true }).emit (.setTimeout a.config.redirectDelay)
    if !isOnLoginPage a1 then a1.emit (.reLaunch "/pages/login/index") else a1

/-- Embedding of `_performRefresh` (112-130). The call of the refresh
interface and `saveToken` are commented out in the source, so the `try` block
only logs and returns `{}`; its `catch` block cannot be entered. -/
def _performRefresh (a : App) : App × RefreshOutcome :=
  let a1 := a.emit .performRefresh
  let refreshToken := getRefreshToken a1
  if refreshToken = "" then
    (a1, .rejected { message := "No refresh token available" })
  else
    (a1, .resolved (.obj []))

/-- Embedding of `addToQueue` (132-140): the new waiter and the state with the
waiter appended. -/
def addToQueue (a : App) (requestConfig : RequestOptions) : App × Waiter :=
  let w : Waiter := { id := a.nextPromise, config := requestConfig }
  ({ a with pendingQueue := a.pendingQueue ++ [w], nextPromise := a.nextPromise + 1 }, w)

/-- Body of the `forEach` callback of `_processPendingQueue` (143-149). -/
def settleWaiter (error : Option JsError) (w : Waiter) : WaiterOutcome :=
  match error with
  | some e => .rejected e
  | none => .resolved { w.config with _tokenRefreshed := true }

/-- Embedding of `_processPendingQueue` (142-151). -/
def _processPendingQueue (a : App) (error : Option JsError) (_tokenData : Option JsValue) : App :=
  { a with
    trace := a.trace ++ a.pendingQueue.map (fun w => .waiterSettled w.id (settleWaiter error w))
    pendingQueue := [] }

/-- Embedding of `refreshToken` (93-110) up to its `await`: what runs when it
is called. Returns the promise the caller waits on. -/
def refreshTokenCall (a : App) : App × RefreshPromise :=
  let a0 := a.emit .refreshTokenCalled
  match a0.refreshPromise with
  | some p => (a0, p)
  | none =>
    let r := _performRefresh a0
    let p : RefreshPromise := { id := r.1.nextPromise, outcome := r.2 }
    ({ r.1 with refreshPromise := some p, nextPromise := r.1.nextPromise + 1 }, p)

/-- Embedding of `refreshToken` (100-109) after its `await`: the continuation
of the call that started the refresh `p`. -/
def refreshTokenResume (a : App) (p : RefreshPromise) : App :=
  let a1 := match p.outcome with
    | .resolved result => _processPendingQueue a none (some result)
    | .rejected error => _processPendingQueue a (some error) none
  { a1 with refreshPromise := none }

/-- Embedding of `await this.refreshToken()`: the call, then the continuation of
the call that started the refresh (it was suspended first, so it runs before
any later caller is resumed), then the outcome the caller observes. -/
def refreshToken (a : App) : App × Except JsError JsValue :=
  let r := refreshTokenCall a
  let a2 := refreshTokenResume r.1 r.2
  match r.2.outcome with
  | .resolved result => (a2, .ok result)
  | .rejected error => (a2, .error error)

/-- Embedding of `getValidToken` (28-46); `none` is `null`. -/
def getValidToken (a : App) : App × Option String :=
  let token := getToken a
  if token = "" then (a, none)
  else if isOnLoginPage a || !a.config.enableAutoRefresh then
    (a, if isTokenExpired a then none else some token)
  else if isTokenExpiringSoon a then
    match refreshToken a with
    | (a1, .ok _) => (a1, some (getToken a1))
    | (a1, .error _) => (a1, none)
  else (a, some token)

/-- The state after `n` calls of `refreshToken` made one after the other with
no continuation in between, and the promises the calls wait on. -/
def refreshTokenCalls : Nat → App → App × List RefreshPromise
  | 0, a => (a, [])
  | n + 1, a =>
    let r := refreshTokenCall a
    let rest := refreshTokenCalls n r.1
    (rest.1, r.2 :: rest.2)

end TokenManager

/-! ## Interceptors (`api/core/interceptors.js`) -/

/-- The operator `x || y` on values. -/
def jsOr (x y : JsValue) : JsValue := if x.truthy then x else y

/-- The test `x === n` for a number literal `n`. -/
def isNum (x : JsValue) (n : Int) : Bool :=
  match x with
  | .num m => m == n
  | _ => false

/-- The test `x === s` for a string literal `s`. -/
def isStr (x : JsValue) (s : String) : Bool :=
  match x with
  | .str t => t == s
  | _ => false

/-- The test `x === false` on an optional boolean option. -/
def isFalse (x : Option Bool) : Bool := x == some false

/-- Embedding of `isSkipTokenCheck` (94-97). -/
def isSkipTokenCheck (url : String) : Bool :=
  ["/login", "/refresh-token"].any (fun skipUrl => includes url skipUrl)

/-- Embedding of `createErrorResponse` (99-106). -/
def createErrorResponse (code message : JsValue) : JsValue :=
  .obj [("success", .bool false), ("code", code), ("message", message), ("data", .null)]

/-- Embedding of `getHttpErrorMessage` (108-119). -/
def getHttpErrorMessage (statusCode : Int) : JsValue :=
  let errorMessages : List (Int × String) :=
    [(401, "未授权，请重新登录"), (403, "拒绝访问"), (404, "请求地址不存在"),
     (500, "服务器内部错误"), (502, "网关错误"), (503, "服务不可用"), (504, "网关超时")]
  match errorMessages.lookup statusCode with
  | some m => jsOr (.str m) (.str "网络请求失败")
  | none => .str "网络请求失败"

/-- Lines 8-10 of `requestInterceptor`: a missing or empty method becomes
`GET`. -/
def defaultMethod (options : RequestOptions) : RequestOptions :=
  match options.method with
  | some m => if m != "" then options else { options with method := some "GET" }
  | none => { options with method := some "GET" }

/-- Lines 12-14 of `requestInterceptor`: a URL that does not start with `http`
is prefixed with `getAPIBaseURL()`. -/
def prefixBaseUrl (env : Env) (options : RequestOptions) : RequestOptions :=
  if !startsWith options.url "http" then { options with url := env.API_BASE_URL ++ options.url }
  else options

/-- Lines 16-21 of `requestInterceptor`: the object literal with the three
default headers followed by the spread of the caller's header. -/
def mergeHeaders (env : Env) (options : RequestOptions) : RequestOptions :=
  let defaults : List (String × String) :=
    [("tenant-id", if env.TENANT_ID != "" then env.TENANT_ID else "1"),
     ("login_user_type", if env.LOGIN_USER_TYPE != "" then env.LOGIN_USER_TYPE else "3"),
     ("Content-Type", "application/json")]
  { options with header := options.header.foldl (fun h kv => setProp h kv.1 kv.2) defaults }

/-- Lines 30-32 of `requestInterceptor`: a truthy token becomes the
`Authorization` header. -/
def attachToken (options : RequestOptions) (token : Option String) : RequestOptions :=
  match token with
  | some t =>
    if t != "" then { options with header := setProp options.header "Authorization" ("Bearer " ++ t) }
    else options
  | none => options

/-- Embedding of `requestInterceptor` (7-38). The getters of `utils/env.js`
throw when the environment cannot be resolved; `getValidToken` does not throw. -/
def requestInterceptor (a : App) (options : RequestOptions) : App × Except JsError RequestOptions :=
  match a.env.failure with
  | some e => (a, .error e)
  | none =>
    let o3 := mergeHeaders a.env (prefixBaseUrl a.env (defaultMethod options))
    if isSkipTokenCheck o3.url then (a, .ok o3)
    else
      let r := TokenManager.getValidToken a
      (r.1, .ok (attachToken o3 r.2))

/-- What `responseInterceptor` returns: a value, or the object
`{code: 'TOKEN_REFRESHED', config}` built by `handleUnauthorized`. -/
inductive InterceptorResult where
  | value (v : JsValue)
  | tokenRefreshed (config : RequestOptions)
  deriving Repr, Inhabited

/-- Embedding of `handleUnauthorized` (65-92). In the queued branch the waiter
is settled by the continuation of the refresh in flight. -/
def handleUnauthorized (a : App) (requestConfig : RequestOptions) :
    App × Except JsError InterceptorResult :=
  let refreshToken := TokenManager.getRefreshToken a
  if refreshToken = "" || !a.config.enableAutoRefresh then
    (TokenManager._safeRedirectToLogin a,
      .error { message := "未授权，请重新登录", silent := true })
  else
    match a.refreshPromise with
    | some p =>
      let q := TokenManager.addToQueue a requestConfig
      let a1 := TokenManager.refreshTokenResume q.1 p
      match p.outcome with
      | .resolved _ =>
        match TokenManager.settleWaiter none q.2 with
        | .resolved newConfig => (a1, .ok (.tokenRefreshed newConfig))
        | .rejected _ =>
          (TokenManager._safeRedirectToLogin a1,
            .error { message := "登录已过期，请重新登录", silent := true })
      | .rejected _ =>
        (TokenManager._safeRedirectToLogin a1,
          .error { message := "登录已过期，请重新登录", silent := true })
    | none =>
      match TokenManager.refreshToken a with
      | (a1, .ok _) => (a1, .ok (.tokenRefreshed { requestConfig with _tokenRefreshed := true }))
      | (a1, .error _) =>
        (TokenManager._safeRedirectToLogin a1,
          .error { message := "登录已过期，请重新登录", silent := true })

/-- A raw transport response; `config` is attached by `request` (136). -/
structure Response where
  statusCode : Int
  data : JsValue
  deriving Repr, Inhabited

/-- Embedding of `responseInterceptor` (43-63). -/
def responseInterceptor (a : App) (response : Response) (config : RequestOptions) :
    App × Except JsError InterceptorResult :=
  if response.statusCode < 200 || response.statusCode >= 300 then
    if response.statusCode = 401 then handleUnauthorized a config
    else
      (a, .ok (.value (createErrorResponse (.num response.statusCode)
        (getHttpErrorMessage response.statusCode))))
  else if response.data.truthy
      && !(match response.data.getProp "code" with | .undefined => true | _ => false) then
    if isNum (response.data.getProp "code") 0 then (a, .ok (.value response.data))
    else if isNum (response.data.getProp "code") 401 then handleUnauthorized a config
    else
      (a, .ok (.value (createErrorResponse (response.data.getProp "code")
        (jsOr (response.data.getProp "msg") (response.data.getProp "message")))))
  else (a, .ok (.value response.data))

/-! ## Dispatcher (`api/core/request.js`) -/

/-- Embedding of `Map.prototype.set`: an existing key keeps its position. -/
def mapSet (m : List (String × Nat)) (k : String) (v : Nat) : List (String × Nat) :=
  if m.any (fun p => p.1 == k) then m.map (fun p => if p.1 == k then (k, v) else p)
  else m ++ [(k, v)]

/-- Embedding of `Map.prototype.delete`. -/
def mapDelete (m : List (String × Nat)) (k : String) : List (String × Nat) :=
  m.filter (fun p => p.1 != k)

/-- Embedding of `Set.prototype.add`. -/
def setAdd (s : List String) (k : String) : List String :=
  if s.contains k then s else s ++ [k]

/-- Embedding of `Set.prototype.delete`. -/
def setDelete (s : List String) (k : String) : List String :=
  s.filter (fun x => x != k)

/-- Embedding of `showLoading` (9-14). -/
def showLoading (a : App) (title : Option String) : App :=
  let a1 := if a.loadingCount = 0 then a.emit (.showLoading (title.getD "加载中...")) else a
  { a1 with loadingCount := a1.loadingCount + 1 }

/-- Embedding of `hideLoading` (15-20). -/
def hideLoading (a : App) : App :=
  let a1 := { a with loadingCount := max (a.loadingCount - 1) 0 }
  if a1.loadingCount = 0 then a1.emit .hideLoading else a1

/-- The test `x === y` between a remembered and a new error message: values
of primitive type compare by value, two objects are never the same object. -/
def strictEq : JsValue → JsValue → Bool
  | .undefined, .undefined => true
  | .null, .null => true
  | .bool x, .bool y => x == y
  | .num x, .num y => x == y
  | .str x, .str y => x == y
  | _, _ => false

/-- Embedding of `showError` (25-44); the toast is shown by a 50 ms timer. -/
def showError (a : App) (message : JsValue) : App :=
  if strictEq a.lastErrorMessage message && decide ((a.now : Int) - (a.lastErrorTime : Int) ≤ 1500) then a
  else
    { (a.emit .hideLoading).emit (.showToast message) with
      lastErrorTime := a.now
      lastErrorMessage := message }

/-- Embedding of `cancelRequest` (63-70). -/
def cancelRequest (a : App) (requestId : String) : App :=
  match a.requestTaskMap.lookup requestId with
  | some task =>
    { a.emit (.abort task) with requestTaskMap := mapDelete a.requestTaskMap requestId }
  | none => a

/-- Embedding of `createRequestError` (212-218). -/
def createRequestError (message : String) : JsValue :=
  .obj [("code", .num (-1)), ("msg", .str (if message != "" then message else "请求处理错误")),
    ("data", .null)]

/-- Embedding of `createNetworkError` (220-227). -/
def createNetworkError (error : JsValue) : JsValue :=
  .obj [("code", .num (-1)), ("msg", .str "网络连接失败，请检查网络设置"), ("data", .null),
    ("raw", error)]

/-- Embedding of `createInterceptorError` (229-236). -/
def createInterceptorError (error : JsError) : JsValue :=
  .obj [("code", .num (-1)), ("msg", .str "请求拦截器错误"), ("data", .null), ("raw", error.toJs)]

/-- What the transport delivers for one task: exactly one of the `success` and
`fail` callbacks. -/
inductive TransportResult where
  | success (response : Response)
  | fail (error : JsValue)
  deriving Repr, Inhabited

/-- State of the promise `request` returns once nothing is left to run:
resolved, rejected, or never settled. -/
inductive Settled where
  | resolved (result : JsValue)
  | rejected (error : JsValue)
  | pending
  deriving Repr, Inhabited

/-- The constant `MAX_RETRY_COUNT` (104). -/
def MAX_RETRY_COUNT : Nat := 1

/-- The constant `RETRY_DELAY` (105). -/
def RETRY_DELAY : Nat := 100

/-- The `TypeError` raised by `result.msg` when `result` is `null` or
`undefined`; the message text is chosen by the engine. -/
def nullReadError : JsError := { message := "Cannot read properties of null" }

/-- Value of `error.errMsg && error.errMsg.includes('abort')` as a condition
(`request.js` 168); `none` when its evaluation throws a `TypeError`: `error` is
`null` or `undefined`, or `errMsg` is truthy and has no `includes` method. -/
def abortMarker (error : JsValue) : Option Bool :=
  match error with
  | .undefined => none
  | .null => none
  | _ =>
    match error.getProp "errMsg" with
    | .str m => some (m != "" && includes m "abort")
    | .arr items => some (items.any (fun x => isStr x "abort"))
    | errMsg => if errMsg.truthy then none else some false

/-- Embedding of the `fail` callback of `request` (161-178). When line 168
throws, the exception leaves the callback and the promise is never settled. -/
def requestFail (a : App) (options : RequestOptions) (requestId : String) (error : JsValue) :
    App × Settled :=
  let a1 := { a with
    requestTaskMap := mapDelete a.requestTaskMap requestId
    pendingRequests := setDelete a.pendingRequests requestId }
  let a2 := if !isFalse options.loading then hideLoading a1 else a1
  match abortMarker error with
  | none => (a2, .pending)
  | some true =>
    (a2, .rejected (.obj [("code", .str "REQUEST_CANCELLED"), ("message", .str "请求已取消")]))
  | some false =>
    let errorResult := createNetworkError error
    let a3 := if !isFalse options.showError then showError a2 (errorResult.getProp "msg") else a2
    (a3, .rejected errorResult)

/-- Embedding of `request.js` 143-158: the `success` callback once the
interceptor result is known not to be the refresh signal, with its `catch` and
`finally` blocks. -/
def requestSettle (a : App) (options : RequestOptions) (result : Except JsError JsValue) :
    App × Settled :=
  let finish (x : App × Settled) : App × Settled :=
    (if !isFalse options.loading then hideLoading x.1 else x.1, x.2)
  let caught (a : App) (error : JsError) : App × Settled :=
    let a1 := if !isFalse options.showError && !error.silent then
        showError a (jsOr (.str error.message) (.str "请求处理失败"))
      else a
    (a1, .rejected error.toJs)
  match result with
  | .error error => finish (caught a error)
  | .ok result =>
    if result.truthy && isNum (result.getProp "code") 0 then finish (a, .resolved result)
    else if !isFalse options.showError then
      match result with
      | .null => finish (caught a nullReadError)
      | .undefined => finish (caught a nullReadError)
      | _ =>
        finish (showError a (jsOr (jsOr (result.getProp "msg") (result.getProp "message"))
          (.str "请求失败")), .rejected result)
    else finish (a, .rejected result)

/-- How the part of `request` that runs before any transport callback ends:
in the `catch` block of 183-189, at the `return` of 119, or after
`requestTaskMap.set` (182). -/
inductive Dispatched where
  | interceptorFailed (errorResult : JsValue)
  | suppressed
  | issued (requestTask : Nat) (processedOptions : RequestOptions) (requestId : String)
  deriving Repr, Inhabited

/-- Embedding of `request` 110-129 and 181-182: identity, optional cancel of
the predecessor, duplicate check, registration and the transport call, for the
descriptor the interceptor returned. -/
def dispatchProcessed (a1 : App) (options processedOptions : RequestOptions) : App × Dispatched :=
  let requestId := generateRequestId processedOptions
  let a2 := if options.cancelPrevious then cancelRequest a1 requestId else a1
  if a2.pendingRequests.contains requestId && !options._tokenRefreshed then (a2, .suppressed)
  else
    let a3 := { a2 with pendingRequests := setAdd a2.pendingRequests requestId }
    let a4 := if !isFalse options.loading then showLoading a3 options.loadingText else a3
    let requestTask := a4.nextTask
    ({ a4.emit (.uniRequest requestTask processedOptions) with
        nextTask := a4.nextTask + 1
        requestTaskMap := mapSet a4.requestTaskMap requestId requestTask },
      .issued requestTask processedOptions requestId)

/-- Embedding of `request` 108-129 and 181-189: everything `request` does
before a transport callback runs. -/
def requestDispatch (a : App) (options : RequestOptions) : App × Dispatched :=
  match requestInterceptor a options with
  | (a1, .error error) =>
    let errorResult := createInterceptorError error
    let a2 := if !isFalse options.showError && !error.silent then
        showError a1 (errorResult.getProp "msg")
      else a1
    (a2, .interceptorFailed errorResult)
  | (a1, .ok processedOptions) => dispatchProcessed a1 options processedOptions

mutual
/-- Embedding of `request` (103-190) run to completion: `transport` gives, for
each task `uni.request` creates, the callback the transport later delivers. -/
def request (transport : Nat → TransportResult) (a : App) (options : RequestOptions)
    (retryCount : Nat) : App × Settled :=
  match requestDispatch a options with
  | (a2, .interceptorFailed errorResult) => (a2, .rejected errorResult)
  | (a2, .suppressed) => (a2, .pending)
  | (a5, .issued requestTask processedOptions requestId) =>
    match transport requestTask with
    | .fail error => requestFail a5 options requestId error
    | .success response =>
      let a6 := { a5 with
        requestTaskMap := mapDelete a5.requestTaskMap requestId
        pendingRequests := setDelete a5.pendingRequests requestId }
      match responseInterceptor a6 response processedOptions with
      | (a7, .ok (.tokenRefreshed config)) =>
        handleTokenRefreshRetry transport
          (if !isFalse options.loading then hideLoading a7 else a7) (some config) retryCount
      | (a7, .ok (.value result)) =>
        if isStr (result.getProp "code") "TOKEN_REFRESHED" then
          handleTokenRefreshRetry transport
            (if !isFalse options.loading then hideLoading a7 else a7) none retryCount
        else requestSettle a7 options (.ok result)
      | (a7, .error error) => requestSettle a7 options (.error error)
termination_by 2 * (MAX_RETRY_COUNT + 1 - retryCount) + 1
decreasing_by all_goals simp_wf
/-- Embedding of `handleTokenRefreshRetry` (192-205). `config` is `none` when
`result.config` is `undefined`: the inner `request(undefined, ...)` then throws
inside its own `catch` block and its promise never settles. -/
def handleTokenRefreshRetry (transport : Nat → TransportResult) (a : App)
    (config : Option RequestOptions) (currentRetryCount : Nat) : App × Settled :=
  if _h : currentRetryCount ≥ MAX_RETRY_COUNT then
    (a, .rejected (createRequestError "重试次数超限"))
  else
    match config with
    | some config => request transport (a.emit (.setTimeout RETRY_DELAY)) config (currentRetryCount + 1)
    | none => (a.emit (.setTimeout RETRY_DELAY), .pending)
termination_by 2 * (MAX_RETRY_COUNT + 1 - currentRetryCount)
decreasing_by all_goals simp_wf; all_goals (simp [MAX_RETRY_COUNT] at *; omega)
end

/-! ## Cancellation of several requests (`request.js` 72-98) -/

/-- Embedding of `cancelAllRequests` (75-81): every registered task is aborted
in insertion order, then the map is cleared. -/
def cancelAllRequests (a : App) : App :=
  { a with
    trace := a.trace ++ a.requestTaskMap.map (fun p => .abort p.2)
    requestTaskMap := [] }

/-- Embedding of `cancelRequestsByUrl` (86-98): the `forEach` aborts, in
insertion order, every task whose request id includes `url` and collects its
key; the collected keys are deleted afterwards. -/
def cancelRequestsByUrl (a : App) (url : String) : App :=
  let hits := a.requestTaskMap.filter (fun p => includes p.1 url)
  let keysToDelete := hits.map Prod.fst
  { a with
    trace := a.trace ++ hits.map (fun p => .abort p.2)
    requestTaskMap := keysToDelete.foldl (fun m key => mapDelete m key) a.requestTaskMap }

/-- Effect is a call of `task.abort()` on the given task. -/
def Effect.isAbortOf (task : Nat) : Effect → Bool
  | .abort t => t == task
  | _ => false

/-! ## Events of the redirect guard (`tokenManager.js` 153-172) -/

/-- Effect is a call of `uni.reLaunch`. -/
def Effect.isReLaunch : Effect → Bool
  | .reLaunch _ => true
  | _ => false

/-- Number of `uni.reLaunch` invocations so far. -/
def App.reLaunchCalls (a : App) : Nat := a.trace.countP Effect.isReLaunch

/-- The timer callback set up by `_safeRedirectToLogin` (158-160). -/
def redirectTimerFires (a : App) : App := { a with redirecting := false }

/-- The `fail` callback handed to `uni.reLaunch` (166-169). -/
def reLaunchFail (a : App) : App := { a with redirecting := false }

/-- What can happen around the redirect guard: a call of
`_safeRedirectToLogin`, the timer of an earlier call firing, the `fail`
callback of an earlier `uni.reLaunch`, and a change of the page stack. -/
inductive RedirectEvent where
  | call
  | timerFires
  | reLaunchFails
  | pagesChange (pages : List Page)
  deriving Repr, Inhabited

/-- Event is the timer callback. -/
def RedirectEvent.isTimer : RedirectEvent → Bool
  | .timerFires => true
  | _ => false

/-- Event is the `fail` callback of `uni.reLaunch`. -/
def RedirectEvent.isReLaunchFail : RedirectEvent → Bool
  | .reLaunchFails => true
  | _ => false

/-- One event applied to the state. -/
def redirectStep (a : App) : RedirectEvent → App
  | .call => TokenManager._safeRedirectToLogin a
  | .timerFires => redirectTimerFires a
  | .reLaunchFails => reLaunchFail a
  | .pagesChange pages => { a with pages := pages }

/-- The events applied one after the other. -/
def runRedirect (events : List RedirectEvent) (a : App) : App := events.foldl redirectStep a

/-! ## Sequences of loading and error calls (`request.js` 7-44) -/

/-- A call of `showLoading(title)` or of `hideLoading()`. -/
inductive LoadingCall where
  | showLoading (title : Option String)
  | hideLoading
  deriving Repr, Inhabited

/-- One loading call applied to the state. -/
def loadingStep (a : App) : LoadingCall → App
  | .showLoading title => showLoading a title
  | .hideLoading => hideLoading a

/-- The loading calls applied one after the other. -/
def runLoading (calls : List LoadingCall) (a : App) : App := calls.foldl loadingStep a

/-- The call `showError(message)` made when `Date.now()` is `time`. -/
def showErrorAt (a : App) (call : Nat × JsValue) : App :=
  showError { a with now := call.1 } call.2

/-- The calls of `showError`, each with its time, applied one after the other. -/
def runErrors (calls : List (Nat × JsValue)) (a : App) : App := calls.foldl showErrorAt a

/-- Titles of the toasts requested so far, oldest first. -/
def toastTitles : List Effect → List JsValue
  | [] => []
  | .showToast title :: es => title :: toastTitles es
  | _ :: es => toastTitles es

/-! ## File upload (`api/upload.js`) -/

/-- What the platform delivers for one `uni.uploadFile` task: the `success`
callback with `res.statusCode` and `res.data`, or the `fail` callback with
`err`. -/
inductive UploadDelivery where
  | success (statusCode : Int) (data : JsValue)
  | fail (err : JsValue)
  deriving Repr, Inhabited

/-- How the promise `uploadFile` returns ends: resolved, rejected with an
`Error`, or never settled. -/
inductive UploadOutcome where
  | resolved (result : JsValue)
  | rejected (error : JsError)
  | pending
  deriving Repr, Inhabited

/-- Value of `err.errMsg?.includes('timeout')` as a condition (`upload.js` 110);
`none` when its evaluation throws a `TypeError`: `err` is `null` or
`undefined`, or `errMsg` is neither `null`, `undefined`, a string nor an array. -/
def timeoutMarker (err : JsValue) : Option Bool :=
  match err with
  | .undefined => none
  | .null => none
  | _ =>
    match err.getProp "errMsg" with
    | .undefined => some false
    | .null => some false
    | .str m => some (includes m "timeout")
    | .arr items => some (items.any (fun x => isStr x "timeout"))
    | _ => none

/-- Embedding of `uploadFile` (50-129) as the way its promise ends, for the
callback the platform delivers. `jsonParse` is `JSON.parse` (`none` when it
throws), `url` the option of that name. An exception thrown inside the `success`
or `fail` callback leaves the callback, and the promise is never settled: that is
the read of `data.msg` on a `null` or `undefined` body (102) and the `TypeError`
of line 110. The loading counter and the toast of `upload.js` do not influence
how the promise ends and are left out, as is the state the interceptor leaves. -/
def uploadFile (jsonParse : String → Option JsValue) (a : App) (url : Option String)
    (delivery : UploadDelivery) : UploadOutcome :=
  let requestUrl := match url with
    | some u => if u != "" then u else "/api/upload"
    | none => "/api/upload"
  match (requestInterceptor a { url := requestUrl, method := some "POST" }).2 with
  | .error _ => .rejected { message := "上传请求配置错误" }
  | .ok _ =>
    match delivery with
    | .success statusCode resData =>
      if statusCode ≠ 200 then
        .rejected { message := "HTTP 状态码异常: " ++ jsString (.num statusCode) }
      else
        match (match resData with
          | .str text => jsonParse text
          | v => some v) with
        | none => .rejected { message := "响应不是有效 JSON" }
        | some data =>
          if isNum (data.getProp "code") 0 || isNum (data.getProp "code") 200 then
            .resolved (.obj [("code", .num 0),
              ("data", jsOr (data.getProp "data") (data.getProp "url")),
              ("msg", .str "success"),
              ("raw", .obj [("statusCode", .num statusCode), ("data", resData)])])
          else
            match data with
            | .null => .pending
            | .undefined => .pending
            | _ =>
              .rejected { message := jsString (jsOr (data.getProp "msg")
                (.str ("业务错误: " ++ jsString (data.getProp "code")))) }
    | .fail err =>
      match timeoutMarker err with
      | none => .pending
      | some timedOut => .rejected { message := if timedOut then "上传超时" else "网络错误" }

/-- An entry of the `success` list of `uploadBatch`. -/
structure UploadSuccess where
  index : Nat
  result : JsValue
  file : JsValue
  deriving Repr, Inhabited

/-- An entry of the `failed` list of `uploadBatch`. -/
structure UploadFailure where
  index : Nat
  error : JsError
  file : JsValue
  deriving Repr, Inhabited

/-- The options of `uploadBatch` that influence its result: `concurrency`
(`none` when absent), `onFileComplete` (`none` when absent; the function gives
the `Error` the callback throws, if it throws, for the index and the result or
error it is called with) and `url`, which is passed on to `uploadFile`. -/
structure BatchOptions where
  concurrency : Option Nat := none
  onFileComplete : Option (Nat → Except JsError JsValue → Option JsError) := none
  url : Option String := none

/-- How the promise of one callback of `batch.map` (161-179) ends: fulfilled
with the object of line 174 or of line 177, rejected, or never settled. -/
inductive BatchPromise where
  | fulfilledResult (value : UploadSuccess)
  | fulfilledError (value : UploadFailure)
  | rejected (reason : JsError)
  | pending
  deriving Repr, Inhabited

/-- Test for a promise that never settles. -/
def BatchPromise.isPending : BatchPromise → Bool
  | .pending => true
  | _ => false

/-- The call `onFileComplete?.(index, ...)`: the `Error` it throws, if any. -/
def completeFile (options : BatchOptions) (index : Nat) (outcome : Except JsError JsValue) :
    Option JsError :=
  match options.onFileComplete with
  | none => none
  | some callback => callback index outcome

/-- Embedding of the `catch` block of the `batch.map` callback (175-178). -/
def batchCatch (options : BatchOptions) (index : Nat) (file : JsValue) (error : JsError) :
    BatchPromise :=
  match completeFile options index (.error error) with
  | some thrown => .rejected thrown
  | none => .fulfilledError { index := index, error := error, file := file }

/-- Embedding of the callback of `batch.map` (161-179) for the file with
global index `index`; `deliver` gives what the platform delivers for the upload
of each index. Reading `file.filePath` throws when `file` is `null` or
`undefined`; an exception of `onFileComplete` in the `try` block is caught like
a failed upload. -/
def batchCallback (jsonParse : String → Option JsValue) (a : App) (deliver : Nat → UploadDelivery)
    (options : BatchOptions) (index : Nat) (file : JsValue) : BatchPromise :=
  match file with
  | .null => batchCatch options index file nullReadError
  | .undefined => batchCatch options index file nullReadError
  | _ =>
    match uploadFile jsonParse a options.url (deliver index) with
    | .pending => .pending
    | .rejected error => batchCatch options index file error
    | .resolved result =>
      match completeFile options index (.ok result) with
      | some thrown => batchCatch options index file thrown
      | none => .fulfilledResult { index := index, result := result, file := file }

/-- The local variables `results` and `errors` of `uploadBatch`. -/
structure BatchState where
  results : List UploadSuccess := []
  errors : List UploadFailure := []
  deriving Repr, Inhabited

/-- The object `uploadBatch` returns (195-201). -/
structure BatchResult where
  success : List UploadSuccess
  failed : List UploadFailure
  total : Nat
  successCount : Nat
  failedCount : Nat
  deriving Repr, Inhabited

/-- Body of the `forEach` over the settled batch (183-192): only entries with
status `fulfilled` are read; one with an `error` goes to `errors` (an `Error`
instance is truthy), any other to `results`. -/
def collectSettled (st : BatchState) (p : BatchPromise) : BatchState :=
  match p with
  | .fulfilledError value => { st with errors := st.errors ++ [value] }
  | .fulfilledResult value => { st with results := st.results ++ [value] }
  | .rejected _ => st
  | .pending => st

/-- Embedding of the `for` loop of `uploadBatch` (158-193). All callbacks of a
batch are started before `Promise.allSettled` is awaited; when one of their
promises never settles the `await` never returns. The loop itself need not end
either: `fuel` bounds the number of iterations. `none` is returned when the
function does not return within `fuel` iterations. -/
def uploadBatchLoop (jsonParse : String → Option JsValue) (a : App) (deliver : Nat → UploadDelivery)
    (options : BatchOptions) (files : List JsValue) (concurrency : Nat) :
    Nat → Nat → BatchState → Option BatchState
  | 0, _, _ => none
  | fuel + 1, i, st =>
    if i < files.length then
      let batch := (files.drop i).take concurrency
      let batchPromises := batch.enum.map
        (fun bf => batchCallback jsonParse a deliver options (i + bf.1) bf.2)
      if batchPromises.any BatchPromise.isPending then none
      else
        uploadBatchLoop jsonParse a deliver options files concurrency fuel (i + concurrency)
          (batchPromises.foldl collectSettled st)
    else some st

/-- Embedding of `uploadBatch` (152-202); `concurrency` is 3 when the option is
absent. -/
def uploadBatch (jsonParse : String → Option JsValue) (a : App) (deliver : Nat → UploadDelivery)
    (files : List JsValue) (options : BatchOptions) (fuel : Nat) : Option BatchResult :=
  match uploadBatchLoop jsonParse a deliver options files (options.concurrency.getD 3) fuel 0 {} with
  | none => none
  | some st =>
    some { success := st.results, failed := st.errors, total := files.length,
           successCount := st.results.length, failedCount := st.errors.length }

/-! ## Definitions used to state the properties -/

/-- Equality of two bodies as JSON values up to the order of object keys, at
any nesting depth (stated from the wording of the specification). -/
inductive JsonEquiv : JsValue → JsValue → Prop where
  | refl (v : JsValue) : JsonEquiv v v
  | trans {u v w : JsValue} : JsonEquiv u v → JsonEquiv v w → JsonEquiv u w
  | objPerm {ps qs : List (String × JsValue)} : ps.Perm qs → JsonEquiv (.obj ps) (.obj qs)
  | objCons {k : String} {v w : JsValue} {ps qs : List (String × JsValue)} :
      JsonEquiv v w → JsonEquiv (.obj ps) (.obj qs) →
      JsonEquiv (.obj ((k, v) :: ps)) (.obj ((k, w) :: qs))
  | arrCons {v w : JsValue} {xs ys : List JsValue} :
      JsonEquiv v w → JsonEquiv (.arr xs) (.arr ys) →
      JsonEquiv (.arr (v :: xs)) (.arr (w :: ys))

/-- The second state differs from the first only in the fields of the token
manager, and its trace holds the same `uni.request` invocations. -/
structure TokenFrame (a b : App) : Prop where
  storage : b.storage = a.storage
  config : b.config = a.config
  pages : b.pages = a.pages
  now : b.now = a.now
  env : b.env = a.env
  requestTaskMap : b.requestTaskMap = a.requestTaskMap
  pendingRequests : b.pendingRequests = a.pendingRequests
  loadingCount : b.loadingCount = a.loadingCount
  lastErrorTime : b.lastErrorTime = a.lastErrorTime
  lastErrorMessage : b.lastErrorMessage = a.lastErrorMessage
  nextTask : b.nextTask = a.nextTask
  transportCalls : b.transportCalls = a.transportCalls

/-- Waiters enqueued one after the other by `addToQueue`. -/
def enqueueAll : List RequestOptions → App → App
  | [], a => a
  | c :: cs, a => enqueueAll cs (TokenManager.addToQueue a c).1

/-- URLs of the `uni.request` calls of a trace, oldest first. -/
def requestedUrls : List Effect → List String
  | [] => []
  | .uniRequest _ options :: es => options.url :: requestedUrls es
  | _ :: es => requestedUrls es

/-! ## Concrete inputs -/

/-- A body with a nested object. -/
def nestedBodyA : JsValue := .obj [("filter", .obj [("x", .num 1), ("y", .num 2)])]

/-- The body `nestedBodyA` with the keys of the nested object written in the
other order. -/
def nestedBodyB : JsValue := .obj [("filter", .obj [("y", .num 2), ("x", .num 1)])]

/-- A `GET` request with no body. -/
def ordersRequest : RequestOptions := { url := "https://api.example.com/orders", method := some "GET" }

/-- The identity of `ordersRequest`. -/
def ordersRequestId : String := "GET_https://api.example.com/orders_undefined"

/-- Auto-refresh on, not on the login page, a token that expires in 10 s with
the default buffer of 5 min, and a refresh token in storage. -/
def staleTokenApp : App :=
  { config := { enableAutoRefresh := true }
    storage := { token := some "old-token", refreshToken := some "refresh-1",
                 expiresTime := some 1700000010000 }
    now := 1700000000000 }

/-- A transport that answers every task with HTTP status 401. -/
def alwaysUnauthorized : Nat → TransportResult :=
  fun _ => .success { statusCode := 401, data := .null }

/-- The retry-exhausted error `createRequestError('重试次数超限')`. -/
def retryExhaustedError : JsValue :=
  .obj [("code", .num (-1)), ("msg", .str "重试次数超限"), ("data", .null)]

/-- A `POST` request whose body, not its URL, mentions `/api/user`. -/
def saveRequest : RequestOptions :=
  { url := "https://api.example.com/save", method := some "POST",
    data := .obj [("path", .str "/api/user")] }

/-- A `GET` request whose URL contains `/api/user`. -/
def userRequest : RequestOptions := { url := "https://api.example.com/api/user", method := some "GET" }

/-- The state after `setAutoRefresh(true)`, a call of `refreshToken()` while no
refresh token is stored, and the `saveToken` of a login, made one after the
other before the continuation of the refresh runs: the refresh in flight is
rejected, and a refresh token is stored. -/
def rejectedRefreshInFlightApp : App :=
  TokenManager.saveToken
    (TokenManager.refreshTokenCall (TokenManager.setAutoRefresh {} true)).1
    { userId := some "u-1", accessToken := some "new-token", refreshToken := some "refresh-2",
      expiresTime := some 1700000600000 }

/-- A transport response with status 404. -/
def notFoundResponse : Response := { statusCode := 404, data := .null }

/-- A 2xx body with a business failure code, an empty `msg` and a `message`. -/
def emptyMsgResponse : Response :=
  { statusCode := 200,
    data := .obj [("code", .num 500), ("msg", .str ""), ("message", .str "detail")] }

/-- A 2xx body with a business failure code and a `message` but no `msg`. -/
def messageOnlyResponse : Response :=
  { statusCode := 200, data := .obj [("code", .num 500), ("message", .str "detail")] }

/-- A state with a stored token that is far from expiry. -/
def validTokenApp : App :=
  { storage := { token := some "tok-1", expiresTime := some 2000000 }, now := 1000 }

/-- A descriptor whose caller supplies its own `Authorization` header. -/
def basicAuthRequest : RequestOptions :=
  { url := "https://api.example.com/orders",
    header := [("Authorization", "Basic abc"), ("X-Trace", "1")] }

/-- A file to upload. -/
def pngFile : JsValue := .obj [("filePath", .str "/tmp/a.png")]

/-- The text of a response body that reports a stored file. -/
def uploadedBodyText : String :=
  "\x7b\"code\":0,\"url\":\"https://cdn.example.com/a.png\"\x7d"

/-- The function `JSON.parse` on the two response texts of the examples. -/
def parseExamples : String → Option JsValue := fun text =>
  if text = "null" then some .null
  else if text = uploadedBodyText then
    some (.obj [("code", .num 0), ("url", .str "https://cdn.example.com/a.png")])
  else none

/-- A server that answers every upload with status 200 and the body `null`. -/
def nullBodyDelivery : Nat → UploadDelivery := fun _ => .success 200 (.str "null")

/-- A server that answers every upload with status 200 and `uploadedBodyText`. -/
def uploadedDelivery : Nat → UploadDelivery := fun _ => .success 200 (.str uploadedBodyText)

/-- An `onFileComplete` callback that throws when it is told of a success. -/
def throwsOnSuccess : Nat → Except JsError JsValue → Option JsError := fun _ outcome =>
  match outcome with
  | .ok _ => some { message := "render failed" }
  | .error _ => none

/-- A 2xx body without a `code` field. -/
def plainBodyResponse : Response := { statusCode := 200, data := .obj [("list", .arr [])] }

/-- A transport that answers every task with `plainBodyResponse`. -/
def plainBodyTransport : Nat → TransportResult := fun _ => .success plainBodyResponse

/-- A state whose API base URL is a path (a development proxy), with
auto-refresh on, a token far from expiry and a refresh token in storage. -/
def proxyEnvApp : App :=
  { env := { API_BASE_URL := "/api" }
    config := { enableAutoRefresh := true }
    storage := { token := some "old-token", refreshToken := some "refresh-1",
                 expiresTime := some 1700000600000 }
    now := 1700000000000 }

/-- A state whose API base URL is absolute, otherwise as `proxyEnvApp`. -/
def absoluteEnvApp : App :=
  { proxyEnvApp with env := { API_BASE_URL := "https://api.example.com" } }

/-- A descriptor with a relative URL and no method. -/
def userInfoRequest : RequestOptions := { url := "/user/info" }

/-! ## Properties -/

open TokenManager

/-! ### Frame lemmas -/

theorem frame_refl (a : App) : TokenFrame a a :=
  ⟨rfl, rfl, rfl, rfl, rfl, rfl, rfl, rfl, rfl, rfl, rfl, rfl⟩

theorem frame_trans {a b c : App} (h1 : TokenFrame a b) (h2 : TokenFrame b c) :
    TokenFrame a c :=
  ⟨h2.storage.trans h1.storage, h2.config.trans h1.config, h2.pages.trans h1.pages,
   h2.now.trans h1.now, h2.env.trans h1.env, h2.requestTaskMap.trans h1.requestTaskMap,
   h2.pendingRequests.trans h1.pendingRequests, h2.loadingCount.trans h1.loadingCount,
   h2.lastErrorTime.trans h1.lastErrorTime, h2.lastErrorMessage.trans h1.lastErrorMessage,
   h2.nextTask.trans h1.nextTask, h2.transportCalls.trans h1.transportCalls⟩

theorem frame_emit (a : App) (e : Effect) (h : e.isUniRequest = false) :
    TokenFrame a (a.emit e) := by
  refine ⟨rfl, rfl, rfl, rfl, rfl, rfl, rfl, rfl, rfl, rfl, rfl, ?_⟩
  simp [App.transportCalls, App.emit, List.countP_append, List.countP_cons, h]

theorem performRefresh_state (a : App) : (_performRefresh a).1 = a.emit .performRefresh := by
  unfold _performRefresh
  by_cases h : getRefreshToken (a.emit .performRefresh) = "" <;> simp [h]

theorem frame_processPendingQueue (a : App) (error : Option JsError) (d : Option JsValue) :
    TokenFrame a (_processPendingQueue a error d) := by
  refine ⟨rfl, rfl, rfl, rfl, rfl, rfl, rfl, rfl, rfl, rfl, rfl, ?_⟩
  simp only [App.transportCalls, _processPendingQueue, List.countP_append]
  rw [Nat.add_right_eq_self, List.countP_eq_zero]
  intro e he
  simp only [List.mem_map] at he
  obtain ⟨w, _, rfl⟩ := he
  simp [Effect.isUniRequest]

theorem frame_with_refreshPromise {a b : App} (h : TokenFrame a b) (p : Option RefreshPromise) :
    TokenFrame a { b with refreshPromise := p } :=
  ⟨h.storage, h.config, h.pages, h.now, h.env, h.requestTaskMap, h.pendingRequests,
    h.loadingCount, h.lastErrorTime, h.lastErrorMessage, h.nextTask, h.transportCalls⟩

theorem frame_refreshTokenResume (a : App) (p : RefreshPromise) :
    TokenFrame a (refreshTokenResume a p) := by
  unfold refreshTokenResume
  cases p.outcome with
  | resolved r => exact frame_with_refreshPromise (frame_processPendingQueue a none (some r)) none
  | rejected e => exact frame_with_refreshPromise (frame_processPendingQueue a (some e) none) none

theorem frame_refreshTokenCall (a : App) : TokenFrame a (refreshTokenCall a).1 := by
  have h1 : TokenFrame a (a.emit .refreshTokenCalled) := frame_emit a .refreshTokenCalled rfl
  unfold refreshTokenCall
  cases hp : (a.emit .refreshTokenCalled).refreshPromise with
  | some p => simpa [hp] using h1
  | none =>
    simp only [hp, performRefresh_state]
    have h2 : TokenFrame a ((a.emit .refreshTokenCalled).emit .performRefresh) :=
      frame_trans h1 (frame_emit _ .performRefresh rfl)
    exact ⟨h2.storage, h2.config, h2.pages, h2.now, h2.env, h2.requestTaskMap, h2.pendingRequests,
      h2.loadingCount, h2.lastErrorTime, h2.lastErrorMessage, h2.nextTask, h2.transportCalls⟩

theorem frame_refreshToken (a : App) : TokenFrame a (refreshToken a).1 := by
  have h := frame_trans (frame_refreshTokenCall a)
    (frame_refreshTokenResume (refreshTokenCall a).1 (refreshTokenCall a).2)
  unfold refreshToken
  dsimp only
  split <;> exact h

theorem frame_refreshToken_eq {a a1 : App} {r : Except JsError JsValue}
    (h : refreshToken a = (a1, r)) : TokenFrame a a1 := by
  have := frame_refreshToken a
  rwa [h] at this

theorem frame_getValidToken (a : App) : TokenFrame a (getValidToken a).1 := by
  unfold getValidToken
  dsimp only
  split
  · exact frame_refl a
  · split
    · exact frame_refl a
    · split
      · split
        · exact frame_refreshToken_eq ‹_›
        · exact frame_refreshToken_eq ‹_›
      · exact frame_refl a

theorem frame_getValidToken_eq {a a1 : App} {r : Option String}
    (h : getValidToken a = (a1, r)) : TokenFrame a a1 := by
  have := frame_getValidToken a
  rwa [h] at this

theorem frame_safeRedirectToLogin (a : App) : TokenFrame a (_safeRedirectToLogin a) := by
  have h0 : TokenFrame a { a with redirecting := true } :=
    ⟨rfl, rfl, rfl, rfl, rfl, rfl, rfl, rfl, rfl, rfl, rfl, rfl⟩
  have h1 := frame_trans h0 (frame_emit _ (.setTimeout a.config.redirectDelay) rfl)
  unfold _safeRedirectToLogin
  split
  · exact frame_refl a
  · dsimp only
    split
    · exact frame_trans h1 (frame_emit _ (.reLaunch "/pages/login/index") rfl)
    · exact h1

theorem frame_addToQueue (a : App) (c : RequestOptions) : TokenFrame a (addToQueue a c).1 :=
  ⟨rfl, rfl, rfl, rfl, rfl, rfl, rfl, rfl, rfl, rfl, rfl, rfl⟩

theorem frame_handleUnauthorized (a : App) (c : RequestOptions) :
    TokenFrame a (handleUnauthorized a c).1 := by
  unfold handleUnauthorized
  dsimp only
  split
  · exact frame_safeRedirectToLogin a
  · split
    · rename_i p hp
      have h1 := frame_trans (frame_addToQueue a c)
        (frame_refreshTokenResume (addToQueue a c).1 p)
      split
      · split
        · exact h1
        · exact frame_trans h1 (frame_safeRedirectToLogin _)
      · exact frame_trans h1 (frame_safeRedirectToLogin _)
    · split
      · exact frame_refreshToken_eq ‹_›
      · exact frame_trans (frame_refreshToken_eq ‹_›) (frame_safeRedirectToLogin _)

theorem frame_responseInterceptor (a : App) (r : Response) (c : RequestOptions) :
    TokenFrame a (responseInterceptor a r c).1 := by
  unfold responseInterceptor
  split
  · split
    · exact frame_handleUnauthorized a c
    · exact frame_refl a
  · split
    · split
      · exact frame_refl a
      · split
        · exact frame_handleUnauthorized a c
        · exact frame_refl a
    · exact frame_refl a

theorem frame_responseInterceptor_eq {a a1 : App} {r : Response} {c : RequestOptions}
    {x : Except JsError InterceptorResult} (h : responseInterceptor a r c = (a1, x)) :
    TokenFrame a a1 := by
  have := frame_responseInterceptor a r c
  rwa [h] at this

theorem frame_requestInterceptor (a : App) (o : RequestOptions) :
    TokenFrame a (requestInterceptor a o).1 := by
  unfold requestInterceptor
  split
  · exact frame_refl a
  · dsimp only
    split
    · exact frame_refl a
    · exact frame_getValidToken a

theorem frame_requestInterceptor_eq {a a1 : App} {o : RequestOptions}
    {x : Except JsError RequestOptions} (h : requestInterceptor a o = (a1, x)) :
    TokenFrame a a1 := by
  have := frame_requestInterceptor a o
  rwa [h] at this


theorem transportCalls_emit (a : App) (e : Effect) :
    (a.emit e).transportCalls = a.transportCalls + (if e.isUniRequest then 1 else 0) := by
  simp [App.transportCalls, App.emit, List.countP_append, List.countP_cons]

theorem transportCalls_showLoading (a : App) (t : Option String) :
    (showLoading a t).transportCalls = a.transportCalls := by
  unfold showLoading
  dsimp only
  split
  · exact (transportCalls_emit a _).trans (by simp [Effect.isUniRequest])
  · rfl

theorem transportCalls_hideLoading (a : App) : (hideLoading a).transportCalls = a.transportCalls := by
  unfold hideLoading
  dsimp only
  split
  · exact (transportCalls_emit _ _).trans (by simp [Effect.isUniRequest, App.transportCalls])
  · rfl

theorem transportCalls_showError (a : App) (m : JsValue) :
    (showError a m).transportCalls = a.transportCalls := by
  unfold showError
  split
  · rfl
  · simp [App.transportCalls, App.emit, List.countP_append, List.countP_cons, Effect.isUniRequest]

theorem transportCalls_cancelRequest (a : App) (k : String) :
    (cancelRequest a k).transportCalls = a.transportCalls := by
  unfold cancelRequest
  split
  · simp [App.transportCalls, App.emit, List.countP_append, List.countP_cons, Effect.isUniRequest]
  · rfl

theorem transportCalls_requestFail (a : App) (o : RequestOptions) (k : String) (e : JsValue) :
    (requestFail a o k e).1.transportCalls = a.transportCalls := by
  have h2 : (if (!isFalse o.loading) = true then
        hideLoading { a with requestTaskMap := mapDelete a.requestTaskMap k
                             pendingRequests := setDelete a.pendingRequests k }
      else { a with requestTaskMap := mapDelete a.requestTaskMap k
                    pendingRequests := setDelete a.pendingRequests k }).transportCalls
      = a.transportCalls := by
    split
    · exact transportCalls_hideLoading _
    · rfl
  unfold requestFail
  dsimp only
  split
  · exact h2
  · exact h2
  · dsimp only
    split
    · rw [transportCalls_showError]; exact h2
    · exact h2

theorem transportCalls_finish (a : App) (o : RequestOptions) :
    (if (!isFalse o.loading) = true then hideLoading a else a).transportCalls = a.transportCalls := by
  split
  · exact transportCalls_hideLoading _
  · rfl

theorem transportCalls_requestSettle (a : App) (o : RequestOptions) (r : Except JsError JsValue) :
    (requestSettle a o r).1.transportCalls = a.transportCalls := by
  unfold requestSettle
  dsimp only
  split
  · rw [transportCalls_finish]
    split
    · exact transportCalls_showError _ _
    · rfl
  · split
    · exact transportCalls_finish _ _
    · split
      · split
        · rw [transportCalls_finish]
          split
          · exact transportCalls_showError _ _
          · rfl
        · rw [transportCalls_finish]
          split
          · exact transportCalls_showError _ _
          · rfl
        · rw [transportCalls_finish]
          exact transportCalls_showError _ _
      · exact transportCalls_finish _ _

theorem setAdd_contains (s : List String) (k : String) : (setAdd s k).contains k = true := by
  unfold setAdd
  split
  · assumption
  · simp

theorem dispatchProcessed_suppressed (a1 : App) (o p : RequestOptions)
    (hc : o.cancelPrevious = false) (ht : o._tokenRefreshed = false)
    (hp : a1.pendingRequests.contains (generateRequestId p) = true) :
    dispatchProcessed a1 o p = (a1, .suppressed) := by
  unfold dispatchProcessed
  simp only [hc, ht, Bool.false_eq_true, if_false, hp, Bool.not_false, Bool.and_self, if_true]

theorem showLoading_fields (a : App) (t : Option String) :
    (showLoading a t).pendingRequests = a.pendingRequests ∧ (showLoading a t).env = a.env ∧
    (showLoading a t).requestTaskMap = a.requestTaskMap ∧ (showLoading a t).nextTask = a.nextTask := by
  unfold showLoading
  dsimp only
  split <;> exact ⟨rfl, rfl, rfl, rfl⟩

theorem cancelRequest_fields (a : App) (k : String) :
    (cancelRequest a k).pendingRequests = a.pendingRequests ∧ (cancelRequest a k).env = a.env := by
  unfold cancelRequest
  split <;> exact ⟨rfl, rfl⟩

theorem dispatchProcessed_cases (a1 : App) (o p : RequestOptions) :
    (((if o.cancelPrevious = true then cancelRequest a1 (generateRequestId p)
          else a1).pendingRequests.contains (generateRequestId p) && !o._tokenRefreshed) = true ∧
      (dispatchProcessed a1 o p).2 = .suppressed ∧
      (dispatchProcessed a1 o p).1.transportCalls = a1.transportCalls ∧
      (dispatchProcessed a1 o p).1 =
        (if o.cancelPrevious = true then cancelRequest a1 (generateRequestId p) else a1)) ∨
    (((if o.cancelPrevious = true then cancelRequest a1 (generateRequestId p)
          else a1).pendingRequests.contains (generateRequestId p) && !o._tokenRefreshed) = false ∧
      (∃ t, (dispatchProcessed a1 o p).2 = .issued t p (generateRequestId p)) ∧
      (dispatchProcessed a1 o p).1.transportCalls = a1.transportCalls + 1 ∧
      (dispatchProcessed a1 o p).1.env = a1.env ∧
      (dispatchProcessed a1 o p).1.pendingRequests.contains (generateRequestId p) = true) := by
  have hA : (if o.cancelPrevious = true then cancelRequest a1 (generateRequestId p)
      else a1).transportCalls = a1.transportCalls ∧
      (if o.cancelPrevious = true then cancelRequest a1 (generateRequestId p)
      else a1).env = a1.env := by
    split
    · exact ⟨transportCalls_cancelRequest _ _, (cancelRequest_fields _ _).2⟩
    · exact ⟨rfl, rfl⟩
  unfold dispatchProcessed
  dsimp only
  generalize (if o.cancelPrevious = true then cancelRequest a1 (generateRequestId p) else a1) = a2
    at hA ⊢
  by_cases h : (a2.pendingRequests.contains (generateRequestId p) && !o._tokenRefreshed) = true
  · rw [if_pos h]
    exact Or.inl ⟨h, rfl, hA.1, rfl⟩
  · rw [if_neg h]
    have h4 : (if (!isFalse o.loading) = true then
          showLoading { a2 with pendingRequests := setAdd a2.pendingRequests (generateRequestId p) }
            o.loadingText
        else { a2 with pendingRequests := setAdd a2.pendingRequests (generateRequestId p) }).transportCalls
          = a2.transportCalls ∧
        (if (!isFalse o.loading) = true then
          showLoading { a2 with pendingRequests := setAdd a2.pendingRequests (generateRequestId p) }
            o.loadingText
        else { a2 with pendingRequests := setAdd a2.pendingRequests (generateRequestId p) }).pendingRequests
          = setAdd a2.pendingRequests (generateRequestId p) ∧
        (if (!isFalse o.loading) = true then
          showLoading { a2 with pendingRequests := setAdd a2.pendingRequests (generateRequestId p) }
            o.loadingText
        else { a2 with pendingRequests := setAdd a2.pendingRequests (generateRequestId p) }).env
          = a2.env := by
      split
      · exact ⟨transportCalls_showLoading _ _, (showLoading_fields _ _).1, (showLoading_fields _ _).2.1⟩
      · exact ⟨rfl, rfl, rfl⟩
    generalize (if (!isFalse o.loading) = true then
          showLoading { a2 with pendingRequests := setAdd a2.pendingRequests (generateRequestId p) }
            o.loadingText
        else { a2 with pendingRequests := setAdd a2.pendingRequests (generateRequestId p) }) = a4
      at h4 ⊢
    refine Or.inr ⟨by simpa using h, ⟨_, rfl⟩, ?_, ?_, ?_⟩
    · have := transportCalls_emit a4 (.uniRequest a4.nextTask p)
      simp only [Effect.isUniRequest, if_true] at this
      rw [← hA.1, ← h4.1, ← this]
      rfl
    · show a4.env = a1.env
      rw [h4.2.2, hA.2]
    · show a4.pendingRequests.contains (generateRequestId p) = true
      rw [h4.2.1]
      exact setAdd_contains _ _


theorem generateRequestId_congr (p q : RequestOptions) (h1 : p.url = q.url)
    (h2 : p.method = q.method) (h3 : p.data = q.data) :
    generateRequestId p = generateRequestId q := by
  simp [generateRequestId, h1, h2, h3]

theorem attachToken_identity (o : RequestOptions) (t : Option String) :
    generateRequestId (attachToken o t) = generateRequestId o := by
  apply generateRequestId_congr <;>
  · unfold attachToken
    split
    · split <;> rfl
    · rfl

theorem mergeHeaders_identity (env : Env) (o : RequestOptions) :
    generateRequestId (mergeHeaders env o) = generateRequestId o :=
  generateRequestId_congr _ _ rfl rfl rfl

/-- With a resolvable environment the interceptor succeeds, and the identity
of the descriptor it returns depends on the caller's descriptor and the
environment only. -/
theorem requestInterceptor_identity (a : App) (o : RequestOptions) (h : a.env.failure = none) :
    ∃ p, (requestInterceptor a o).2 = .ok p ∧
      generateRequestId p = generateRequestId (prefixBaseUrl a.env (defaultMethod o)) := by
  unfold requestInterceptor
  rw [h]
  dsimp only
  split
  · exact ⟨_, rfl, mergeHeaders_identity _ _⟩
  · exact ⟨_, rfl, (attachToken_identity _ _).trans (mergeHeaders_identity _ _)⟩

theorem transportCalls_requestDispatch (a : App) (o : RequestOptions) :
    (requestDispatch a o).1.transportCalls ≤ a.transportCalls + 1 := by
  unfold requestDispatch
  split
  · rename_i a1 e hi
    dsimp only
    have hf := (frame_requestInterceptor_eq hi).transportCalls
    split
    · rw [transportCalls_showError, hf]; omega
    · rw [hf]; omega
  · rename_i a1 p hi
    have hf := (frame_requestInterceptor_eq hi).transportCalls
    rcases dispatchProcessed_cases a1 o p with h | h
    · rw [h.2.2.1, hf]; omega
    · rw [h.2.2.1, hf]

theorem request_retry_bound_one (transport : Nat → TransportResult) (a : App) (o : RequestOptions)
    (rc : Nat) (hrc : rc ≥ 1) :
    (request transport a o rc).1.transportCalls ≤ a.transportCalls + 1 := by
  have hd := transportCalls_requestDispatch a o
  have hx : ∀ (x : App) (c : Option RequestOptions),
      (handleTokenRefreshRetry transport x c rc).1.transportCalls = x.transportCalls := by
    intro x c
    rw [handleTokenRefreshRetry.eq_def]
    simp [MAX_RETRY_COUNT, hrc]
  rw [request]
  split
  · rename_i a2 e h; rw [h] at hd; exact hd
  · rename_i a2 h; rw [h] at hd; exact hd
  · rename_i a5 t p k h
    rw [h] at hd
    split
    · rw [transportCalls_requestFail]; exact hd
    · dsimp only
      split
      · rename_i a7 cfg hr
        rw [hx, transportCalls_finish, (frame_responseInterceptor_eq hr).transportCalls]
        exact hd
      · rename_i a7 res hr
        split
        · rw [hx, transportCalls_finish, (frame_responseInterceptor_eq hr).transportCalls]
          exact hd
        · rw [transportCalls_requestSettle, (frame_responseInterceptor_eq hr).transportCalls]
          exact hd
      · rename_i a7 e hr
        rw [transportCalls_requestSettle, (frame_responseInterceptor_eq hr).transportCalls]
        exact hd

theorem request_transport_bound (transport : Nat → TransportResult) (a : App) (o : RequestOptions)
    (rc : Nat) :
    (request transport a o rc).1.transportCalls ≤ a.transportCalls + 2 := by
  by_cases hrc : rc ≥ 1
  · have := request_retry_bound_one transport a o rc hrc
    omega
  · have hd := transportCalls_requestDispatch a o
    have hx : ∀ (x : App) (c : Option RequestOptions),
        (handleTokenRefreshRetry transport x c rc).1.transportCalls ≤ x.transportCalls + 1 := by
      intro x c
      rw [handleTokenRefreshRetry.eq_def]
      simp only [MAX_RETRY_COUNT, hrc, dite_false]
      cases c with
      | none => simp [transportCalls_emit, Effect.isUniRequest]
      | some cfg =>
        have := request_retry_bound_one transport (x.emit (.setTimeout RETRY_DELAY)) cfg (rc + 1)
          (by omega)
        simpa [transportCalls_emit, Effect.isUniRequest] using this
    rw [request]
    split
    · rename_i a2 e h; rw [h] at hd; dsimp only at hd ⊢; omega
    · rename_i a2 h; rw [h] at hd; dsimp only at hd ⊢; omega
    · rename_i a5 t p k h
      rw [h] at hd
      dsimp only at hd
      split
      · rw [transportCalls_requestFail]; omega
      · dsimp only
        split
        · rename_i a7 cfg hr
          have := hx (if (!isFalse o.loading) = true then hideLoading a7 else a7) (some cfg)
          rw [transportCalls_finish, (frame_responseInterceptor_eq hr).transportCalls] at this
          exact this.trans (by simpa using hd)
        · rename_i a7 res hr
          split
          · have := hx (if (!isFalse o.loading) = true then hideLoading a7 else a7) none
            rw [transportCalls_finish, (frame_responseInterceptor_eq hr).transportCalls] at this
            exact this.trans (by simpa using hd)
          · rw [transportCalls_requestSettle, (frame_responseInterceptor_eq hr).transportCalls]
            show a5.transportCalls ≤ _
            omega
        · rename_i a7 e hr
          rw [transportCalls_requestSettle, (frame_responseInterceptor_eq hr).transportCalls]
          show a5.transportCalls ≤ _
          omega

/-! ### Token manager lemmas -/

theorem isTokenExpired_iff (a : App) (e : Nat) (h : a.storage.expiresTime = some e) :
    isTokenExpired a = true ↔ a.now ≥ e := by
  unfold isTokenExpired getExpiresTime
  rw [h]
  by_cases h0 : e = 0
  · simp [h0]
  · simp [h0]

theorem isTokenExpiringSoon_iff (a : App) (e : Nat) (h : a.storage.expiresTime = some e) :
    isTokenExpiringSoon a = true ↔ (a.now : Int) ≥ (e : Int) - (a.config.bufferTime : Int) := by
  unfold isTokenExpiringSoon getExpiresTime
  rw [h]
  by_cases h0 : e = 0
  · subst h0
    simp
    omega
  · simp [h0]

theorem refreshTokenCalls_processPendingQueue (a : App) (error : Option JsError)
    (d : Option JsValue) :
    (_processPendingQueue a error d).refreshTokenCalls = a.refreshTokenCalls := by
  simp only [App.refreshTokenCalls, _processPendingQueue, List.countP_append]
  rw [Nat.add_right_eq_self, List.countP_eq_zero]
  intro e he
  simp only [List.mem_map] at he
  obtain ⟨w, _, rfl⟩ := he
  simp [Effect.isRefreshTokenCalled]

theorem refreshTokenCalls_refreshTokenResume (a : App) (p : RefreshPromise) :
    (refreshTokenResume a p).refreshTokenCalls = a.refreshTokenCalls := by
  unfold refreshTokenResume
  cases p.outcome with
  | resolved r => exact refreshTokenCalls_processPendingQueue a none (some r)
  | rejected e => exact refreshTokenCalls_processPendingQueue a (some e) none

theorem refreshTokenCall_inflight (a : App) (p : RefreshPromise) (h : a.refreshPromise = some p) :
    refreshTokenCall a = (a.emit .refreshTokenCalled, p) := by
  simp [refreshTokenCall, App.emit, h]

theorem refreshTokenCall_idle (a : App) (h : a.refreshPromise = none) :
    refreshTokenCall a =
      ({ (a.emit .refreshTokenCalled).emit .performRefresh with
          refreshPromise := some
            { id := a.nextPromise
              outcome := (_performRefresh (a.emit .refreshTokenCalled)).2 }
          nextPromise := a.nextPromise + 1 },
        { id := a.nextPromise
          outcome := (_performRefresh (a.emit .refreshTokenCalled)).2 }) := by
  have h1 : (a.emit .refreshTokenCalled).refreshPromise = none := h
  unfold refreshTokenCall
  simp only [h1, performRefresh_state]
  rfl

theorem refreshTokenCalls_refreshTokenCall (a : App) :
    (refreshTokenCall a).1.refreshTokenCalls = a.refreshTokenCalls + 1 := by
  cases hp : a.refreshPromise with
  | some p =>
    rw [refreshTokenCall_inflight a p hp]
    simp [App.refreshTokenCalls, App.emit, List.countP_append, List.countP_cons,
      Effect.isRefreshTokenCalled]
  | none =>
    rw [refreshTokenCall_idle a hp]
    simp [App.refreshTokenCalls, App.emit, List.countP_append, List.countP_cons,
      Effect.isRefreshTokenCalled]

theorem refreshToken_state (a : App) :
    (refreshToken a).1 = refreshTokenResume (refreshTokenCall a).1 (refreshTokenCall a).2 := by
  unfold refreshToken
  dsimp only
  split <;> rfl

theorem refreshTokenCalls_refreshToken (a : App) :
    (refreshToken a).1.refreshTokenCalls = a.refreshTokenCalls + 1 := by
  rw [refreshToken_state, refreshTokenCalls_refreshTokenResume, refreshTokenCalls_refreshTokenCall]

theorem refreshToken_fails_without_refresh_token (a : App) (hp : a.refreshPromise = none)
    (hr : getRefreshToken a = "") :
    (refreshToken a).2 = .error { message := "No refresh token available" } := by
  have h1 : (a.emit .refreshTokenCalled).refreshPromise = none := hp
  have h2 : getRefreshToken ((a.emit .refreshTokenCalled).emit .performRefresh) = "" := hr
  simp [refreshToken, refreshTokenCall, h1, _performRefresh, h2]

theorem refreshExecutions_emit (a : App) (e : Effect) :
    (a.emit e).refreshExecutions = a.refreshExecutions + (if e.isPerformRefresh then 1 else 0) := by
  simp [App.refreshExecutions, App.emit, List.countP_append, List.countP_cons]

theorem refreshTokenCall_inflight_after (a : App) (h : a.refreshPromise = none) :
    (refreshTokenCall a).1.refreshPromise = some (refreshTokenCall a).2 := by
  rw [refreshTokenCall_idle a h]

theorem refreshTokenCall_executions_idle (a : App) (h : a.refreshPromise = none) :
    (refreshTokenCall a).1.refreshExecutions = a.refreshExecutions + 1 := by
  rw [refreshTokenCall_idle a h]
  simp [App.refreshExecutions, App.emit, List.countP_append, List.countP_cons,
    Effect.isPerformRefresh]

theorem refreshTokenCalls_inflight (n : Nat) (a : App) (p : RefreshPromise)
    (h : a.refreshPromise = some p) :
    (refreshTokenCalls n a).1.refreshExecutions = a.refreshExecutions ∧
    (refreshTokenCalls n a).1.refreshPromise = some p ∧
    (refreshTokenCalls n a).2 = List.replicate n p := by
  induction n generalizing a with
  | zero => simp [refreshTokenCalls, h]
  | succ n ih =>
    have hc := refreshTokenCall_inflight a p h
    have hp : (a.emit .refreshTokenCalled).refreshPromise = some p := by simpa [App.emit] using h
    have := ih (a.emit .refreshTokenCalled) hp
    simp only [refreshTokenCalls, hc]
    refine ⟨?_, this.2.1, ?_⟩
    · rw [this.1, refreshExecutions_emit]; simp [Effect.isPerformRefresh]
    · rw [this.2.2]; rfl

theorem enqueueAll_pendingQueue (cs : List RequestOptions) (a : App) :
    (enqueueAll cs a).pendingQueue =
      a.pendingQueue ++ (cs.enumFrom a.nextPromise).map (fun ic => { id := ic.1, config := ic.2 }) ∧
    (enqueueAll cs a).trace = a.trace := by
  induction cs generalizing a with
  | nil => simp [enqueueAll]
  | cons c cs ih =>
    have := ih (addToQueue a c).1
    simp only [enqueueAll]
    rw [this.1, this.2]
    simp [addToQueue, List.enumFrom]

/-! ### Claims -/

/-- Claim C1 fails on the code at a nested body: `getSortedString` sorts the
keys of the top-level object only, so two descriptors with the same method, the
same URL and bodies that are equal up to the key order of a nested object get
different identities, while a reordering of the top-level keys does not change
the identity. -/
theorem generateRequestId_nested_key_order :
    JsonEquiv nestedBodyA nestedBodyB ∧
    generateRequestId { url := "/api/order/list", method := some "POST", data := nestedBodyA }
      = "POST_/api/order/list_\x7b\"filter\":\x7b\"x\":1,\"y\":2\x7d\x7d" ∧
    generateRequestId { url := "/api/order/list", method := some "POST", data := nestedBodyB }
      = "POST_/api/order/list_\x7b\"filter\":\x7b\"y\":2,\"x\":1\x7d\x7d" ∧
    generateRequestId { url := "/api/order/list", method := some "POST", data := nestedBodyA }
      ≠ generateRequestId { url := "/api/order/list", method := some "POST", data := nestedBodyB } ∧
    generateRequestId { url := "/api/order/list", data := .obj [("b", .num 2), ("a", .num 1)] }
      = generateRequestId { url := "/api/order/list", data := .obj [("a", .num 1), ("b", .num 2)] } := by
  refine ⟨?_, by decide, by decide, by decide, by decide⟩
  exact JsonEquiv.objCons (JsonEquiv.objPerm (List.Perm.swap _ _ _)) (JsonEquiv.refl _)

theorem requestDispatch_env (a : App) (o : RequestOptions) :
    (requestDispatch a o).1.env = a.env := by
  unfold requestDispatch
  split
  · rename_i a1 e hi
    dsimp only
    have hf := (frame_requestInterceptor_eq hi).env
    split
    · rw [← hf]; unfold showError; split <;> rfl
    · exact hf
  · rename_i a1 p hi
    have hf := (frame_requestInterceptor_eq hi).env
    rcases dispatchProcessed_cases a1 o p with h | h
    · rw [h.2.2.2, ← hf]
      split
      · exact (cancelRequest_fields _ _).2
      · rfl
    · rw [h.2.2.2.1, hf]

/-- Claim C2: when the identity of an arriving request is already in the pending
set and the request has neither `cancelPrevious` nor `_tokenRefreshed`, `request`
ends at the duplicate check: its promise stays pending, no `uni.request` is
made, and the pending set and the handle map are unchanged. Two identical calls
made one after the other are therefore answered by at most one `uni.request`,
and by exactly one when the identity was not pending before. -/
theorem duplicate_request_suppressed (a : App) (options : RequestOptions)
    (hc : options.cancelPrevious = false) (ht : options._tokenRefreshed = false) :
    (∀ a1 p, requestInterceptor a options = (a1, .ok p) →
      generateRequestId p ∈ a.pendingRequests →
        requestDispatch a options = (a1, .suppressed) ∧
        (∀ transport retryCount, request transport a options retryCount = (a1, .pending)) ∧
        a1.transportCalls = a.transportCalls ∧
        a1.pendingRequests = a.pendingRequests ∧
        a1.requestTaskMap = a.requestTaskMap) ∧
    (a.env.failure = none →
      (requestDispatch (requestDispatch a options).1 options).2 = .suppressed ∧
      (requestDispatch (requestDispatch a options).1 options).1.transportCalls
        ≤ a.transportCalls + 1 ∧
      (generateRequestId (prefixBaseUrl a.env (defaultMethod options)) ∉ a.pendingRequests →
        (∃ t p, (requestDispatch a options).2 = .issued t p (generateRequestId p)) ∧
        (requestDispatch (requestDispatch a options).1 options).1.transportCalls
          = a.transportCalls + 1)) ∧
    (∀ (a1 : App) (p q : RequestOptions), generateRequestId q = generateRequestId p →
      (dispatchProcessed (dispatchProcessed a1 options p).1 options q).2 = .suppressed ∧
      (dispatchProcessed (dispatchProcessed a1 options p).1 options q).1.transportCalls
        ≤ a1.transportCalls + 1) := by
  have key : ∀ (b b1 : App) (p : RequestOptions), requestInterceptor b options = (b1, .ok p) →
      generateRequestId p ∈ b.pendingRequests →
      requestDispatch b options = (b1, .suppressed) ∧ b1.transportCalls = b.transportCalls ∧
        b1.pendingRequests = b.pendingRequests ∧ b1.requestTaskMap = b.requestTaskMap := by
    intro b b1 p hi hp
    have hf := frame_requestInterceptor_eq hi
    have hp1 : b1.pendingRequests.contains (generateRequestId p) = true := by
      rw [hf.pendingRequests]; simpa using hp
    refine ⟨?_, hf.transportCalls, hf.pendingRequests, hf.requestTaskMap⟩
    unfold requestDispatch
    rw [hi]
    exact dispatchProcessed_suppressed b1 options p hc ht hp1
  refine ⟨?_, ?_, ?_⟩
  rotate_left 2
  · intro a1 p q hid
    have hpend : (dispatchProcessed a1 options p).1.pendingRequests.contains
        (generateRequestId q) = true ∧
        (dispatchProcessed a1 options p).1.transportCalls ≤ a1.transportCalls + 1 := by
      rw [hid]
      rcases dispatchProcessed_cases a1 options p with h | h
      · have h1 := h.1
        simp only [hc, Bool.false_eq_true, if_false, ht, Bool.not_false, Bool.and_true] at h1
        rw [h.2.2.2]
        simp only [hc, Bool.false_eq_true, if_false]
        exact ⟨h1, by omega⟩
      · exact ⟨h.2.2.2.2, by rw [h.2.2.1]⟩
    rw [dispatchProcessed_suppressed _ options q hc ht hpend.1]
    exact ⟨rfl, hpend.2⟩
  · intro a1 p hi hp
    have h := key a a1 p hi hp
    refine ⟨h.1, ?_, h.2⟩
    intro transport retryCount
    rw [request, h.1]
  · intro henv
    obtain ⟨p, hp2, hid⟩ := requestInterceptor_identity a options henv
    have hi : requestInterceptor a options = ((requestInterceptor a options).1, .ok p) := by
      rw [← hp2]
    have hf := frame_requestInterceptor_eq hi
    -- the first call
    have hfirst : requestDispatch a options
        = dispatchProcessed (requestInterceptor a options).1 options p := by
      unfold requestDispatch
      rw [hi]
    have henvb : (requestDispatch a options).1.env.failure = none := by
      rw [requestDispatch_env]; exact henv
    obtain ⟨q, hq2, hqid⟩ := requestInterceptor_identity (requestDispatch a options).1 options henvb
    rw [requestDispatch_env] at hqid
    have hiq : requestInterceptor (requestDispatch a options).1 options
        = ((requestInterceptor (requestDispatch a options).1 options).1, .ok q) := by
      rw [← hq2]
    have hsame : generateRequestId q = generateRequestId p := hqid.trans hid.symm
    rcases dispatchProcessed_cases (requestInterceptor a options).1 options p with h | h
    · -- the first call was itself suppressed
      have hstate : (requestDispatch a options).1 = (requestInterceptor a options).1 := by
        rw [hfirst, h.2.2.2]; simp [hc]
      have hpend : generateRequestId q ∈ (requestDispatch a options).1.pendingRequests := by
        rw [hsame, hstate]
        have := h.1
        simp [hc, ht] at this
        exact this
      have h2 := key _ _ q hiq hpend
      refine ⟨by rw [h2.1], ?_, ?_⟩
      · rw [h2.1]
        show _ ≤ _
        rw [h2.2.1, hstate, hf.transportCalls]; omega
      · intro hnot
        exfalso
        apply hnot
        rw [← hid, ← hf.pendingRequests]
        have := h.1
        simp [hc, ht] at this
        exact this
    · -- the first call was issued
      have hpend : generateRequestId q ∈ (requestDispatch a options).1.pendingRequests := by
        rw [hsame, hfirst]
        simpa using h.2.2.2.2
      have h2 := key _ _ q hiq hpend
      have hcount : (requestDispatch (requestDispatch a options).1 options).1.transportCalls
          = a.transportCalls + 1 := by
        rw [h2.1]
        show (requestInterceptor (requestDispatch a options).1 options).1.transportCalls = _
        rw [h2.2.1, hfirst, h.2.2.1, hf.transportCalls]
      refine ⟨by rw [h2.1], by omega, ?_⟩
      intro _
      refine ⟨?_, hcount⟩
      obtain ⟨t, ht2⟩ := h.2.1
      exact ⟨t, p, by rw [hfirst]; exact ht2⟩


theorem duplicate_request_suppressed_witness :
    (requestDispatch (requestDispatch {} ordersRequest).1 ordersRequest).2 = .suppressed ∧
    (requestDispatch (requestDispatch {} ordersRequest).1 ordersRequest).1.transportCalls
      = App.transportCalls {} + 1 ∧
    (∀ transport retryCount,
      request transport (requestDispatch {} ordersRequest).1 ordersRequest retryCount
        = ((requestInterceptor (requestDispatch {} ordersRequest).1 ordersRequest).1, .pending)) :=
  ⟨((duplicate_request_suppressed {} ordersRequest rfl rfl).2.1 rfl).1,
   (((duplicate_request_suppressed {} ordersRequest rfl rfl).2.1 rfl).2.2 (by decide)).2,
   ((duplicate_request_suppressed (requestDispatch {} ordersRequest).1 ordersRequest rfl rfl).1
      _ _ rfl (by decide)).2.1⟩

theorem requestDispatch_issued_count (a : App) (o : RequestOptions) (t : Nat)
    (p : RequestOptions) (k : String) (h : (requestDispatch a o).2 = .issued t p k) :
    (requestDispatch a o).1.transportCalls = a.transportCalls + 1 := by
  unfold requestDispatch at h ⊢
  split at h
  · exact Dispatched.noConfusion h
  · rename_i a1 q hi
    have hf := (frame_requestInterceptor_eq hi).transportCalls
    rcases dispatchProcessed_cases a1 o q with hc | hc
    · rw [hc.2.1] at h
      exact Dispatched.noConfusion h
    · show (dispatchProcessed a1 o q).1.transportCalls = _
      rw [hc.2.2.1, hf]

/-- Whenever the identity is pending and a handle is registered under it, a
request with `cancelPrevious` and without `_tokenRefreshed` aborts the handle
and stops at the duplicate check. -/
theorem dispatchProcessed_cancelPrevious (a1 : App) (o p : RequestOptions) (task : Nat)
    (hc : o.cancelPrevious = true) (ht : o._tokenRefreshed = false)
    (hm : a1.requestTaskMap.lookup (generateRequestId p) = some task)
    (hp : a1.pendingRequests.contains (generateRequestId p) = true) :
    dispatchProcessed a1 o p
      = ({ a1.emit (.abort task) with
            requestTaskMap := mapDelete a1.requestTaskMap (generateRequestId p) },
          .suppressed) := by
  have hcancel : cancelRequest a1 (generateRequestId p)
      = { a1.emit (.abort task) with
          requestTaskMap := mapDelete a1.requestTaskMap (generateRequestId p) } := by
    unfold cancelRequest
    rw [hm]
  unfold dispatchProcessed
  simp only [hc, if_true, hcancel, ht, Bool.not_false, Bool.and_true]
  have : (a1.emit (.abort task)).pendingRequests.contains (generateRequestId p) = true := hp
  simp only [this, if_true]

/-- Claim C3 fails on the code: after `ordersRequest` has been dispatched from the
initial state (task 0 registered, identity pending, callback not yet delivered),
the same request with `cancelPrevious` aborts task 0 and is then dropped by the
duplicate check, because `cancelRequest` leaves the identity in
`pendingRequests`: no second `uni.request`, no handle registered, and the
promise of the new call never settles. -/
theorem cancelPrevious_aborts_and_drops_new_request :
    (requestDispatch {} ordersRequest).1.requestTaskMap = [(ordersRequestId, 0)] ∧
    (requestDispatch {} ordersRequest).1.pendingRequests = [ordersRequestId] ∧
    (requestDispatch {} ordersRequest).1.transportCalls = 1 ∧
    (requestDispatch (requestDispatch {} ordersRequest).1
        { ordersRequest with cancelPrevious := true }).2 = .suppressed ∧
    (requestDispatch (requestDispatch {} ordersRequest).1
        { ordersRequest with cancelPrevious := true }).1.trace
      = (requestDispatch {} ordersRequest).1.trace ++ [.abort 0] ∧
    (requestDispatch (requestDispatch {} ordersRequest).1
        { ordersRequest with cancelPrevious := true }).1.transportCalls = 1 ∧
    (requestDispatch (requestDispatch {} ordersRequest).1
        { ordersRequest with cancelPrevious := true }).1.requestTaskMap = [] ∧
    (∀ transport retryCount,
      (request transport (requestDispatch {} ordersRequest).1
        { ordersRequest with cancelPrevious := true } retryCount).2 = .pending) := by
  refine ⟨by decide, by decide, by decide, rfl, rfl, by decide, by decide, ?_⟩
  intro transport retryCount
  have h : requestDispatch (requestDispatch {} ordersRequest).1
      { ordersRequest with cancelPrevious := true }
      = ((requestDispatch (requestDispatch {} ordersRequest).1
          { ordersRequest with cancelPrevious := true }).1, .suppressed) := rfl
  rw [request, h]

/-- Claim C4: `handleTokenRefreshRetry` rejects with the retry-exhausted error and
starts nothing for every retry count of at least 1, and with retry count 0 it
calls `request` once with retry count 1. A `request` whose response is
classified as the refresh signal therefore rejects with that error after one
`uni.request` when its retry count is at least 1, and continues as the retry
when it is 0; every run of `request` makes at most two `uni.request` calls (the
embedded function is total). -/
theorem retry_after_refresh_bounded (transport : Nat → TransportResult) (a : App) :
    (∀ (config : Option RequestOptions) (retryCount : Nat), retryCount ≥ 1 →
      handleTokenRefreshRetry transport a config retryCount = (a, .rejected retryExhaustedError)) ∧
    (∀ config : RequestOptions,
      handleTokenRefreshRetry transport a (some config) 0
        = request transport (a.emit (.setTimeout RETRY_DELAY)) config 1) ∧
    (∀ (options : RequestOptions) (retryCount : Nat) (t : Nat) (p : RequestOptions) (k : String)
        (response : Response) (config : RequestOptions),
      (requestDispatch a options).2 = .issued t p k →
      transport t = .success response →
      (responseInterceptor
        { (requestDispatch a options).1 with
          requestTaskMap := mapDelete (requestDispatch a options).1.requestTaskMap k
          pendingRequests := setDelete (requestDispatch a options).1.pendingRequests k }
        response p).2 = .ok (.tokenRefreshed config) →
      (retryCount ≥ 1 →
        (request transport a options retryCount).2 = .rejected retryExhaustedError ∧
        (request transport a options retryCount).1.transportCalls = a.transportCalls + 1) ∧
      (retryCount = 0 →
        request transport a options retryCount
          = request transport
              ((if !isFalse options.loading then
                  hideLoading (responseInterceptor
                    { (requestDispatch a options).1 with
                      requestTaskMap := mapDelete (requestDispatch a options).1.requestTaskMap k
                      pendingRequests := setDelete (requestDispatch a options).1.pendingRequests k }
                    response p).1
                else
                  (responseInterceptor
                    { (requestDispatch a options).1 with
                      requestTaskMap := mapDelete (requestDispatch a options).1.requestTaskMap k
                      pendingRequests := setDelete (requestDispatch a options).1.pendingRequests k }
                    response p).1).emit (.setTimeout RETRY_DELAY))
              config 1)) ∧
    (∀ (options : RequestOptions) (retryCount : Nat),
      (request transport a options retryCount).1.transportCalls ≤ a.transportCalls + 2) := by
  have hexh : ∀ (x : App) (c : Option RequestOptions) (n : Nat), n ≥ 1 →
      handleTokenRefreshRetry transport x c n = (x, .rejected retryExhaustedError) := by
    intro x c n h
    rw [handleTokenRefreshRetry.eq_def]
    simp [MAX_RETRY_COUNT, h, retryExhaustedError, createRequestError]
  have hzero : ∀ (x : App) (c : RequestOptions),
      handleTokenRefreshRetry transport x (some c) 0
        = request transport (x.emit (.setTimeout RETRY_DELAY)) c 1 := by
    intro x c
    rw [handleTokenRefreshRetry.eq_def]
    simp [MAX_RETRY_COUNT]
  refine ⟨hexh a, hzero a, ?_, ?_⟩
  · intro options retryCount t p k response config hd ht hr
    have hd2 : requestDispatch a options = ((requestDispatch a options).1, .issued t p k) := by
      rw [← hd]
    have hcount : (requestDispatch a options).1.transportCalls = a.transportCalls + 1 :=
      requestDispatch_issued_count a options t p k hd
    generalize (requestDispatch a options).1 = a5 at hd2 hr hcount ⊢
    have hr2 : responseInterceptor
        { a5 with requestTaskMap := mapDelete a5.requestTaskMap k
                  pendingRequests := setDelete a5.pendingRequests k } response p
        = ((responseInterceptor
            { a5 with requestTaskMap := mapDelete a5.requestTaskMap k
                      pendingRequests := setDelete a5.pendingRequests k } response p).1,
          .ok (.tokenRefreshed config)) := by
      rw [← hr]
    have hf := frame_responseInterceptor_eq hr2
    generalize (responseInterceptor
            { a5 with requestTaskMap := mapDelete a5.requestTaskMap k
                      pendingRequests := setDelete a5.pendingRequests k } response p).1 = a7
      at hr2 hf ⊢
    have hreq : request transport a options retryCount
        = handleTokenRefreshRetry transport
            (if (!isFalse options.loading) = true then hideLoading a7 else a7) (some config)
            retryCount := by
      rw [request, hd2]
      simp only [ht]
      rw [hr2]
    refine ⟨?_, ?_⟩
    · intro hrc
      rw [hreq, hexh _ _ _ hrc]
      refine ⟨rfl, ?_⟩
      show (if (!isFalse options.loading) = true then hideLoading a7 else a7).transportCalls = _
      rw [transportCalls_finish, hf.transportCalls]
      exact hcount
    · intro hrc
      subst hrc
      rw [hreq, hzero]
  · intro options retryCount
    exact request_transport_bound transport a options retryCount

theorem retry_after_refresh_bounded_witness :
    ((request alwaysUnauthorized staleTokenApp ordersRequest 1).2 = .rejected retryExhaustedError ∧
      (request alwaysUnauthorized staleTokenApp ordersRequest 1).1.transportCalls
        = staleTokenApp.transportCalls + 1) ∧
    (request alwaysUnauthorized staleTokenApp ordersRequest 0).2 = .rejected retryExhaustedError ∧
    (request alwaysUnauthorized staleTokenApp ordersRequest 0).1.transportCalls = 2 := by
  refine ⟨((retry_after_refresh_bounded alwaysUnauthorized staleTokenApp).2.2.1 ordersRequest 1
      _ _ _ _ _ rfl rfl rfl).1 (by decide), ?_⟩
  have e := ((retry_after_refresh_bounded alwaysUnauthorized staleTokenApp).2.2.1 ordersRequest 0
      _ _ _ _ _ rfl rfl rfl).2 rfl
  rw [e]
  constructor
  · exact (((retry_after_refresh_bounded alwaysUnauthorized _).2.2.1 _ 1 _ _ _ _ _
      (by exact rfl) (by exact rfl) (by exact rfl)).1 (by decide)).1
  · exact ((((retry_after_refresh_bounded alwaysUnauthorized _).2.2.1 _ 1 _ _ _ _ _
      (by exact rfl) (by exact rfl) (by exact rfl)).1 (by decide)).2).trans (by decide)


/-- Claim C5: while `refreshPromise` is set, `refreshToken` runs no
`_performRefresh` and waits on the promise in flight; with `refreshPromise`
null it runs `_performRefresh` once and stores the promise; the continuation of
the refresh resets `refreshPromise` to null; any number of calls made before
that continuation cause one `_performRefresh` and all wait on the same promise. -/
theorem refreshToken_single_flight (a : App) :
    (∀ p, a.refreshPromise = some p →
      (refreshTokenCall a).2 = p ∧
      (refreshTokenCall a).1.refreshExecutions = a.refreshExecutions ∧
      (refreshTokenCall a).1.refreshPromise = some p) ∧
    (a.refreshPromise = none →
      (refreshTokenCall a).1.refreshExecutions = a.refreshExecutions + 1 ∧
      (refreshTokenCall a).1.refreshPromise = some (refreshTokenCall a).2 ∧
      (refreshTokenCall a).2.outcome = (_performRefresh (a.emit .refreshTokenCalled)).2) ∧
    (∀ p, (refreshTokenResume a p).refreshPromise = none) ∧
    (∀ n : Nat, a.refreshPromise = none →
      (refreshTokenCalls (n + 1) a).1.refreshExecutions = a.refreshExecutions + 1 ∧
      (refreshTokenCalls (n + 1) a).2 = List.replicate (n + 1) (refreshTokenCall a).2) := by
  refine ⟨?_, ?_, ?_, ?_⟩
  · intro p h
    rw [refreshTokenCall_inflight a p h]
    refine ⟨rfl, ?_, by simpa [App.emit] using h⟩
    rw [refreshExecutions_emit]; simp [Effect.isPerformRefresh]
  · intro h
    refine ⟨refreshTokenCall_executions_idle a h, refreshTokenCall_inflight_after a h, ?_⟩
    rw [refreshTokenCall_idle a h]
  · intro p
    simp [refreshTokenResume]
  · intro n h
    have h1 := refreshTokenCall_inflight_after a h
    have h2 := refreshTokenCalls_inflight n _ _ h1
    simp only [refreshTokenCalls]
    refine ⟨?_, ?_⟩
    · rw [h2.1, refreshTokenCall_executions_idle a h]
    · rw [h2.2.2]; rfl


theorem refreshToken_single_flight_witness :
    (refreshTokenCalls 3 staleTokenApp).1.refreshExecutions = staleTokenApp.refreshExecutions + 1 ∧
    (refreshTokenCalls 3 staleTokenApp).2 = List.replicate 3 (refreshTokenCall staleTokenApp).2 ∧
    (refreshTokenCall (refreshTokenCall staleTokenApp).1).1.refreshExecutions
      = (refreshTokenCall staleTokenApp).1.refreshExecutions :=
  ⟨((refreshToken_single_flight staleTokenApp).2.2.2 2 rfl).1,
   ((refreshToken_single_flight staleTokenApp).2.2.2 2 rfl).2,
   ((refreshToken_single_flight (refreshTokenCall staleTokenApp).1).1 _ rfl).2.1⟩

/-- Claim C6: for waiters enqueued by `addToQueue` in the order `cs`, the
continuation of a refresh settles one waiter after the other in that order,
each exactly once: with its own descriptor extended by `_tokenRefreshed = true`
when the refresh resolved, with the error of the refresh when it rejected; the
queue is empty afterwards. -/
theorem waiters_settled_in_enqueue_order (a : App) (cs : List RequestOptions) (p : RefreshPromise)
    (hq : a.pendingQueue = []) :
    (∀ result, p.outcome = .resolved result →
      (refreshTokenResume (enqueueAll cs a) p).trace = a.trace ++
        (cs.enumFrom a.nextPromise).map (fun ic =>
          Effect.waiterSettled ic.1 (.resolved { ic.2 with _tokenRefreshed := true }))) ∧
    (∀ e, p.outcome = .rejected e →
      (refreshTokenResume (enqueueAll cs a) p).trace = a.trace ++
        (cs.enumFrom a.nextPromise).map (fun ic => Effect.waiterSettled ic.1 (.rejected e))) ∧
    (refreshTokenResume (enqueueAll cs a) p).pendingQueue = [] := by
  have hE := enqueueAll_pendingQueue cs a
  rw [hq, List.nil_append] at hE
  refine ⟨?_, ?_, ?_⟩
  · intro result hr
    simp [refreshTokenResume, hr, _processPendingQueue, hE.1, hE.2, settleWaiter, Function.comp_def]
  · intro e hr
    simp [refreshTokenResume, hr, _processPendingQueue, hE.1, hE.2, settleWaiter, Function.comp_def]
  · cases h : p.outcome <;> simp [refreshTokenResume, h, _processPendingQueue]


theorem waiters_settled_in_enqueue_order_witness :
    (refreshTokenResume (enqueueAll [ordersRequest, { ordersRequest with method := some "POST" }] {})
        { id := 7, outcome := .rejected { message := "No refresh token available" } }).trace
      = [Effect.waiterSettled 0 (.rejected { message := "No refresh token available" }),
         Effect.waiterSettled 1 (.rejected { message := "No refresh token available" })] ∧
    (refreshTokenResume (enqueueAll [ordersRequest, { ordersRequest with method := some "POST" }] {})
        { id := 7, outcome := .resolved (.obj []) }).trace
      = [Effect.waiterSettled 0 (.resolved { ordersRequest with _tokenRefreshed := true }),
         Effect.waiterSettled 1
           (.resolved { ordersRequest with method := some "POST", _tokenRefreshed := true })] :=
  ⟨(waiters_settled_in_enqueue_order {} [ordersRequest, { ordersRequest with method := some "POST" }]
      { id := 7, outcome := .rejected { message := "No refresh token available" } } rfl).2.1 _ rfl,
   (waiters_settled_in_enqueue_order {} [ordersRequest, { ordersRequest with method := some "POST" }]
      { id := 7, outcome := .resolved (.obj []) } rfl).1 _ rfl⟩

/-- Claim C7 fails on the code: `_performRefresh` resolves without calling the
refresh interface or `saveToken` (both are commented out), so after a refresh
that succeeds the storage still holds the token, refresh token and expiry
stored before, and `getValidToken` returns the token stored before. -/
theorem refresh_keeps_stale_token :
    isTokenExpiringSoon staleTokenApp = true ∧
    (refreshToken staleTokenApp).2 = .ok (.obj []) ∧
    (refreshToken staleTokenApp).1.storage = staleTokenApp.storage ∧
    (getValidToken staleTokenApp).1.refreshExecutions = 1 ∧
    (getValidToken staleTokenApp).1.storage = staleTokenApp.storage ∧
    (getValidToken staleTokenApp).2 = some "old-token" :=
  ⟨by decide, rfl, rfl, by decide, rfl, by decide⟩

/-- Claim C8: with `expiresTime` absent `isTokenExpired` and
`isTokenExpiringSoon` are true; otherwise `isTokenExpired` holds exactly when
`now >= expiresTime` and `isTokenExpiringSoon` exactly when
`now >= expiresTime - bufferTime`; both depend on the stored `expiresTime`, the
current time and `bufferTime` only. -/
theorem expiry_predicates_spec (a : App) :
    (a.storage.expiresTime = none → isTokenExpired a = true ∧ isTokenExpiringSoon a = true) ∧
    (∀ e : Nat, a.storage.expiresTime = some e →
      (isTokenExpired a = true ↔ a.now ≥ e) ∧
      (isTokenExpiringSoon a = true ↔ (a.now : Int) ≥ (e : Int) - (a.config.bufferTime : Int))) ∧
    (∀ b : App, b.storage.expiresTime = a.storage.expiresTime → b.now = a.now →
      b.config.bufferTime = a.config.bufferTime →
      isTokenExpired b = isTokenExpired a ∧ isTokenExpiringSoon b = isTokenExpiringSoon a) := by
  refine ⟨?_, ?_, ?_⟩
  · intro h
    simp [isTokenExpired, isTokenExpiringSoon, getExpiresTime, h]
  · intro e h
    exact ⟨isTokenExpired_iff a e h, isTokenExpiringSoon_iff a e h⟩
  · intro b h1 h2 h3
    simp [isTokenExpired, isTokenExpiringSoon, getExpiresTime, h1, h2, h3]


theorem expiry_predicates_spec_witness :
    (isTokenExpired staleTokenApp = true ↔ staleTokenApp.now ≥ 1700000010000) ∧
    (isTokenExpiringSoon staleTokenApp = true ↔
      (staleTokenApp.now : Int) ≥ ((1700000010000 : Nat) : Int) - (staleTokenApp.config.bufferTime : Int)) ∧
    isTokenExpired { staleTokenApp with storage := {} } = true ∧
    isTokenExpiringSoon { staleTokenApp with storage := {} } = true :=
  ⟨((expiry_predicates_spec staleTokenApp).2.1 1700000010000 rfl).1,
   ((expiry_predicates_spec staleTokenApp).2.1 1700000010000 rfl).2,
   ((expiry_predicates_spec { staleTokenApp with storage := {} }).1 rfl).1,
   ((expiry_predicates_spec { staleTokenApp with storage := {} }).1 rfl).2⟩

/-- Claim C9: on the login page or with `enableAutoRefresh` false,
`getValidToken` leaves the state untouched (no `refreshToken` call) and returns
the stored token when one is stored and `now < expiresTime`, and null when no
token is stored, `expiresTime` is absent or `now >= expiresTime`. -/
theorem getValidToken_without_refresh (a : App)
    (h : isOnLoginPage a = true ∨ a.config.enableAutoRefresh = false) :
    (getValidToken a).1 = a ∧
    (∀ t e, a.storage.token = some t → t ≠ "" → a.storage.expiresTime = some e → a.now < e →
      (getValidToken a).2 = some t) ∧
    ((a.storage.token = none ∨ a.storage.token = some "" ∨ a.storage.expiresTime = none ∨
        ∃ e, a.storage.expiresTime = some e ∧ a.now ≥ e) →
      (getValidToken a).2 = none) := by
  have hg : (isOnLoginPage a || !a.config.enableAutoRefresh) = true := by
    rcases h with h | h <;> simp [h]
  refine ⟨?_, ?_, ?_⟩
  · unfold getValidToken
    by_cases ht : getToken a = ""
    · simp [ht]
    · simp [ht, hg]
  · intro t e ht hne he hlt
    have hx : isTokenExpired a = false := by
      have := isTokenExpired_iff a e he
      cases hc : isTokenExpired a
      · rfl
      · have := this.mp hc
        omega
    unfold getValidToken
    simp [getToken, ht, hne, hg, hx]
  · intro hc
    unfold getValidToken
    by_cases ht : getToken a = ""
    · simp [ht]
    · have hx : isTokenExpired a = true := by
        rcases hc with hc | hc | hc | ⟨e, he, hge⟩
        · simp [getToken, hc] at ht
        · simp [getToken, hc] at ht
        · simp [isTokenExpired, getExpiresTime, hc]
        · exact (isTokenExpired_iff a e he).mpr hge
      simp [ht, hg, hx]


theorem getValidToken_without_refresh_witness :
    (getValidToken { staleTokenApp with config := {} }).1 = { staleTokenApp with config := {} } ∧
    (getValidToken { staleTokenApp with config := {} }).2 = some "old-token" ∧
    (getValidToken { staleTokenApp with config := {}, now := 1700000010000 }).2 = none :=
  ⟨(getValidToken_without_refresh { staleTokenApp with config := {} } (Or.inr rfl)).1,
   (getValidToken_without_refresh { staleTokenApp with config := {} } (Or.inr rfl)).2.1
      "old-token" 1700000010000 rfl (by decide) rfl (by decide),
   (getValidToken_without_refresh { staleTokenApp with config := {}, now := 1700000010000 }
      (Or.inr rfl)).2.2 (Or.inr (Or.inr (Or.inr ⟨1700000010000, rfl, by decide⟩)))⟩

/-- Claim C10: with auto-refresh on, off the login page and a token stored,
`getValidToken` calls `refreshToken` once when `now >= expiresTime - bufferTime`
and returns null whenever that refresh fails (in particular when no refresh
token is stored); when `now < expiresTime - bufferTime` it returns the stored
token and changes nothing. -/
theorem getValidToken_refreshes_inside_buffer (a : App) (t : String) (e : Nat)
    (hlogin : isOnLoginPage a = false) (hauto : a.config.enableAutoRefresh = true)
    (ht : a.storage.token = some t) (hne : t ≠ "") (he : a.storage.expiresTime = some e) :
    ((a.now : Int) ≥ (e : Int) - (a.config.bufferTime : Int) →
      (getValidToken a).1 = (refreshToken a).1 ∧
      (getValidToken a).1.refreshTokenCalls = a.refreshTokenCalls + 1 ∧
      (∀ err, (refreshToken a).2 = .error err → (getValidToken a).2 = none) ∧
      (a.refreshPromise = none → a.storage.refreshToken = none → (getValidToken a).2 = none)) ∧
    ((a.now : Int) < (e : Int) - (a.config.bufferTime : Int) →
      getValidToken a = (a, some t)) := by
  have htok : getToken a = t := by simp [getToken, ht]
  have hne2 : ¬ getToken a = "" := by rw [htok]; exact hne
  have hg : (isOnLoginPage a || !a.config.enableAutoRefresh) = false := by simp [hlogin, hauto]
  refine ⟨?_, ?_⟩
  · intro hw
    have hs : isTokenExpiringSoon a = true := (isTokenExpiringSoon_iff a e he).mpr hw
    have hstate : (getValidToken a).1 = (refreshToken a).1 := by
      unfold getValidToken
      simp only [hne2, if_false, hg, Bool.false_eq_true, hs, if_true]
      split <;> simp_all
    have herr : ∀ err, (refreshToken a).2 = .error err → (getValidToken a).2 = none := by
      intro err h
      unfold getValidToken
      simp only [hne2, if_false, hg, Bool.false_eq_true, hs, if_true]
      split
      · rename_i hx; rw [hx] at h; cases h
      · rfl
    refine ⟨hstate, ?_, herr, ?_⟩
    · rw [hstate]; exact refreshTokenCalls_refreshToken a
    · intro hp hr
      exact herr _ (refreshToken_fails_without_refresh_token a hp (by simp [getRefreshToken, hr]))
  · intro hw
    have hs : isTokenExpiringSoon a = false := by
      cases hc : isTokenExpiringSoon a
      · rfl
      · have := (isTokenExpiringSoon_iff a e he).mp hc
        omega
    unfold getValidToken
    simp [hg, hs, htok, hne]

theorem getValidToken_refreshes_inside_buffer_witness :
    ((staleTokenApp.now : Int) + 10000 = 1700000010000 ∧ staleTokenApp.config.bufferTime = 300000) ∧
    (getValidToken staleTokenApp).1.refreshTokenCalls = staleTokenApp.refreshTokenCalls + 1 ∧
    (getValidToken { staleTokenApp with storage := { staleTokenApp.storage with refreshToken := none } }).2
      = none ∧
    getValidToken { staleTokenApp with now := 1600000000000 }
      = ({ staleTokenApp with now := 1600000000000 }, some "old-token") :=
  ⟨by decide,
   ((getValidToken_refreshes_inside_buffer staleTokenApp "old-token" 1700000010000 rfl rfl rfl
      (by decide) rfl).1 (by decide)).2.1,
   ((getValidToken_refreshes_inside_buffer
      { staleTokenApp with storage := { staleTokenApp.storage with refreshToken := none } }
      "old-token" 1700000010000 rfl rfl rfl (by decide) rfl).1 (by decide)).2.2.2 rfl rfl,
   (getValidToken_refreshes_inside_buffer { staleTokenApp with now := 1600000000000 }
      "old-token" 1700000010000 rfl rfl rfl (by decide) rfl).2 (by decide)⟩

/-- Claim C11: for a response whose `statusCode` is outside 200..299 and is not
401, `responseInterceptor` leaves the state as it is (no refresh, no redirect)
and returns, without throwing, the failure object with `success: false`,
`code: statusCode`, `data: null` and a `message` that is the canned text for
403, 404, 500, 502, 503 and 504 and `网络请求失败` for every other status. -/
theorem responseInterceptor_http_failure (a : App) (response : Response) (config : RequestOptions)
    (hout : response.statusCode < 200 ∨ response.statusCode ≥ 300)
    (h401 : response.statusCode ≠ 401) :
    ∃ message : String,
      responseInterceptor a response config
        = (a, .ok (.value (.obj [("success", .bool false), ("code", .num response.statusCode),
            ("message", .str message), ("data", .null)]))) ∧
      (response.statusCode = 403 → message = "拒绝访问") ∧
      (response.statusCode = 404 → message = "请求地址不存在") ∧
      (response.statusCode = 500 → message = "服务器内部错误") ∧
      (response.statusCode = 502 → message = "网关错误") ∧
      (response.statusCode = 503 → message = "服务不可用") ∧
      (response.statusCode = 504 → message = "网关超时") ∧
      (response.statusCode ∉ [403, 404, 500, 502, 503, 504] → message = "网络请求失败") := by
  have hcond : (decide (response.statusCode < 200) || decide (response.statusCode ≥ 300)) = true := by
    rcases hout with h | h <;> simp [h]
  have hres : ∀ m : String, getHttpErrorMessage response.statusCode = .str m →
      responseInterceptor a response config
        = (a, .ok (.value (.obj [("success", .bool false), ("code", .num response.statusCode),
            ("message", .str m), ("data", .null)]))) := by
    intro m hm
    unfold responseInterceptor
    simp only [hcond, if_true, h401, if_false, hm, createErrorResponse]
  by_cases h1 : response.statusCode = 403
  · exact ⟨"拒绝访问", hres _ (by rw [h1]; rfl), fun _ => rfl, by omega, by omega, by omega,
      by omega, by omega, by simp [h1]⟩
  by_cases h2 : response.statusCode = 404
  · exact ⟨"请求地址不存在", hres _ (by rw [h2]; rfl), by omega, fun _ => rfl, by omega, by omega,
      by omega, by omega, by simp [h2]⟩
  by_cases h3 : response.statusCode = 500
  · exact ⟨"服务器内部错误", hres _ (by rw [h3]; rfl), by omega, by omega, fun _ => rfl, by omega,
      by omega, by omega, by simp [h3]⟩
  by_cases h4 : response.statusCode = 502
  · exact ⟨"网关错误", hres _ (by rw [h4]; rfl), by omega, by omega, by omega, fun _ => rfl,
      by omega, by omega, by simp [h4]⟩
  by_cases h5 : response.statusCode = 503
  · exact ⟨"服务不可用", hres _ (by rw [h5]; rfl), by omega, by omega, by omega, by omega,
      fun _ => rfl, by omega, by simp [h5]⟩
  by_cases h6 : response.statusCode = 504
  · exact ⟨"网关超时", hres _ (by rw [h6]; rfl), by omega, by omega, by omega, by omega, by omega,
      fun _ => rfl, by simp [h6]⟩
  refine ⟨"网络请求失败", hres _ ?_, by omega, by omega, by omega, by omega, by omega, by omega,
    fun _ => rfl⟩
  have e0 : (response.statusCode == 401) = false := by simpa using h401
  have e1 : (response.statusCode == 403) = false := by simpa using h1
  have e2 : (response.statusCode == 404) = false := by simpa using h2
  have e3 : (response.statusCode == 500) = false := by simpa using h3
  have e4 : (response.statusCode == 502) = false := by simpa using h4
  have e5 : (response.statusCode == 503) = false := by simpa using h5
  have e6 : (response.statusCode == 504) = false := by simpa using h6
  unfold getHttpErrorMessage
  simp only [List.lookup, e0, e1, e2, e3, e4, e5, e6]

theorem responseInterceptor_http_failure_witness :
    responseInterceptor {} notFoundResponse userRequest
      = ({}, .ok (.value (.obj [("success", .bool false), ("code", .num 404),
          ("message", .str "请求地址不存在"), ("data", .null)]))) := by
  obtain ⟨message, h, _, h404, _⟩ :=
    responseInterceptor_http_failure {} notFoundResponse userRequest (by decide) (by decide)
  rw [h, h404 rfl]
  rfl

theorem isNum_eq_true (x : JsValue) (n : Int) : isNum x n = true ↔ x = .num n := by
  cases x <;> simp [isNum]

theorem truthy_of_getProp_ne_undefined (v : JsValue) (k : String)
    (h : v.getProp k ≠ .undefined) : v.truthy = true := by
  cases v <;> simp [JsValue.getProp, JsValue.truthy] at h ⊢

/-- Claim C12 fails on the code as worded: for a 2xx body with code 500 and
`message: 'detail'`, whose `msg` is empty or absent, the failure object carries
`detail`, which is not the body's `msg`. -/
theorem business_failure_message_is_not_msg :
    responseInterceptor {} emptyMsgResponse ordersRequest
      = ({}, .ok (.value (.obj [("success", .bool false), ("code", .num 500),
          ("message", .str "detail"), ("data", .null)]))) ∧
    emptyMsgResponse.data.getProp "msg" = .str "" ∧
    responseInterceptor {} messageOnlyResponse ordersRequest
      = ({}, .ok (.value (.obj [("success", .bool false), ("code", .num 500),
          ("message", .str "detail"), ("data", .null)]))) ∧
    messageOnlyResponse.data.getProp "msg" = .undefined ∧
    JsValue.str "detail" ≠ JsValue.str "" ∧ JsValue.str "detail" ≠ JsValue.undefined := by
  refine ⟨rfl, rfl, rfl, rfl, ?_, ?_⟩
  · simp
  · simp

/-- Claim C12, amended: for a 2xx response whose body has a `code` field, code 0
returns the body itself and leaves the state as it is; code 401 is
`handleUnauthorized`; every other code returns the failure object carrying the
body's code and, as message, the body's `msg` when that is truthy and the
body's `message` otherwise. -/
theorem responseInterceptor_envelope (a : App) (response : Response) (config : RequestOptions)
    (h2xx : 200 ≤ response.statusCode ∧ response.statusCode < 300)
    (hcode : response.data.getProp "code" ≠ .undefined) :
    (response.data.getProp "code" = .num 0 →
      responseInterceptor a response config = (a, .ok (.value response.data))) ∧
    (response.data.getProp "code" = .num 401 →
      responseInterceptor a response config = handleUnauthorized a config) ∧
    (response.data.getProp "code" ≠ .num 0 → response.data.getProp "code" ≠ .num 401 →
      responseInterceptor a response config
        = (a, .ok (.value (.obj [("success", .bool false),
            ("code", response.data.getProp "code"),
            ("message", if (response.data.getProp "msg").truthy then response.data.getProp "msg"
              else response.data.getProp "message"),
            ("data", .null)])))) := by
  have hcond : (decide (response.statusCode < 200) || decide (response.statusCode ≥ 300)) = false := by
    have h1 : ¬ response.statusCode < 200 := by omega
    have h2 : ¬ response.statusCode ≥ 300 := by omega
    simp [h1, h2]
  have htruthy := truthy_of_getProp_ne_undefined _ _ hcode
  have hdef : (match response.data.getProp "code" with
      | .undefined => true
      | _ => false) = false := by
    cases hc : response.data.getProp "code" <;> simp_all
  refine ⟨?_, ?_, ?_⟩
  · intro h0
    unfold responseInterceptor
    simp only [hcond, Bool.false_eq_true, if_false, htruthy, hdef, Bool.not_false, Bool.and_self,
      if_true, (isNum_eq_true _ _).mpr h0]
  · intro h401
    have hn0 : isNum (response.data.getProp "code") 0 = false := by
      rw [h401]; rfl
    unfold responseInterceptor
    simp only [hcond, Bool.false_eq_true, if_false, htruthy, hdef, Bool.not_false, Bool.and_self,
      if_true, hn0, (isNum_eq_true _ _).mpr h401]
  · intro h0 h401
    have hn0 : isNum (response.data.getProp "code") 0 = false := by
      cases h : isNum (response.data.getProp "code") 0
      · rfl
      · exact absurd ((isNum_eq_true _ _).mp h) h0
    have hn401 : isNum (response.data.getProp "code") 401 = false := by
      cases h : isNum (response.data.getProp "code") 401
      · rfl
      · exact absurd ((isNum_eq_true _ _).mp h) h401
    unfold responseInterceptor
    simp only [hcond, Bool.false_eq_true, if_false, htruthy, hdef, Bool.not_false, Bool.and_self,
      if_true, hn0, hn401, createErrorResponse, jsOr]

theorem responseInterceptor_envelope_witness :
    responseInterceptor {} { statusCode := 200, data := .obj [("code", .num 0), ("data", .str "ok")] }
        ordersRequest
      = ({}, .ok (.value (.obj [("code", .num 0), ("data", .str "ok")]))) ∧
    responseInterceptor {} emptyMsgResponse ordersRequest
      = ({}, .ok (.value (.obj [("success", .bool false),
          ("code", emptyMsgResponse.data.getProp "code"),
          ("message", if (emptyMsgResponse.data.getProp "msg").truthy then
              emptyMsgResponse.data.getProp "msg"
            else emptyMsgResponse.data.getProp "message"),
          ("data", .null)]))) :=
  ⟨(responseInterceptor_envelope {}
      { statusCode := 200, data := .obj [("code", .num 0), ("data", .str "ok")] } ordersRequest
      (by decide) (by simp [JsValue.getProp, List.lookup])).1 rfl,
   (responseInterceptor_envelope {} emptyMsgResponse ordersRequest (by decide)
      (by simp [emptyMsgResponse, JsValue.getProp, List.lookup])).2.2
      (by simp [emptyMsgResponse, JsValue.getProp, List.lookup])
      (by simp [emptyMsgResponse, JsValue.getProp, List.lookup])⟩

theorem lookup_cons_self {α : Type} (k : String) (v : α) (ps : List (String × α)) :
    ((k, v) :: ps).lookup k = some v := by
  rw [List.lookup_cons]
  simp

theorem lookup_cons_ne {α : Type} (k k0 : String) (v0 : α) (ps : List (String × α))
    (h : k ≠ k0) : ((k0, v0) :: ps).lookup k = ps.lookup k := by
  have hk : (k == k0) = false := by simpa using h
  rw [List.lookup_cons, hk]

theorem any_key_eq_false {α : Type} (ps : List (String × α)) (k : String) :
    ps.any (fun p => p.1 == k) = false ↔ ∀ p ∈ ps, p.1 ≠ k := by
  simp [List.any_eq_false]

theorem lookup_eq_none_of_any_false {α : Type} (ps : List (String × α)) (k : String)
    (h : ps.any (fun p => p.1 == k) = false) : ps.lookup k = none := by
  rw [any_key_eq_false] at h
  induction ps with
  | nil => rfl
  | cons p ps ih =>
    obtain ⟨k0, v0⟩ := p
    have hk : k ≠ k0 := fun e => h (k0, v0) (List.mem_cons_self _ _) e.symm
    rw [lookup_cons_ne _ _ _ _ hk]
    exact ih (fun p hp => h p (List.mem_cons_of_mem _ hp))

theorem lookup_insertIndexProp_self {α : Type} (n : Nat) (k : String) (v : α)
    (ps : List (String × α)) (h : ps.any (fun p => p.1 == k) = false) :
    (insertIndexProp n k v ps).lookup k = some v := by
  rw [any_key_eq_false] at h
  induction ps with
  | nil => exact lookup_cons_self _ _ _
  | cons p ps ih =>
    obtain ⟨k0, v0⟩ := p
    have hk : k ≠ k0 := fun e => h (k0, v0) (List.mem_cons_self _ _) e.symm
    unfold insertIndexProp
    split
    · split
      · rw [lookup_cons_ne _ _ _ _ hk]
        exact ih (fun p hp => h p (List.mem_cons_of_mem _ hp))
      · exact lookup_cons_self _ _ _
    · exact lookup_cons_self _ _ _

theorem lookup_insertIndexProp_ne {α : Type} (n : Nat) (k k' : String) (v : α)
    (ps : List (String × α)) (hne : k' ≠ k) :
    (insertIndexProp n k v ps).lookup k' = ps.lookup k' := by
  induction ps with
  | nil =>
    unfold insertIndexProp
    exact lookup_cons_ne _ _ _ _ hne
  | cons p ps ih =>
    obtain ⟨k0, v0⟩ := p
    unfold insertIndexProp
    split
    · split
      · by_cases hk0 : k' = k0
        · subst hk0
          rw [lookup_cons_self, lookup_cons_self]
        · rw [lookup_cons_ne _ _ _ _ hk0, lookup_cons_ne _ _ _ _ hk0]
          exact ih
      · exact lookup_cons_ne _ _ _ _ hne
    · exact lookup_cons_ne _ _ _ _ hne

theorem lookup_map_replace_self {α : Type} (ps : List (String × α)) (k : String) (v : α)
    (h : ps.any (fun p => p.1 == k) = true) :
    (ps.map (fun p => if p.1 == k then (k, v) else p)).lookup k = some v := by
  induction ps with
  | nil => simp at h
  | cons p ps ih =>
    obtain ⟨k0, v0⟩ := p
    rw [List.map_cons]
    by_cases hk : k0 = k
    · have e : (if ((k0, v0).1 == k) = true then (k, v) else (k0, v0)) = (k, v) :=
        if_pos (by simpa using hk)
      rw [e]
      exact lookup_cons_self _ _ _
    · have e : (if ((k0, v0).1 == k) = true then (k, v) else (k0, v0)) = (k0, v0) :=
        if_neg (by simpa using hk)
      rw [e, lookup_cons_ne _ _ _ _ (fun e : k = k0 => hk e.symm)]
      apply ih
      simpa [hk] using h

theorem lookup_map_replace_ne {α : Type} (ps : List (String × α)) (k k' : String) (v : α)
    (hne : k' ≠ k) :
    (ps.map (fun p => if p.1 == k then (k, v) else p)).lookup k' = ps.lookup k' := by
  induction ps with
  | nil => rfl
  | cons p ps ih =>
    obtain ⟨k0, v0⟩ := p
    rw [List.map_cons]
    by_cases hk : k0 = k
    · have e : (if ((k0, v0).1 == k) = true then (k, v) else (k0, v0)) = (k, v) :=
        if_pos (by simpa using hk)
      rw [e, lookup_cons_ne _ _ _ _ hne, lookup_cons_ne _ _ _ _ (hk ▸ hne), ih]
    · have e : (if ((k0, v0).1 == k) = true then (k, v) else (k0, v0)) = (k0, v0) :=
        if_neg (by simpa using hk)
      rw [e]
      by_cases hk0 : k' = k0
      · subst hk0
        rw [lookup_cons_self, lookup_cons_self]
      · rw [lookup_cons_ne _ _ _ _ hk0, lookup_cons_ne _ _ _ _ hk0, ih]

theorem lookup_setProp_self {α : Type} (ps : List (String × α)) (k : String) (v : α) :
    (setProp ps k v).lookup k = some v := by
  unfold setProp
  by_cases h : ps.any (fun p => p.1 == k) = true
  · rw [if_pos h]
    exact lookup_map_replace_self ps k v h
  · rw [if_neg h]
    have hany : ps.any (fun p => p.1 == k) = false := by
      cases hb : ps.any (fun p => p.1 == k)
      · rfl
      · exact absurd hb h
    split
    · exact lookup_insertIndexProp_self _ _ _ _ hany
    · rw [List.lookup_append, lookup_eq_none_of_any_false ps k hany]
      exact lookup_cons_self _ _ _

theorem lookup_setProp_ne {α : Type} (ps : List (String × α)) (k k' : String) (v : α)
    (hne : k' ≠ k) : (setProp ps k v).lookup k' = ps.lookup k' := by
  unfold setProp
  by_cases h : ps.any (fun p => p.1 == k) = true
  · rw [if_pos h]
    exact lookup_map_replace_ne ps k k' v hne
  · rw [if_neg h]
    split
    · exact lookup_insertIndexProp_ne _ _ _ _ _ hne
    · rw [List.lookup_append, lookup_cons_ne _ _ _ _ hne]
      cases ps.lookup k' <;> rfl


theorem lookup_foldl_setProp_not_mem {α : Type} (hdr : List (String × α))
    (acc : List (String × α)) (k : String) (h : ∀ p ∈ hdr, p.1 ≠ k) :
    (hdr.foldl (fun h kv => setProp h kv.1 kv.2) acc).lookup k = acc.lookup k := by
  induction hdr generalizing acc with
  | nil => rfl
  | cons p hdr ih =>
    rw [List.foldl_cons, ih _ (fun q hq => h q (List.mem_cons_of_mem _ hq))]
    exact lookup_setProp_ne _ _ _ _ (fun e => h p (List.mem_cons_self _ _) e.symm)

theorem lookup_foldl_setProp_mem {α : Type} (hdr : List (String × α))
    (acc : List (String × α)) (k : String) (v : α) (hn : (hdr.map Prod.fst).Nodup)
    (hm : (k, v) ∈ hdr) :
    (hdr.foldl (fun h kv => setProp h kv.1 kv.2) acc).lookup k = some v := by
  induction hdr generalizing acc with
  | nil => simp at hm
  | cons p hdr ih =>
    rw [List.map_cons, List.nodup_cons] at hn
    rw [List.foldl_cons]
    rcases List.mem_cons.mp hm with e | hm'
    · subst e
      rw [lookup_foldl_setProp_not_mem]
      · exact lookup_setProp_self _ _ _
      · intro q hq e
        exact hn.1 (List.mem_map.mpr ⟨q, hq, e⟩)
    · exact ih _ hn.2 hm'

/-- The descriptor `requestInterceptor` returns, in terms of its steps. -/
theorem requestInterceptor_ok (a a1 : App) (options p : RequestOptions)
    (hi : requestInterceptor a options = (a1, .ok p)) :
    (isSkipTokenCheck (prefixBaseUrl a.env (defaultMethod options)).url = true ∧
      p = mergeHeaders a.env (prefixBaseUrl a.env (defaultMethod options))) ∨
    (isSkipTokenCheck (prefixBaseUrl a.env (defaultMethod options)).url = false ∧
      p = attachToken (mergeHeaders a.env (prefixBaseUrl a.env (defaultMethod options)))
        (getValidToken a).2) := by
  unfold requestInterceptor at hi
  split at hi
  · cases hi
  · dsimp only at hi
    have hurl : (mergeHeaders a.env (prefixBaseUrl a.env (defaultMethod options))).url
        = (prefixBaseUrl a.env (defaultMethod options)).url := rfl
    rw [hurl] at hi
    by_cases hs : isSkipTokenCheck (prefixBaseUrl a.env (defaultMethod options)).url = true
    · rw [if_pos hs] at hi
      injection hi with _ h2
      injection h2 with h3
      exact Or.inl ⟨hs, h3.symm⟩
    · rw [if_neg hs] at hi
      injection hi with _ h2
      injection h2 with h3
      exact Or.inr ⟨by simpa using hs, h3.symm⟩


theorem defaultMethod_fields (o : RequestOptions) :
    (defaultMethod o).url = o.url ∧ (defaultMethod o).data = o.data ∧
    (defaultMethod o).header = o.header ∧ (defaultMethod o).loading = o.loading ∧
    (defaultMethod o).loadingText = o.loadingText ∧ (defaultMethod o).showError = o.showError ∧
    (defaultMethod o).cancelPrevious = o.cancelPrevious ∧ (defaultMethod o).timeout = o.timeout ∧
    (defaultMethod o)._tokenRefreshed = o._tokenRefreshed := by
  unfold defaultMethod
  split
  · split <;> exact ⟨rfl, rfl, rfl, rfl, rfl, rfl, rfl, rfl, rfl⟩
  · exact ⟨rfl, rfl, rfl, rfl, rfl, rfl, rfl, rfl, rfl⟩

theorem prefixBaseUrl_fields (env : Env) (o : RequestOptions) :
    (prefixBaseUrl env o).method = o.method ∧ (prefixBaseUrl env o).data = o.data ∧
    (prefixBaseUrl env o).header = o.header ∧ (prefixBaseUrl env o).loading = o.loading ∧
    (prefixBaseUrl env o).loadingText = o.loadingText ∧
    (prefixBaseUrl env o).showError = o.showError ∧
    (prefixBaseUrl env o).cancelPrevious = o.cancelPrevious ∧
    (prefixBaseUrl env o).timeout = o.timeout ∧
    (prefixBaseUrl env o)._tokenRefreshed = o._tokenRefreshed := by
  unfold prefixBaseUrl
  split <;> exact ⟨rfl, rfl, rfl, rfl, rfl, rfl, rfl, rfl, rfl⟩

theorem attachToken_fields (o : RequestOptions) (t : Option String) :
    (attachToken o t).url = o.url ∧ (attachToken o t).method = o.method ∧
    (attachToken o t).data = o.data ∧ (attachToken o t).loading = o.loading ∧
    (attachToken o t).loadingText = o.loadingText ∧ (attachToken o t).showError = o.showError ∧
    (attachToken o t).cancelPrevious = o.cancelPrevious ∧ (attachToken o t).timeout = o.timeout ∧
    (attachToken o t)._tokenRefreshed = o._tokenRefreshed := by
  unfold attachToken
  split
  · split <;> exact ⟨rfl, rfl, rfl, rfl, rfl, rfl, rfl, rfl, rfl⟩
  · exact ⟨rfl, rfl, rfl, rfl, rfl, rfl, rfl, rfl, rfl⟩

theorem attachToken_lookup_ne (o : RequestOptions) (t : Option String) (k : String)
    (hk : k ≠ "Authorization") : (attachToken o t).header.lookup k = o.header.lookup k := by
  unfold attachToken
  split
  · split
    · exact lookup_setProp_ne _ _ _ _ hk
    · rfl
  · rfl

/-- Claim C13 fails on the code as worded: with a valid token stored and a URL
that is not skipped, the caller's header `Authorization: Basic abc` is replaced
by `Bearer tok-1`. -/
theorem requestInterceptor_overwrites_authorization :
    basicAuthRequest.header.lookup "Authorization" = some "Basic abc" ∧
    (match (requestInterceptor validTokenApp basicAuthRequest).2 with
      | .ok p => p.header.lookup "Authorization"
      | .error _ => none) = some "Bearer tok-1" := by
  refine ⟨by decide, by decide⟩

/-- What `requestInterceptor` keeps and what it fills in, for a descriptor it
returns. -/
theorem requestInterceptor_fields (a a1 : App) (options p : RequestOptions)
    (hkeys : (options.header.map Prod.fst).Nodup)
    (hi : requestInterceptor a options = (a1, .ok p)) :
    (∀ m, options.method = some m → m ≠ "" → p.method = some m) ∧
    (startsWith options.url "http" = true → p.url = options.url) ∧
    (∀ k v, (k, v) ∈ options.header → k ≠ "Authorization" → p.header.lookup k = some v) ∧
    (∀ v, ("Authorization", v) ∈ options.header →
      (isSkipTokenCheck p.url = true ∨ (getValidToken a).2 = none ∨ (getValidToken a).2 = some "") →
      p.header.lookup "Authorization" = some v) ∧
    (p.data = options.data ∧ p.loading = options.loading ∧ p.loadingText = options.loadingText ∧
      p.showError = options.showError ∧ p.cancelPrevious = options.cancelPrevious ∧
      p.timeout = options.timeout ∧ p._tokenRefreshed = options._tokenRefreshed) ∧
    ((options.method = none ∨ options.method = some "") → p.method = some "GET") ∧
    (startsWith options.url "http" = false → p.url = a.env.API_BASE_URL ++ options.url) ∧
    ((∀ q ∈ options.header, q.1 ≠ "tenant-id") →
      p.header.lookup "tenant-id" = some (if a.env.TENANT_ID != "" then a.env.TENANT_ID else "1")) ∧
    ((∀ q ∈ options.header, q.1 ≠ "login_user_type") →
      p.header.lookup "login_user_type"
        = some (if a.env.LOGIN_USER_TYPE != "" then a.env.LOGIN_USER_TYPE else "3")) ∧
    ((∀ q ∈ options.header, q.1 ≠ "Content-Type") →
      p.header.lookup "Content-Type" = some "application/json") ∧
    (∀ t, isSkipTokenCheck p.url = false → (getValidToken a).2 = some t → t ≠ "" →
      p.header.lookup "Authorization" = some ("Bearer " ++ t)) := by
  -- the three steps before the token is attached
  have hd := defaultMethod_fields options
  have hp := prefixBaseUrl_fields a.env (defaultMethod options)
  have hmethod1 : ∀ m, options.method = some m → m ≠ "" →
      (prefixBaseUrl a.env (defaultMethod options)).method = some m := by
    intro m hm hne
    rw [hp.1]
    unfold defaultMethod
    rw [hm]
    simp [hne, hm]
  have hmethod2 : (options.method = none ∨ options.method = some "") →
      (prefixBaseUrl a.env (defaultMethod options)).method = some "GET" := by
    intro h
    rw [hp.1]
    unfold defaultMethod
    rcases h with h | h
    · rw [h]
    · rw [h]; simp
  have hurl1 : startsWith options.url "http" = true →
      (prefixBaseUrl a.env (defaultMethod options)).url = options.url := by
    intro h
    unfold prefixBaseUrl
    rw [hd.1]
    simp [h, hd.1]
  have hurl2 : startsWith options.url "http" = false →
      (prefixBaseUrl a.env (defaultMethod options)).url = a.env.API_BASE_URL ++ options.url := by
    intro h
    unfold prefixBaseUrl
    rw [hd.1]
    simp [h, hd.1]
  have hhdr : (prefixBaseUrl a.env (defaultMethod options)).header = options.header :=
    hp.2.2.1.trans hd.2.2.1
  have hmerge : ∀ k v, (k, v) ∈ options.header →
      (mergeHeaders a.env (prefixBaseUrl a.env (defaultMethod options))).header.lookup k
        = some v := by
    intro k v hm
    unfold mergeHeaders
    dsimp only
    rw [hhdr]
    exact lookup_foldl_setProp_mem _ _ _ _ hkeys hm
  have hdefault : ∀ k, (∀ q ∈ options.header, q.1 ≠ k) →
      (mergeHeaders a.env (prefixBaseUrl a.env (defaultMethod options))).header.lookup k
        = List.lookup k
            [("tenant-id", if a.env.TENANT_ID != "" then a.env.TENANT_ID else "1"),
             ("login_user_type", if a.env.LOGIN_USER_TYPE != "" then a.env.LOGIN_USER_TYPE else "3"),
             ("Content-Type", "application/json")] := by
    intro k hk
    unfold mergeHeaders
    dsimp only
    rw [hhdr]
    exact lookup_foldl_setProp_not_mem _ _ _ hk
  have hrest : ∀ q : RequestOptions,
      (q = mergeHeaders a.env (prefixBaseUrl a.env (defaultMethod options)) ∨
        q = attachToken (mergeHeaders a.env (prefixBaseUrl a.env (defaultMethod options)))
          (getValidToken a).2) →
      q.url = (prefixBaseUrl a.env (defaultMethod options)).url ∧
      q.method = (prefixBaseUrl a.env (defaultMethod options)).method ∧
      (q.data = options.data ∧ q.loading = options.loading ∧ q.loadingText = options.loadingText ∧
        q.showError = options.showError ∧ q.cancelPrevious = options.cancelPrevious ∧
        q.timeout = options.timeout ∧ q._tokenRefreshed = options._tokenRefreshed) ∧
      (∀ k, k ≠ "Authorization" → q.header.lookup k
        = (mergeHeaders a.env (prefixBaseUrl a.env (defaultMethod options))).header.lookup k) := by
    intro q hq
    have hbase : (prefixBaseUrl a.env (defaultMethod options)).data = options.data ∧
        (prefixBaseUrl a.env (defaultMethod options)).loading = options.loading ∧
        (prefixBaseUrl a.env (defaultMethod options)).loadingText = options.loadingText ∧
        (prefixBaseUrl a.env (defaultMethod options)).showError = options.showError ∧
        (prefixBaseUrl a.env (defaultMethod options)).cancelPrevious = options.cancelPrevious ∧
        (prefixBaseUrl a.env (defaultMethod options)).timeout = options.timeout ∧
        (prefixBaseUrl a.env (defaultMethod options))._tokenRefreshed = options._tokenRefreshed :=
      ⟨hp.2.1.trans hd.2.1, hp.2.2.2.1.trans hd.2.2.2.1, hp.2.2.2.2.1.trans hd.2.2.2.2.1,
        hp.2.2.2.2.2.1.trans hd.2.2.2.2.2.1, hp.2.2.2.2.2.2.1.trans hd.2.2.2.2.2.2.1,
        hp.2.2.2.2.2.2.2.1.trans hd.2.2.2.2.2.2.2.1, hp.2.2.2.2.2.2.2.2.trans hd.2.2.2.2.2.2.2.2⟩
    rcases hq with rfl | rfl
    · exact ⟨rfl, rfl, hbase, fun _ _ => rfl⟩
    · have ha := attachToken_fields
        (mergeHeaders a.env (prefixBaseUrl a.env (defaultMethod options))) (getValidToken a).2
      refine ⟨ha.1, ha.2.1, ?_, fun k hk => attachToken_lookup_ne _ _ _ hk⟩
      exact ⟨ha.2.2.1.trans hbase.1, ha.2.2.2.1.trans hbase.2.1, ha.2.2.2.2.1.trans hbase.2.2.1,
        ha.2.2.2.2.2.1.trans hbase.2.2.2.1, ha.2.2.2.2.2.2.1.trans hbase.2.2.2.2.1,
        ha.2.2.2.2.2.2.2.1.trans hbase.2.2.2.2.2.1, ha.2.2.2.2.2.2.2.2.trans hbase.2.2.2.2.2.2⟩
  have hcase := requestInterceptor_ok a a1 options p hi
  have hq := hrest p (by rcases hcase with h | h; exact Or.inl h.2; exact Or.inr h.2)
  have hne1 : ("tenant-id" : String) ≠ "Authorization" := by decide
  have hne2 : ("login_user_type" : String) ≠ "Authorization" := by decide
  have hne3 : ("Content-Type" : String) ≠ "Authorization" := by decide
  refine ⟨?_, ?_, ?_, ?_, hq.2.2.1, ?_, ?_, ?_, ?_, ?_, ?_⟩
  · intro m hm hne
    rw [hq.2.1]; exact hmethod1 m hm hne
  · intro h
    rw [hq.1]; exact hurl1 h
  · intro k v hm hk
    rw [hq.2.2.2 k hk]; exact hmerge k v hm
  · intro v hm hnone
    rcases hcase with h | h
    · rw [h.2]; exact hmerge _ _ hm
    · have hskip : isSkipTokenCheck p.url = false := by rw [hq.1]; exact h.1
      rw [h.2]
      rcases hnone with h1 | h1 | h1
      · rw [hskip] at h1; cases h1
      · rw [h1]; exact hmerge _ _ hm
      · rw [h1]; exact hmerge _ _ hm
  · intro h
    rw [hq.2.1]; exact hmethod2 h
  · intro h
    rw [hq.1]; exact hurl2 h
  · intro h
    rw [hq.2.2.2 _ hne1, hdefault _ h]
    rfl
  · intro h
    rw [hq.2.2.2 _ hne2, hdefault _ h]
    rfl
  · intro h
    rw [hq.2.2.2 _ hne3, hdefault _ h]
    rfl
  · intro t hskip ht hne
    rcases hcase with h | h
    · rw [hq.1, h.1] at hskip; cases hskip
    · rw [h.2, ht]
      unfold attachToken
      simp only [bne_iff_ne, ne_eq, hne, not_false_eq_true, if_true]
      exact lookup_setProp_self _ _ _


/-- Claim C13, amended: with the environment readable, `requestInterceptor`
returns a descriptor that keeps the caller's method when given, an absolute URL,
the value of every caller header other than `Authorization`, the caller's
`Authorization` when the URL is skipped or no token is available, and every
other field; it fills in method GET, the base-URL prefix of a relative URL and
the three default headers when absent, and it sets `Authorization` to the bearer
token whenever a token is available and the URL is not skipped, also over a
value the caller supplied. -/
theorem requestInterceptor_adds_or_defaults (a : App) (options : RequestOptions)
    (hkeys : (options.header.map Prod.fst).Nodup) (henv : a.env.failure = none) :
    ∃ a1 p, requestInterceptor a options = (a1, .ok p) ∧
    (∀ m, options.method = some m → m ≠ "" → p.method = some m) ∧
    (startsWith options.url "http" = true → p.url = options.url) ∧
    (∀ k v, (k, v) ∈ options.header → k ≠ "Authorization" → p.header.lookup k = some v) ∧
    (∀ v, ("Authorization", v) ∈ options.header →
      (isSkipTokenCheck p.url = true ∨ (getValidToken a).2 = none ∨ (getValidToken a).2 = some "") →
      p.header.lookup "Authorization" = some v) ∧
    (p.data = options.data ∧ p.loading = options.loading ∧ p.loadingText = options.loadingText ∧
      p.showError = options.showError ∧ p.cancelPrevious = options.cancelPrevious ∧
      p.timeout = options.timeout ∧ p._tokenRefreshed = options._tokenRefreshed) ∧
    ((options.method = none ∨ options.method = some "") → p.method = some "GET") ∧
    (startsWith options.url "http" = false → p.url = a.env.API_BASE_URL ++ options.url) ∧
    ((∀ q ∈ options.header, q.1 ≠ "tenant-id") →
      p.header.lookup "tenant-id" = some (if a.env.TENANT_ID != "" then a.env.TENANT_ID else "1")) ∧
    ((∀ q ∈ options.header, q.1 ≠ "login_user_type") →
      p.header.lookup "login_user_type"
        = some (if a.env.LOGIN_USER_TYPE != "" then a.env.LOGIN_USER_TYPE else "3")) ∧
    ((∀ q ∈ options.header, q.1 ≠ "Content-Type") →
      p.header.lookup "Content-Type" = some "application/json") ∧
    (∀ t, isSkipTokenCheck p.url = false → (getValidToken a).2 = some t → t ≠ "" →
      p.header.lookup "Authorization" = some ("Bearer " ++ t)) := by
  have hret : ∃ a1 p, requestInterceptor a options = (a1, .ok p) := by
    unfold requestInterceptor
    rw [henv]
    dsimp only
    by_cases hs : isSkipTokenCheck
        (mergeHeaders a.env (prefixBaseUrl a.env (defaultMethod options))).url = true
    · rw [if_pos hs]
      exact ⟨_, _, rfl⟩
    · rw [if_neg hs]
      exact ⟨_, _, rfl⟩
  obtain ⟨a1, p, hi⟩ := hret
  exact ⟨a1, p, hi, requestInterceptor_fields a a1 options p hkeys hi⟩

theorem requestInterceptor_adds_or_defaults_witness :
    ∃ a1 p, requestInterceptor validTokenApp basicAuthRequest = (a1, .ok p) ∧
      p.header.lookup "X-Trace" = some "1" ∧ p.url = basicAuthRequest.url ∧
      p.method = some "GET" :=
  match requestInterceptor_adds_or_defaults validTokenApp basicAuthRequest (by decide) rfl with
  | ⟨a1, p, hi, _, hurl, hhdr, _, _, hmethod, _⟩ =>
    ⟨a1, p, hi, hhdr "X-Trace" "1" (by decide) (by decide), hurl (by decide),
      hmethod (Or.inl rfl)⟩

/-- Claim C14 fails on the code as worded: after `setAutoRefresh(true)`, a
`refreshToken()` made while no refresh token is stored and the `saveToken` of a
login, the refresh in flight rejects with `No refresh token available`; a
response escalated in that state waits in the queue, its waiter is rejected with
that error, and `handleUnauthorized` throws a new error with the message
`登录已过期，请重新登录`, not the error of the refresh. -/
theorem handleUnauthorized_discards_refresh_error :
    rejectedRefreshInFlightApp.refreshPromise
      = some { id := 0, outcome := .rejected { message := "No refresh token available" } } ∧
    getRefreshToken rejectedRefreshInFlightApp = "refresh-2" ∧
    (handleUnauthorized rejectedRefreshInFlightApp ordersRequest).2
      = .error { message := "登录已过期，请重新登录", silent := true } ∧
    (responseInterceptor rejectedRefreshInFlightApp { statusCode := 401, data := .null }
        ordersRequest).2
      = .error { message := "登录已过期，请重新登录", silent := true } ∧
    ({ message := "登录已过期，请重新登录", silent := true } : JsError)
      ≠ { message := "No refresh token available" } ∧
    (handleUnauthorized rejectedRefreshInFlightApp ordersRequest).1.trace
      = [.refreshTokenCalled, .performRefresh,
         .waiterSettled 1 (.rejected { message := "No refresh token available" }),
         .setTimeout 3000, .reLaunch "/pages/login/index"] := by
  refine ⟨rfl, rfl, rfl, rfl, by decide, rfl⟩

theorem requestSettle_silent (s : App) (options : RequestOptions) (err : JsError)
    (hs : err.silent = true) :
    requestSettle s options (.error err)
      = (if !isFalse options.loading then hideLoading s else s, .rejected err.toJs) := by
  unfold requestSettle
  simp [hs]

/-- Every error `handleUnauthorized` throws is one of its two fixed silent
errors. -/
theorem handleUnauthorized_error (a : App) (config : RequestOptions) (err : JsError)
    (h : (handleUnauthorized a config).2 = .error err) :
    err = { message := "未授权，请重新登录", silent := true } ∨
    err = { message := "登录已过期，请重新登录", silent := true } := by
  unfold handleUnauthorized at h
  dsimp only at h
  split at h
  · injection h with h1
    exact Or.inl h1.symm
  · split at h
    · split at h
      · split at h
        · cases h
        · injection h with h1
          exact Or.inr h1.symm
      · injection h with h1
        exact Or.inr h1.symm
    · split at h
      · cases h
      · injection h with h1
        exact Or.inr h1.symm

/-- Claim C14, amended: every error `handleUnauthorized` throws is one of two new
silent errors with a fixed message, never the error of the refresh. With a
refresh token stored and auto-refresh on, when the refresh in flight on which the
response waits rejects with any error, the waiter is rejected with that error
and `handleUnauthorized` redirects to login and throws the new silent error
`登录已过期，请重新登录`; `requestSettle` shows no error for it and rejects with it,
and `request` settles with what `requestSettle` gives for the error the response
interceptor threw. -/
theorem handleUnauthorized_refresh_rejected (a : App) (config : RequestOptions)
    (hr : getRefreshToken a ≠ "") (hauto : a.config.enableAutoRefresh = true) :
    (∀ err, (handleUnauthorized a config).2 = .error err →
      err = { message := "未授权，请重新登录", silent := true } ∨
      err = { message := "登录已过期，请重新登录", silent := true }) ∧
    (∀ p e, a.refreshPromise = some p → p.outcome = .rejected e →
      handleUnauthorized a config
        = (_safeRedirectToLogin (refreshTokenResume (addToQueue a config).1 p),
            .error { message := "登录已过期，请重新登录", silent := true }) ∧
      (refreshTokenResume (addToQueue a config).1 p).trace
        = a.trace ++ (a.pendingQueue.map (fun w => .waiterSettled w.id (.rejected e))
            ++ [.waiterSettled a.nextPromise (.rejected e)])) ∧
    (∀ (s : App) (options : RequestOptions),
      requestSettle s options (.error { message := "登录已过期，请重新登录", silent := true })
        = (if !isFalse options.loading then hideLoading s else s,
            .rejected (.obj [("message", .str "登录已过期，请重新登录"), ("silent", .bool true)]))) ∧
    (∀ (transport : Nat → TransportResult) (b : App) (options : RequestOptions) (retryCount : Nat)
        (t : Nat) (p : RequestOptions) (k : String) (response : Response) (err : JsError),
      (requestDispatch b options).2 = .issued t p k →
      transport t = .success response →
      (responseInterceptor
        { (requestDispatch b options).1 with
          requestTaskMap := mapDelete (requestDispatch b options).1.requestTaskMap k
          pendingRequests := setDelete (requestDispatch b options).1.pendingRequests k }
        response p).2 = .error err →
      request transport b options retryCount
        = requestSettle (responseInterceptor
            { (requestDispatch b options).1 with
              requestTaskMap := mapDelete (requestDispatch b options).1.requestTaskMap k
              pendingRequests := setDelete (requestDispatch b options).1.pendingRequests k }
            response p).1 options (.error err)) := by
  have hguard : (decide (getRefreshToken a = "") || !a.config.enableAutoRefresh) = false := by
    simp [hr, hauto]
  refine ⟨fun err h => handleUnauthorized_error a config err h, ?_, ?_, ?_⟩
  · intro p e hp he
    constructor
    · unfold handleUnauthorized
      simp only [hguard, Bool.false_eq_true, if_false, hp, he]
    · unfold refreshTokenResume
      simp only [he, _processPendingQueue, addToQueue, settleWaiter, List.map_append,
        List.map_cons, List.map_nil]
  · intro s options
    exact requestSettle_silent s options _ rfl
  · intro transport b options retryCount t p k response err hd ht hr2
    have hd2 : requestDispatch b options = ((requestDispatch b options).1, .issued t p k) := by
      rw [← hd]
    generalize (requestDispatch b options).1 = a5 at hd2 hr2 ⊢
    have hr3 : responseInterceptor
        { a5 with requestTaskMap := mapDelete a5.requestTaskMap k
                  pendingRequests := setDelete a5.pendingRequests k } response p
        = ((responseInterceptor
            { a5 with requestTaskMap := mapDelete a5.requestTaskMap k
                      pendingRequests := setDelete a5.pendingRequests k } response p).1,
          .error err) := by
      rw [← hr2]
    generalize (responseInterceptor
            { a5 with requestTaskMap := mapDelete a5.requestTaskMap k
                      pendingRequests := setDelete a5.pendingRequests k } response p).1 = a7
      at hr3 ⊢
    rw [request, hd2]
    simp only [ht]
    rw [hr3]

theorem handleUnauthorized_refresh_rejected_witness :
    handleUnauthorized rejectedRefreshInFlightApp ordersRequest
      = (_safeRedirectToLogin
          (refreshTokenResume (addToQueue rejectedRefreshInFlightApp ordersRequest).1
            { id := 0, outcome := .rejected { message := "No refresh token available" } }),
          .error { message := "登录已过期，请重新登录", silent := true }) :=
  ((handleUnauthorized_refresh_rejected rejectedRefreshInFlightApp ordersRequest (by decide)
    rfl).2.1 _ _ rfl rfl).1

/-- Claim C15 fails on the code as worded: when the `fail` callback of
`uni.reLaunch` runs between two calls of `_safeRedirectToLogin`, before the
timer fires, `uni.reLaunch` is invoked twice. -/
theorem redirect_twice_after_failed_reLaunch :
    (({} : App).redirecting = false ∧ isOnLoginPage {} = false) ∧
    (∀ e ∈ [RedirectEvent.call, .reLaunchFails, .call], e.isTimer = false) ∧
    (runRedirect [.call, .reLaunchFails, .call] {}).reLaunchCalls = 2 := by
  refine ⟨⟨rfl, rfl⟩, by decide, by decide⟩

theorem runRedirect_guarded (rest : List RedirectEvent) (b : App) (hb : b.redirecting = true)
    (hrest : ∀ e ∈ rest, e.isTimer = false ∧ e.isReLaunchFail = false) :
    (runRedirect rest b).reLaunchCalls = b.reLaunchCalls ∧
    (runRedirect rest b).redirecting = true := by
  induction rest generalizing b with
  | nil => exact ⟨rfl, hb⟩
  | cons e rest ih =>
    have he := hrest e (List.mem_cons_self _ _)
    have hstep : (redirectStep b e).redirecting = true ∧
        (redirectStep b e).reLaunchCalls = b.reLaunchCalls := by
      cases e with
      | call =>
        have : _safeRedirectToLogin b = b := by
          unfold _safeRedirectToLogin
          simp [hb]
        show (_safeRedirectToLogin b).redirecting = true ∧
          (_safeRedirectToLogin b).reLaunchCalls = b.reLaunchCalls
        rw [this]
        exact ⟨hb, rfl⟩
      | timerFires => simp [RedirectEvent.isTimer] at he
      | reLaunchFails => simp [RedirectEvent.isReLaunchFail] at he
      | pagesChange pages => exact ⟨hb, rfl⟩
    have h := ih (redirectStep b e) hstep.1 (fun x hx => hrest x (List.mem_cons_of_mem _ hx))
    show (runRedirect rest (redirectStep b e)).reLaunchCalls = _ ∧ _
    exact ⟨h.1.trans hstep.2, h.2⟩

/-- Claim C15, amended: from a state with `redirecting = false` and the current
page not the login page, a call of `_safeRedirectToLogin` followed by any
further calls and page changes, with no timer firing and no `fail` callback of
`uni.reLaunch` running, invokes `uni.reLaunch` exactly once. -/
theorem safeRedirectToLogin_once (a : App) (rest : List RedirectEvent)
    (hr : a.redirecting = false) (hpage : isOnLoginPage a = false)
    (hrest : ∀ e ∈ rest, e.isTimer = false ∧ e.isReLaunchFail = false) :
    (runRedirect (.call :: rest) a).reLaunchCalls = a.reLaunchCalls + 1 := by
  have hfirst : (_safeRedirectToLogin a).redirecting = true ∧
      (_safeRedirectToLogin a).reLaunchCalls = a.reLaunchCalls + 1 := by
    have hp : isOnLoginPage
        (({ a with redirecting := true }).emit (.setTimeout a.config.redirectDelay)) = false := hpage
    unfold _safeRedirectToLogin
    simp only [hr, Bool.false_eq_true, if_false, hp, Bool.not_false, if_true]
    refine ⟨rfl, ?_⟩
    simp [App.reLaunchCalls, App.emit, List.countP_append, List.countP_cons, Effect.isReLaunch]
  have h := runRedirect_guarded rest (_safeRedirectToLogin a) hfirst.1 hrest
  show (runRedirect rest (_safeRedirectToLogin a)).reLaunchCalls = _
  rw [h.1, hfirst.2]

theorem safeRedirectToLogin_once_witness :
    (runRedirect [.call, .call, .pagesChange [{ route := some "pages/login/index" }], .call]
      {}).reLaunchCalls = App.reLaunchCalls {} + 1 :=
  safeRedirectToLogin_once {} [.call, .pagesChange [{ route := some "pages/login/index" }], .call]
    rfl rfl (by decide)

theorem loadingStep_nonneg (s : App) (c : LoadingCall) (h : 0 ≤ s.loadingCount) :
    0 ≤ (loadingStep s c).loadingCount := by
  cases c with
  | showLoading title =>
    show 0 ≤ (showLoading s title).loadingCount
    unfold showLoading
    dsimp only
    split
    · show 0 ≤ s.loadingCount + 1
      omega
    · show 0 ≤ s.loadingCount + 1
      omega
  | hideLoading =>
    show 0 ≤ (hideLoading s).loadingCount
    unfold hideLoading
    dsimp only
    split
    · show 0 ≤ max (s.loadingCount - 1) 0
      exact le_max_right _ _
    · show 0 ≤ max (s.loadingCount - 1) 0
      exact le_max_right _ _

theorem runLoading_nonneg (calls : List LoadingCall) (s : App) (h : 0 ≤ s.loadingCount) :
    0 ≤ (runLoading calls s).loadingCount := by
  induction calls generalizing s with
  | nil => exact h
  | cons c calls ih => exact ih (loadingStep s c) (loadingStep_nonneg s c h)

/-- Claim C16: starting from `loadingCount = 0`, after every prefix of a sequence
of `showLoading` and `hideLoading` calls the count is not negative;
`showLoading` calls `uni.showLoading` exactly when the count was 0, making it 1,
and adds one to the count in every case; `hideLoading` calls `uni.hideLoading`
exactly when it leaves the count at 0. -/
theorem loading_indicator_reference_count (a : App) (calls : List LoadingCall)
    (h0 : a.loadingCount = 0) :
    (∀ n, 0 ≤ (runLoading (calls.take n) a).loadingCount) ∧
    (∀ (s : App) (title : Option String),
      (s.loadingCount = 0 →
        (showLoading s title).trace = s.trace ++ [.showLoading (title.getD "加载中...")] ∧
        (showLoading s title).loadingCount = 1) ∧
      (s.loadingCount ≠ 0 → (showLoading s title).trace = s.trace) ∧
      (showLoading s title).loadingCount = s.loadingCount + 1) ∧
    (∀ s : App,
      ((hideLoading s).loadingCount = 0 → (hideLoading s).trace = s.trace ++ [.hideLoading]) ∧
      ((hideLoading s).loadingCount ≠ 0 → (hideLoading s).trace = s.trace) ∧
      (hideLoading s).loadingCount = max (s.loadingCount - 1) 0) := by
  refine ⟨fun n => runLoading_nonneg _ a (by omega), ?_, ?_⟩
  · intro s title
    refine ⟨?_, ?_, ?_⟩
    · intro hs
      unfold showLoading
      simp only [hs, if_true]
      refine ⟨rfl, ?_⟩
      show s.loadingCount + 1 = 1
      omega
    · intro hs
      unfold showLoading
      simp only [hs, if_false]
    · unfold showLoading
      dsimp only
      split <;> rfl
  · intro s
    have hcount : (hideLoading s).loadingCount = max (s.loadingCount - 1) 0 := by
      unfold hideLoading
      dsimp only
      split <;> rfl
    refine ⟨?_, ?_, hcount⟩
    · intro hs
      rw [hcount] at hs
      unfold hideLoading
      simp only [hs, if_true]
      rfl
    · intro hs
      rw [hcount] at hs
      unfold hideLoading
      simp only [hs, if_false]

theorem loading_indicator_reference_count_witness :
    0 ≤ (runLoading ([LoadingCall.hideLoading, .showLoading none, .showLoading none, .hideLoading, .hideLoading,
        .hideLoading].take 4)
      {}).loadingCount ∧
    (showLoading {} none).trace = App.trace {} ++ [.showLoading ((none : Option String).getD "加载中...")] ∧
    (hideLoading {}).trace = App.trace {} ++ [.hideLoading] :=
  ⟨(loading_indicator_reference_count {}
      [LoadingCall.hideLoading, .showLoading none, .showLoading none, .hideLoading, .hideLoading,
        .hideLoading] rfl).1 4,
   (((loading_indicator_reference_count {} [] rfl).2.1 {} none).1 rfl).1,
   ((loading_indicator_reference_count {} [] rfl).2.2 {}).1 (by decide)⟩

theorem hideLoading_fields (a : App) :
    (hideLoading a).pendingRequests = a.pendingRequests ∧
    (hideLoading a).requestTaskMap = a.requestTaskMap ∧
    (hideLoading a).lastErrorMessage = a.lastErrorMessage ∧
    (hideLoading a).lastErrorTime = a.lastErrorTime ∧ (hideLoading a).now = a.now := by
  unfold hideLoading
  dsimp only
  split <;> exact ⟨rfl, rfl, rfl, rfl, rfl⟩

theorem showError_fields (a : App) (m : JsValue) :
    (showError a m).pendingRequests = a.pendingRequests ∧
    (showError a m).requestTaskMap = a.requestTaskMap := by
  unfold showError
  split <;> exact ⟨rfl, rfl⟩

theorem not_mem_setDelete (s : List String) (k : String) : k ∉ setDelete s k := by
  unfold setDelete
  simp [List.mem_filter]

theorem lookup_mapDelete (m : List (String × Nat)) (k : String) :
    (mapDelete m k).lookup k = none := by
  unfold mapDelete
  induction m with
  | nil => rfl
  | cons p m ih =>
    obtain ⟨k0, v0⟩ := p
    by_cases hk : k0 = k
    · have : ((k0, v0).1 != k) = false := by simp [hk]
      rw [List.filter_cons_of_neg (by simp [hk])]
      exact ih
    · rw [List.filter_cons_of_pos (by simpa using hk)]
      rw [List.lookup_cons]
      have : (k == k0) = false := by simpa using fun e : k = k0 => hk e.symm
      rw [this]
      exact ih

theorem toastTitles_append (xs ys : List Effect) :
    toastTitles (xs ++ ys) = toastTitles xs ++ toastTitles ys := by
  induction xs with
  | nil => rfl
  | cons e xs ih => cases e <;> simp [toastTitles, ih]

theorem toastTitles_hideLoading (a : App) :
    toastTitles (hideLoading a).trace = toastTitles a.trace := by
  unfold hideLoading
  dsimp only
  split
  · show toastTitles (a.trace ++ [Effect.hideLoading]) = _
    rw [toastTitles_append]
    simp [toastTitles]
  · rfl

theorem toastTitles_showError (a : App) (m : JsValue) :
    toastTitles (showError a m).trace
      = if (strictEq a.lastErrorMessage m
            && decide ((a.now : Int) - (a.lastErrorTime : Int) ≤ 1500)) = true then
          toastTitles a.trace
        else toastTitles a.trace ++ [m] := by
  unfold showError
  split
  · rfl
  · show toastTitles ((a.trace ++ [Effect.hideLoading]) ++ [Effect.showToast m]) = _
    rw [toastTitles_append, toastTitles_append]
    simp [toastTitles]

theorem abortMarker_str (props : List (String × JsValue)) (m : String)
    (h : (JsValue.obj props).getProp "errMsg" = .str m) :
    abortMarker (.obj props) = some (includes m "abort") := by
  unfold abortMarker
  simp only [h]
  by_cases hm : m = ""
  · subst hm
    rfl
  · simp [hm]

theorem abortMarker_falsy (props : List (String × JsValue))
    (h : ((JsValue.obj props).getProp "errMsg").truthy = false) :
    abortMarker (.obj props) = some false := by
  unfold abortMarker
  cases hv : (JsValue.obj props).getProp "errMsg" with
  | str m =>
    rw [hv] at h
    have : m = "" := by simpa [JsValue.truthy] using h
    subst this
    rfl
  | arr items => rw [hv] at h; simp [JsValue.truthy] at h
  | obj ps => rw [hv] at h; simp [JsValue.truthy] at h
  | undefined => rfl
  | null => rfl
  | bool b =>
    rw [hv] at h
    simp only [h]
    rfl
  | num n =>
    rw [hv] at h
    simp only [h]
    rfl

/-- Claim C17: for a transport failure object whose `errMsg` is a string or falsy,
the fail callback removes the identity from the pending set and from the handle
map; when `errMsg` contains `abort` it rejects with the cancellation error and
shows no toast; otherwise it rejects with the normalized network error carrying
the failure as `raw`, shows no toast when `showError` is false, and else hands
the message to `showError`, which shows the toast unless it is throttled. -/
theorem requestFail_spec (a : App) (options : RequestOptions) (requestId : String)
    (props : List (String × JsValue)) :
    requestId ∉ (requestFail a options requestId (.obj props)).1.pendingRequests ∧
    (requestFail a options requestId (.obj props)).1.requestTaskMap.lookup requestId = none ∧
    (∀ m, (JsValue.obj props).getProp "errMsg" = .str m → includes m "abort" = true →
      requestFail a options requestId (.obj props)
        = (if !isFalse options.loading then
              hideLoading { a with
                requestTaskMap := mapDelete a.requestTaskMap requestId
                pendingRequests := setDelete a.pendingRequests requestId }
            else { a with
              requestTaskMap := mapDelete a.requestTaskMap requestId
              pendingRequests := setDelete a.pendingRequests requestId },
            .rejected (.obj [("code", .str "REQUEST_CANCELLED"), ("message", .str "请求已取消")])) ∧
      toastTitles (requestFail a options requestId (.obj props)).1.trace = toastTitles a.trace) ∧
    ((((JsValue.obj props).getProp "errMsg").truthy = false ∨
        ∃ m, (JsValue.obj props).getProp "errMsg" = .str m ∧ includes m "abort" = false) →
      (requestFail a options requestId (.obj props)).2
        = .rejected (.obj [("code", .num (-1)), ("msg", .str "网络连接失败，请检查网络设置"),
            ("data", .null), ("raw", .obj props)]) ∧
      (options.showError = some false →
        toastTitles (requestFail a options requestId (.obj props)).1.trace = toastTitles a.trace) ∧
      (options.showError ≠ some false →
        (requestFail a options requestId (.obj props)).1
          = showError
              (if !isFalse options.loading then
                hideLoading { a with
                  requestTaskMap := mapDelete a.requestTaskMap requestId
                  pendingRequests := setDelete a.pendingRequests requestId }
              else { a with
                requestTaskMap := mapDelete a.requestTaskMap requestId
                pendingRequests := setDelete a.pendingRequests requestId })
              (.str "网络连接失败，请检查网络设置") ∧
        ((strictEq a.lastErrorMessage (.str "网络连接失败，请检查网络设置")
            && decide ((a.now : Int) - (a.lastErrorTime : Int) ≤ 1500)) = false →
          toastTitles (requestFail a options requestId (.obj props)).1.trace
            = toastTitles a.trace ++ [.str "网络连接失败，请检查网络设置"]))) := by
  have hfields : (if (!isFalse options.loading) = true then
        hideLoading { a with
          requestTaskMap := mapDelete a.requestTaskMap requestId
          pendingRequests := setDelete a.pendingRequests requestId }
      else { a with
        requestTaskMap := mapDelete a.requestTaskMap requestId
        pendingRequests := setDelete a.pendingRequests requestId }).pendingRequests
        = setDelete a.pendingRequests requestId ∧
      (if (!isFalse options.loading) = true then
        hideLoading { a with
          requestTaskMap := mapDelete a.requestTaskMap requestId
          pendingRequests := setDelete a.pendingRequests requestId }
      else { a with
        requestTaskMap := mapDelete a.requestTaskMap requestId
        pendingRequests := setDelete a.pendingRequests requestId }).requestTaskMap
        = mapDelete a.requestTaskMap requestId ∧
      toastTitles (if (!isFalse options.loading) = true then
        hideLoading { a with
          requestTaskMap := mapDelete a.requestTaskMap requestId
          pendingRequests := setDelete a.pendingRequests requestId }
      else { a with
        requestTaskMap := mapDelete a.requestTaskMap requestId
        pendingRequests := setDelete a.pendingRequests requestId }).trace = toastTitles a.trace ∧
      (if (!isFalse options.loading) = true then
        hideLoading { a with
          requestTaskMap := mapDelete a.requestTaskMap requestId
          pendingRequests := setDelete a.pendingRequests requestId }
      else { a with
        requestTaskMap := mapDelete a.requestTaskMap requestId
        pendingRequests := setDelete a.pendingRequests requestId }).lastErrorMessage
        = a.lastErrorMessage ∧
      (if (!isFalse options.loading) = true then
        hideLoading { a with
          requestTaskMap := mapDelete a.requestTaskMap requestId
          pendingRequests := setDelete a.pendingRequests requestId }
      else { a with
        requestTaskMap := mapDelete a.requestTaskMap requestId
        pendingRequests := setDelete a.pendingRequests requestId }).lastErrorTime
        = a.lastErrorTime ∧
      (if (!isFalse options.loading) = true then
        hideLoading { a with
          requestTaskMap := mapDelete a.requestTaskMap requestId
          pendingRequests := setDelete a.pendingRequests requestId }
      else { a with
        requestTaskMap := mapDelete a.requestTaskMap requestId
        pendingRequests := setDelete a.pendingRequests requestId }).now = a.now := by
    split
    · have h := hideLoading_fields { a with
          requestTaskMap := mapDelete a.requestTaskMap requestId
          pendingRequests := setDelete a.pendingRequests requestId }
      exact ⟨h.1, h.2.1, toastTitles_hideLoading _, h.2.2.1, h.2.2.2.1, h.2.2.2.2⟩
    · exact ⟨rfl, rfl, rfl, rfl, rfl, rfl⟩
  -- the state after the bookkeeping, in terms of the three outcomes of line 168
  have hstate : ∀ b, abortMarker (.obj props) = some b →
      requestFail a options requestId (.obj props)
        = if b = true then
            (if (!isFalse options.loading) = true then
                hideLoading { a with
                  requestTaskMap := mapDelete a.requestTaskMap requestId
                  pendingRequests := setDelete a.pendingRequests requestId }
              else { a with
                requestTaskMap := mapDelete a.requestTaskMap requestId
                pendingRequests := setDelete a.pendingRequests requestId },
              .rejected (.obj [("code", .str "REQUEST_CANCELLED"), ("message", .str "请求已取消")]))
          else
            (if (!isFalse options.showError) = true then
                showError
                  (if (!isFalse options.loading) = true then
                    hideLoading { a with
                      requestTaskMap := mapDelete a.requestTaskMap requestId
                      pendingRequests := setDelete a.pendingRequests requestId }
                  else { a with
                    requestTaskMap := mapDelete a.requestTaskMap requestId
                    pendingRequests := setDelete a.pendingRequests requestId })
                  (.str "网络连接失败，请检查网络设置")
              else
                (if (!isFalse options.loading) = true then
                  hideLoading { a with
                    requestTaskMap := mapDelete a.requestTaskMap requestId
                    pendingRequests := setDelete a.pendingRequests requestId }
                else { a with
                  requestTaskMap := mapDelete a.requestTaskMap requestId
                  pendingRequests := setDelete a.pendingRequests requestId }),
              .rejected (.obj [("code", .num (-1)), ("msg", .str "网络连接失败，请检查网络设置"),
                ("data", .null), ("raw", .obj props)])) := by
    intro b hb
    unfold requestFail
    simp only [hb]
    cases b
    · rfl
    · rfl
  have hnone : abortMarker (.obj props) = none →
      requestFail a options requestId (.obj props)
        = (if (!isFalse options.loading) = true then
              hideLoading { a with
                requestTaskMap := mapDelete a.requestTaskMap requestId
                pendingRequests := setDelete a.pendingRequests requestId }
            else { a with
              requestTaskMap := mapDelete a.requestTaskMap requestId
              pendingRequests := setDelete a.pendingRequests requestId }, .pending) := by
    intro hb
    unfold requestFail
    simp only [hb]
  have hmarker : (∃ b, abortMarker (.obj props) = some b) ∨ abortMarker (.obj props) = none := by
    cases abortMarker (.obj props) with
    | none => exact Or.inr rfl
    | some b => exact Or.inl ⟨b, rfl⟩
  generalize (if (!isFalse options.loading) = true then
        hideLoading { a with
          requestTaskMap := mapDelete a.requestTaskMap requestId
          pendingRequests := setDelete a.pendingRequests requestId }
      else { a with
        requestTaskMap := mapDelete a.requestTaskMap requestId
        pendingRequests := setDelete a.pendingRequests requestId }) = a2 at hfields hstate hnone ⊢
  have hbook : (requestFail a options requestId (.obj props)).1.pendingRequests
        = setDelete a.pendingRequests requestId ∧
      (requestFail a options requestId (.obj props)).1.requestTaskMap
        = mapDelete a.requestTaskMap requestId := by
    rcases hmarker with ⟨b, hb⟩ | hn
    · rw [hstate b hb]
      cases b
      · simp only [Bool.false_eq_true, if_false]
        split
        · exact ⟨(showError_fields _ _).1.trans hfields.1, (showError_fields _ _).2.trans hfields.2.1⟩
        · exact ⟨hfields.1, hfields.2.1⟩
      · simp only [if_true]
        exact ⟨hfields.1, hfields.2.1⟩
    · rw [hnone hn]
      exact ⟨hfields.1, hfields.2.1⟩
  refine ⟨?_, ?_, ?_, ?_⟩
  · rw [hbook.1]; exact not_mem_setDelete _ _
  · rw [hbook.2]; exact lookup_mapDelete _ _
  · intro m hm hinc
    have hb := abortMarker_str props m hm
    rw [hinc] at hb
    rw [hstate true hb]
    simp only [if_true]
    exact ⟨trivial, hfields.2.2.1⟩
  · intro hno
    have hb : abortMarker (.obj props) = some false := by
      rcases hno with h | ⟨m, hm, hinc⟩
      · exact abortMarker_falsy props h
      · rw [abortMarker_str props m hm, hinc]
    rw [hstate false hb]
    simp only [Bool.false_eq_true, if_false]
    refine ⟨trivial, ?_, ?_⟩
    · intro hs
      simp only [isFalse, hs, beq_self_eq_true, Bool.not_true, Bool.false_eq_true, if_false]
      exact hfields.2.2.1
    · intro hs
      have hf : (!isFalse options.showError) = true := by
        simp only [isFalse, Bool.not_eq_true', beq_eq_false_iff_ne, ne_eq]
        exact hs
      simp only [hf, if_true]
      refine ⟨trivial, ?_⟩
      intro hthr
      rw [toastTitles_showError, hfields.2.2.2.1, hfields.2.2.2.2.1, hfields.2.2.2.2.2, hthr]
      simp only [Bool.false_eq_true, if_false, hfields.2.2.1]


theorem requestFail_spec_witness :
    requestFail (requestDispatch {} ordersRequest).1 ordersRequest ordersRequestId
        (.obj [("errMsg", .str "request:fail abort")])
      = (if !isFalse ordersRequest.loading then
            hideLoading { (requestDispatch {} ordersRequest).1 with
              requestTaskMap := mapDelete (requestDispatch {} ordersRequest).1.requestTaskMap
                ordersRequestId
              pendingRequests := setDelete (requestDispatch {} ordersRequest).1.pendingRequests
                ordersRequestId }
          else { (requestDispatch {} ordersRequest).1 with
            requestTaskMap := mapDelete (requestDispatch {} ordersRequest).1.requestTaskMap
              ordersRequestId
            pendingRequests := setDelete (requestDispatch {} ordersRequest).1.pendingRequests
              ordersRequestId },
          .rejected (.obj [("code", .str "REQUEST_CANCELLED"), ("message", .str "请求已取消")])) ∧
    toastTitles (requestFail (requestDispatch {} ordersRequest).1 ordersRequest ordersRequestId
        (.obj [("errMsg", .str "request:fail timeout")])).1.trace
      = toastTitles (requestDispatch {} ordersRequest).1.trace
          ++ [.str "网络连接失败，请检查网络设置"] :=
  ⟨((requestFail_spec (requestDispatch {} ordersRequest).1 ordersRequest ordersRequestId
      [("errMsg", .str "request:fail abort")]).2.2.1 "request:fail abort" rfl (by decide)).1,
   (((requestFail_spec (requestDispatch {} ordersRequest).1 ordersRequest ordersRequestId
      [("errMsg", .str "request:fail timeout")]).2.2.2
        (Or.inr ⟨"request:fail timeout", rfl, by decide⟩)).2.2 (by decide)).2 (by decide)⟩

theorem foldl_mapDelete (keys : List String) (m : List (String × Nat)) :
    keys.foldl (fun m key => mapDelete m key) m = m.filter (fun p => decide (p.1 ∉ keys)) := by
  induction keys generalizing m with
  | nil => simp
  | cons k keys ih =>
    rw [List.foldl_cons, ih]
    unfold mapDelete
    rw [List.filter_filter]
    apply List.filter_congr
    intro p _
    by_cases h1 : p.1 = k <;> by_cases h2 : p.1 ∈ keys <;> simp [h1, h2]

/-- What `cancelRequestsByUrl` does: it aborts, in insertion order, the tasks
whose request id includes the fragment, and keeps exactly the other entries. -/
theorem cancelRequestsByUrl_by_id (a : App) (url : String) :
    (cancelRequestsByUrl a url).trace
      = a.trace ++ (a.requestTaskMap.filter (fun p => includes p.1 url)).map (fun p => .abort p.2) ∧
    (cancelRequestsByUrl a url).requestTaskMap
      = a.requestTaskMap.filter (fun p => !includes p.1 url) := by
  refine ⟨rfl, ?_⟩
  unfold cancelRequestsByUrl
  dsimp only
  rw [foldl_mapDelete]
  apply List.filter_congr
  intro p hp
  by_cases h : includes p.1 url = true
  · have : p.1 ∈ (a.requestTaskMap.filter (fun p => includes p.1 url)).map Prod.fst :=
      List.mem_map.mpr ⟨p, List.mem_filter.mpr ⟨hp, h⟩, rfl⟩
    simp [h, this]
  · have : p.1 ∉ (a.requestTaskMap.filter (fun p => includes p.1 url)).map Prod.fst := by
      intro hm
      obtain ⟨q, hq, e⟩ := List.mem_map.mp hm
      have := (List.mem_filter.mp hq).2
      rw [e] at this
      exact h this
    simp [h, this]

/-- Claim C18 fails on the code: after `saveRequest` (POST to `/save`, body
mentioning `/api/user`) and `userRequest` (GET `/api/user`) have been dispatched,
`cancelRequestsByUrl` with the fragment `/api/user` aborts both tasks and
empties the handle map, although the URL of `saveRequest` does not contain the
fragment: the fragment is looked for in the request id, which also holds the
method and the body. -/
theorem cancelRequestsByUrl_matches_identity :
    (requestDispatch (requestDispatch {} saveRequest).1 userRequest).1.requestTaskMap
      = [("POST_https://api.example.com/save_\x7b\"path\":\"/api/user\"\x7d", 0),
         ("GET_https://api.example.com/api/user_undefined", 1)] ∧
    (∃ p, (requestDispatch {} saveRequest).2
        = .issued 0 p "POST_https://api.example.com/save_\x7b\"path\":\"/api/user\"\x7d" ∧
      p.url = "https://api.example.com/save") ∧
    includes "https://api.example.com/save" "/api/user" = false ∧
    (cancelRequestsByUrl (requestDispatch (requestDispatch {} saveRequest).1 userRequest).1
        "/api/user").trace
      = (requestDispatch (requestDispatch {} saveRequest).1 userRequest).1.trace
          ++ [.abort 0, .abort 1] ∧
    (cancelRequestsByUrl (requestDispatch (requestDispatch {} saveRequest).1 userRequest).1
        "/api/user").requestTaskMap = [] := by
  refine ⟨by decide, ⟨_, rfl, rfl⟩, by decide, rfl, by decide⟩

/-- Claim C19 fails on the code as worded: for the calls A, B, A at 1000, 1100 and
1200 ms the message A is shown twice within 200 ms, because only the last shown
message is remembered. -/
theorem showError_repeats_interleaved_message :
    toastTitles (runErrors [(1000, .str "A"), (1100, .str "B"), (1200, .str "A")] {}).trace
      = [.str "A", .str "B", .str "A"] := by
  rfl

theorem showError_suppressed (a : App) (m : JsValue) (heq : strictEq a.lastErrorMessage m = true)
    (hwin : (a.now : Int) - (a.lastErrorTime : Int) ≤ 1500) : showError a m = a := by
  unfold showError
  simp [heq, hwin]

theorem runErrors_same_message (calls : List (Nat × JsValue)) (a : App) (m : String) (t0 : Nat)
    (hm : a.lastErrorMessage = .str m) (ht : a.lastErrorTime = t0)
    (hcalls : ∀ c ∈ calls, c.2 = .str m ∧ c.1 ≤ t0 + 1500) :
    (runErrors calls a).trace = a.trace ∧ (runErrors calls a).lastErrorMessage = .str m ∧
    (runErrors calls a).lastErrorTime = t0 := by
  induction calls generalizing a with
  | nil => exact ⟨rfl, hm, ht⟩
  | cons c calls ih =>
    have hc := hcalls c (List.mem_cons_self _ _)
    have hstep : showErrorAt a c = { a with now := c.1 } := by
      unfold showErrorAt
      apply showError_suppressed
      · show strictEq a.lastErrorMessage c.2 = true
        rw [hm, hc.1]
        simp [strictEq]
      · show ((c.1 : Nat) : Int) - (a.lastErrorTime : Int) ≤ 1500
        rw [ht]
        have := hc.2
        omega
    have h := ih (showErrorAt a c) (by rw [hstep]; exact hm) (by rw [hstep]; exact ht)
      (fun x hx => hcalls x (List.mem_cons_of_mem _ hx))
    show (runErrors calls (showErrorAt a c)).trace = a.trace ∧ _
    refine ⟨h.1.trans (by rw [hstep]), h.2⟩

/-- Claim C19, amended: `showError` shows nothing and changes nothing when the
message equals the most recently shown message and arrives at most 1500 ms after
that one was shown; in every other case it shows the message and records it with
the current time; and after a message is shown, any run of calls with the same
text, each at most 1500 ms after that showing, adds no notification. -/
theorem showError_throttles_last_message (a : App) (m : JsValue) :
    (strictEq a.lastErrorMessage m = true → (a.now : Int) - (a.lastErrorTime : Int) ≤ 1500 →
      showError a m = a) ∧
    ((strictEq a.lastErrorMessage m = false ∨ (a.now : Int) - (a.lastErrorTime : Int) > 1500) →
      toastTitles (showError a m).trace = toastTitles a.trace ++ [m] ∧
      (showError a m).lastErrorMessage = m ∧ (showError a m).lastErrorTime = a.now) ∧
    (∀ (text : String) (calls : List (Nat × JsValue)),
      (strictEq a.lastErrorMessage (.str text) = false ∨
        (a.now : Int) - (a.lastErrorTime : Int) > 1500) →
      (∀ c ∈ calls, c.2 = .str text ∧ c.1 ≤ a.now + 1500) →
      toastTitles (runErrors calls (showError a (.str text))).trace
        = toastTitles a.trace ++ [.str text]) := by
  have hshown : ∀ m : JsValue,
      (strictEq a.lastErrorMessage m = false ∨ (a.now : Int) - (a.lastErrorTime : Int) > 1500) →
      showError a m = { (a.emit .hideLoading).emit (.showToast m) with
        lastErrorTime := a.now, lastErrorMessage := m } := by
    intro m h
    have hc : (strictEq a.lastErrorMessage m
        && decide ((a.now : Int) - (a.lastErrorTime : Int) ≤ 1500)) = false := by
      rcases h with h | h
      · simp [h]
      · have : ¬ ((a.now : Int) - (a.lastErrorTime : Int) ≤ 1500) := by omega
        simp [this]
    unfold showError
    simp only [hc, Bool.false_eq_true, if_false]
  have htoast : ∀ m : JsValue,
      toastTitles ({ (a.emit .hideLoading).emit (.showToast m) with
        lastErrorTime := a.now, lastErrorMessage := m } : App).trace
        = toastTitles a.trace ++ [m] := by
    intro m
    show toastTitles ((a.trace ++ [Effect.hideLoading]) ++ [Effect.showToast m]) = _
    rw [toastTitles_append, toastTitles_append]
    simp [toastTitles]
  refine ⟨showError_suppressed a m, ?_, ?_⟩
  · intro h
    rw [hshown m h]
    exact ⟨htoast m, rfl, rfl⟩
  · intro text calls h hcalls
    rw [hshown _ h]
    have hrun := runErrors_same_message calls
      ({ (a.emit .hideLoading).emit (.showToast (.str text)) with
        lastErrorTime := a.now, lastErrorMessage := .str text }) text a.now rfl rfl hcalls
    rw [hrun.1]
    exact htoast _

theorem showError_throttles_last_message_witness :
    toastTitles (runErrors [(1100, .str "A"), (2500, .str "A")]
        (showError { now := 1000 } (.str "A"))).trace
      = toastTitles (App.trace { now := 1000 }) ++ [.str "A"] :=
  (showError_throttles_last_message { now := 1000 } (.str "A")).2.2 "A"
    [(1100, .str "A"), (2500, .str "A")] (Or.inl rfl)
    (by
      intro c hc
      simp only [List.mem_cons, List.mem_singleton, List.mem_nil_iff, or_false] at hc
      rcases hc with rfl | rfl
      · exact ⟨rfl, by decide⟩
      · exact ⟨rfl, by decide⟩)

/-- The loop does not return once a promise of the first batch never settles. -/
theorem uploadBatchLoop_pending (jsonParse : String → Option JsValue) (a : App)
    (deliver : Nat → UploadDelivery) (options : BatchOptions) (files : List JsValue)
    (concurrency : Nat) (st : BatchState) (hfiles : 0 < files.length)
    (hpending : (((files.drop 0).take concurrency).enum.map
      (fun bf => batchCallback jsonParse a deliver options (0 + bf.1) bf.2)).any
        BatchPromise.isPending = true) (fuel : Nat) :
    uploadBatchLoop jsonParse a deliver options files concurrency fuel 0 st = none := by
  cases fuel with
  | zero => rfl
  | succ fuel =>
    rw [uploadBatchLoop, if_pos hfiles]
    simp only []
    rw [if_pos hpending]

/-- With concurrency 0 the loop never advances. -/
theorem uploadBatchLoop_zero (jsonParse : String → Option JsValue) (a : App)
    (deliver : Nat → UploadDelivery) (options : BatchOptions) (files : List JsValue)
    (hfiles : 0 < files.length) (fuel : Nat) (st : BatchState) :
    uploadBatchLoop jsonParse a deliver options files 0 fuel 0 st = none := by
  induction fuel generalizing st with
  | zero => rfl
  | succ fuel ih =>
    rw [uploadBatchLoop, if_pos hfiles]
    simp only [List.take_zero, List.enum_nil, List.map_nil, List.any_nil, Bool.false_eq_true,
      if_false, List.foldl_nil]
    exact ih st

/-- Claim C20 fails on the code: `uploadBatch` returns for one file when the
server answers with a success body, but when the server answers with status 200
and the body `null`, `uploadFile` throws inside its `success` callback while
reading `data.msg`, its promise never settles and `uploadBatch` does not return,
with the default concurrency of 3. It does not return with `concurrency: 0`
either, and when `onFileComplete` throws on a success the file whose upload
resolved is listed as failed. -/
theorem uploadBatch_never_returns_on_null_body :
    ((uploadBatch parseExamples {} uploadedDelivery [pngFile] {} 2).map
        (fun r => (r.total, r.successCount, r.failedCount, r.success.map (fun s => s.index)))
      = some (1, 1, 0, [0])) ∧
    (uploadFile parseExamples {} none (.success 200 (.str "null")) = .pending ∧
      ∀ fuel : Nat, uploadBatch parseExamples {} nullBodyDelivery [pngFile] {} fuel = none) ∧
    (∀ fuel : Nat,
      uploadBatch parseExamples {} uploadedDelivery [pngFile] { concurrency := some 0 } fuel
        = none) ∧
    ((uploadBatch parseExamples {} uploadedDelivery [pngFile]
          { onFileComplete := some throwsOnSuccess } 2).map
        (fun r => (r.successCount, r.failedCount, r.failed.map (fun f => (f.index, f.error))))
      = some (0, 1, [(0, { message := "render failed" })])) := by
  refine ⟨by rfl, ⟨by rfl, ?_⟩, ?_, by rfl⟩
  · intro fuel
    unfold uploadBatch
    rw [uploadBatchLoop_pending parseExamples {} nullBodyDelivery {} [pngFile] _ {}
      (by decide) (by rfl)]
  · intro fuel
    unfold uploadBatch
    show (match uploadBatchLoop parseExamples {} uploadedDelivery { concurrency := some 0 }
        [pngFile] 0 fuel 0 {} with
      | none => none
      | some st => _) = none
    rw [uploadBatchLoop_zero parseExamples {} uploadedDelivery _ [pngFile] (by decide)]

theorem requestSettle_resolved_eq (a : App) (options : RequestOptions)
    (r : Except JsError JsValue) (v : JsValue) (h : (requestSettle a options r).2 = .resolved v) :
    r = .ok v ∧ v.getProp "code" = .num 0 := by
  unfold requestSettle at h
  dsimp only at h
  split at h
  · cases h
  · rename_i result
    by_cases hc : (result.truthy && isNum (result.getProp "code") 0) = true
    · rw [if_pos hc] at h
      injection h with hv
      subst hv
      have := (Bool.and_eq_true _ _).mp hc
      exact ⟨rfl, (isNum_eq_true _ _).mp this.2⟩
    · rw [if_neg hc] at h
      split at h
      · split at h <;> cases h
      · cases h

theorem requestSettle_resolved (a : App) (options : RequestOptions) (r : Except JsError JsValue)
    (v : JsValue) (h : (requestSettle a options r).2 = .resolved v) :
    v.getProp "code" = .num 0 :=
  (requestSettle_resolved_eq a options r v h).2

theorem requestFail_not_resolved (a : App) (options : RequestOptions) (k : String) (e v : JsValue) :
    (requestFail a options k e).2 ≠ .resolved v := by
  unfold requestFail
  dsimp only
  intro h
  split at h <;> cases h

theorem request_resolved_last (transport : Nat → TransportResult) (a : App) (o : RequestOptions)
    (rc : Nat) (hrc : rc ≥ 1) (v : JsValue) (h : (request transport a o rc).2 = .resolved v) :
    v.getProp "code" = .num 0 := by
  have hx : ∀ (x : App) (c : Option RequestOptions),
      (handleTokenRefreshRetry transport x c rc).2 = .rejected (createRequestError "重试次数超限") := by
    intro x c
    rw [handleTokenRefreshRetry.eq_def]
    simp [MAX_RETRY_COUNT, hrc]
  rw [request] at h
  split at h
  · cases h
  · cases h
  · split at h
    · exact absurd h (requestFail_not_resolved _ _ _ _ _)
    · dsimp only at h
      split at h
      · rw [hx] at h; cases h
      · split at h
        · rw [hx] at h; cases h
        · exact requestSettle_resolved _ _ _ _ h
      · exact requestSettle_resolved _ _ _ _ h

theorem request_resolved (transport : Nat → TransportResult) (a : App) (o : RequestOptions)
    (rc : Nat) (v : JsValue) (h : (request transport a o rc).2 = .resolved v) :
    v.getProp "code" = .num 0 := by
  by_cases hrc : rc ≥ 1
  · exact request_resolved_last transport a o rc hrc v h
  · have hx : ∀ (x : App) (c : Option RequestOptions),
        (handleTokenRefreshRetry transport x c rc).2 = .resolved v → v.getProp "code" = .num 0 := by
      intro x c hh
      rw [handleTokenRefreshRetry.eq_def] at hh
      simp only [MAX_RETRY_COUNT, hrc, dite_false] at hh
      cases c with
      | none => cases hh
      | some cfg => exact request_resolved_last transport _ cfg (rc + 1) (by omega) v hh
    rw [request] at h
    split at h
    · cases h
    · cases h
    · split at h
      · exact absurd h (requestFail_not_resolved _ _ _ _ _)
      · dsimp only at h
        split at h
        · exact hx _ _ h
        · split at h
          · exact hx _ _ h
          · exact requestSettle_resolved _ _ _ _ h
        · exact requestSettle_resolved _ _ _ _ h

theorem responseInterceptor_passes_body (s : App) (response : Response) (p : RequestOptions)
    (h2xx : 200 ≤ response.statusCode ∧ response.statusCode < 300)
    (hcode : response.data.getProp "code" = .undefined) :
    responseInterceptor s response p = (s, .ok (.value response.data)) := by
  have hcond : (decide (response.statusCode < 200) || decide (response.statusCode ≥ 300)) = false := by
    have h1 : ¬ response.statusCode < 200 := by omega
    have h2 : ¬ response.statusCode ≥ 300 := by omega
    simp [h1, h2]
  unfold responseInterceptor
  simp only [hcond, Bool.false_eq_true, if_false, hcode, Bool.not_true, Bool.and_false]

theorem requestSettle_without_code (s : App) (options : RequestOptions) (body : JsValue)
    (hcode : body.getProp "code" = .undefined) :
    ((isFalse options.showError = true ∨ (body ≠ .null ∧ body ≠ .undefined)) →
      (requestSettle s options (.ok body)).2 = .rejected body) ∧
    (isFalse options.showError = false → (body = .null ∨ body = .undefined) →
      (requestSettle s options (.ok body)).2 = .rejected nullReadError.toJs) := by
  have hc : (body.truthy && isNum (body.getProp "code") 0) = false := by
    rw [hcode]; simp [isNum]
  constructor
  · intro h
    unfold requestSettle
    simp only [hc, Bool.false_eq_true, if_false]
    rcases h with h | h
    · simp [h]
    · by_cases hs : (!isFalse options.showError) = true
      · rw [if_pos hs]
        split
        · exact absurd rfl h.1
        · exact absurd rfl h.2
        · rfl
      · rw [if_neg hs]
  · intro hs hb
    have hs2 : (!isFalse options.showError) = true := by simp [hs]
    unfold requestSettle
    simp only [hc, Bool.false_eq_true, if_false, hs2, if_true]
    rcases hb with hb | hb <;> subst hb <;> rfl

/-- Claim C21: `request` resolves only with a value whose `code` is the number 0.
When the transport answers an issued request with a 2xx response whose body has
no `code` field, `responseInterceptor` returns the body as it is and `request`
rejects: with the body itself, or, when the body is `null` or `undefined` and
`showError` is not false, with the `TypeError` raised while reading
`result.msg`; it does not resolve. -/
theorem request_resolves_only_code_zero (transport : Nat → TransportResult) (a : App)
    (options : RequestOptions) (retryCount : Nat) :
    (∀ v, (request transport a options retryCount).2 = .resolved v → v.getProp "code" = .num 0) ∧
    (∀ (t : Nat) (p : RequestOptions) (k : String) (response : Response),
      (requestDispatch a options).2 = .issued t p k →
      transport t = .success response →
      200 ≤ response.statusCode ∧ response.statusCode < 300 →
      response.data.getProp "code" = .undefined →
      (∀ s : App, responseInterceptor s response p = (s, .ok (.value response.data))) ∧
      ((isFalse options.showError = true ∨
          (response.data ≠ .null ∧ response.data ≠ .undefined)) →
        (request transport a options retryCount).2 = .rejected response.data) ∧
      (isFalse options.showError = false →
        (response.data = .null ∨ response.data = .undefined) →
        (request transport a options retryCount).2 = .rejected nullReadError.toJs) ∧
      (∀ v, (request transport a options retryCount).2 ≠ .resolved v)) := by
  refine ⟨fun v h => request_resolved transport a options retryCount v h, ?_⟩
  intro t p k response hd ht h2xx hcode
  have hd2 : requestDispatch a options = ((requestDispatch a options).1, .issued t p k) := by
    rw [← hd]
  generalize (requestDispatch a options).1 = a5 at hd2
  have hreq : request transport a options retryCount
      = requestSettle { a5 with
          requestTaskMap := mapDelete a5.requestTaskMap k
          pendingRequests := setDelete a5.pendingRequests k } options (.ok response.data) := by
    rw [request, hd2]
    simp only [ht]
    rw [responseInterceptor_passes_body _ response p h2xx hcode]
    simp only [hcode, isStr, Bool.false_eq_true, if_false]
  have hs := requestSettle_without_code { a5 with
          requestTaskMap := mapDelete a5.requestTaskMap k
          pendingRequests := setDelete a5.pendingRequests k } options response.data hcode
  refine ⟨fun s => responseInterceptor_passes_body s response p h2xx hcode, ?_, ?_, ?_⟩
  · intro h
    rw [hreq]
    exact hs.1 h
  · intro h1 h2
    rw [hreq]
    exact hs.2 h1 h2
  · intro v hv
    rw [hreq] at hv
    have h1 := requestSettle_resolved_eq _ _ _ _ hv
    have h2 : response.data = v := by
      injection h1.1
    rw [h2, h1.2] at hcode
    cases hcode

theorem request_resolves_only_code_zero_witness :
    (request plainBodyTransport {} ordersRequest 0).2 = .rejected plainBodyResponse.data :=
  ((request_resolves_only_code_zero plainBodyTransport {} ordersRequest 0).2 0
    (mergeHeaders {} ordersRequest) ordersRequestId plainBodyResponse (by exact rfl) rfl
    (by decide) rfl).2.1 (Or.inr ⟨by simp [plainBodyResponse], by simp [plainBodyResponse]⟩)

theorem startsWith_append (base url p : String) (h : startsWith base p = true) :
    startsWith (base ++ url) p = true := by
  unfold startsWith at h ⊢
  have h1 : p.data <+: base.data := by simpa using h
  have h2 : p.data <+: (base ++ url).data := by
    rw [String.data_append]
    exact h1.trans (List.prefix_append _ _)
  simpa using h2

/-- With a resolvable environment the interceptor returns, and the identity
fields of its result are those of the first two steps. -/
theorem requestInterceptor_core (a : App) (o : RequestOptions) (h : a.env.failure = none) :
    ∃ a1 p, requestInterceptor a o = (a1, .ok p) ∧
      p.url = (prefixBaseUrl a.env (defaultMethod o)).url ∧
      p.method = (defaultMethod o).method ∧ p.data = o.data := by
  have hm := (prefixBaseUrl_fields a.env (defaultMethod o)).1
  have hdata : (prefixBaseUrl a.env (defaultMethod o)).data = o.data :=
    (prefixBaseUrl_fields a.env (defaultMethod o)).2.1.trans (defaultMethod_fields o).2.1
  unfold requestInterceptor
  rw [h]
  dsimp only
  split
  · exact ⟨_, _, rfl, rfl, hm, hdata⟩
  · refine ⟨_, _, rfl, ?_, ?_, ?_⟩
    · exact (attachToken_fields _ _).1
    · exact (attachToken_fields _ _).2.1.trans hm
    · exact (attachToken_fields _ _).2.2.1.trans hdata

theorem defaultMethod_method (o : RequestOptions) :
    ∃ m, (defaultMethod o).method = some m ∧ m ≠ "" := by
  unfold defaultMethod
  split
  · rename_i m hm
    by_cases h : (m != "") = true
    · rw [if_pos h]
      exact ⟨m, hm, by simpa using h⟩
    · rw [if_neg h]
      exact ⟨"GET", rfl, by decide⟩
  · exact ⟨"GET", rfl, by decide⟩

theorem defaultMethod_of_method (o : RequestOptions) (m : String) (hm : o.method = some m)
    (hne : m ≠ "") : defaultMethod o = o := by
  unfold defaultMethod
  rw [hm]
  have h : (m != "") = true := by simpa using hne
  simp only [h, if_true]

theorem prefixBaseUrl_url_stable (env : Env) (o : RequestOptions)
    (h : startsWith o.url "http" = true ∨ env.API_BASE_URL = "") :
    (prefixBaseUrl env o).url = o.url := by
  unfold prefixBaseUrl
  by_cases hs : (!startsWith o.url "http") = true
  · rw [if_pos hs]
    rcases h with h | h
    · rw [h] at hs; cases hs
    · show env.API_BASE_URL ++ o.url = o.url
      rw [h, String.empty_append]
  · rw [if_neg hs]

theorem prefixBaseUrl_url_absolute (env : Env) (o : RequestOptions)
    (h : startsWith o.url "http" = true ∨ startsWith env.API_BASE_URL "http" = true ∨
      env.API_BASE_URL = "") :
    startsWith (prefixBaseUrl env o).url "http" = true ∨ env.API_BASE_URL = "" := by
  unfold prefixBaseUrl
  by_cases hs : (!startsWith o.url "http") = true
  · rw [if_pos hs]
    rcases h with h | h | h
    · rw [h] at hs; cases hs
    · exact Or.inl (startsWith_append _ _ _ h)
    · exact Or.inr h
  · rw [if_neg hs]
    exact Or.inl (by simpa using hs)

/-- A `request` whose response the interceptor classifies as the refresh signal
continues in `handleTokenRefreshRetry`. -/
theorem request_refresh_signal (transport : Nat → TransportResult) (a : App)
    (options : RequestOptions) (retryCount : Nat) (t : Nat) (p : RequestOptions) (k : String)
    (response : Response) (config : RequestOptions)
    (hd : (requestDispatch a options).2 = .issued t p k)
    (ht : transport t = .success response)
    (hr : (responseInterceptor
        { (requestDispatch a options).1 with
          requestTaskMap := mapDelete (requestDispatch a options).1.requestTaskMap k
          pendingRequests := setDelete (requestDispatch a options).1.pendingRequests k }
        response p).2 = .ok (.tokenRefreshed config)) :
    request transport a options retryCount
      = handleTokenRefreshRetry transport
          (if !isFalse options.loading then
              hideLoading (responseInterceptor
                { (requestDispatch a options).1 with
                  requestTaskMap := mapDelete (requestDispatch a options).1.requestTaskMap k
                  pendingRequests := setDelete (requestDispatch a options).1.pendingRequests k }
                response p).1
            else
              (responseInterceptor
                { (requestDispatch a options).1 with
                  requestTaskMap := mapDelete (requestDispatch a options).1.requestTaskMap k
                  pendingRequests := setDelete (requestDispatch a options).1.pendingRequests k }
                response p).1)
          (some config) retryCount := by
  have hd2 : requestDispatch a options = ((requestDispatch a options).1, .issued t p k) := by
    rw [← hd]
  generalize (requestDispatch a options).1 = a5 at hd2 hr ⊢
  have hr2 : responseInterceptor
      { a5 with requestTaskMap := mapDelete a5.requestTaskMap k
                pendingRequests := setDelete a5.pendingRequests k } response p
      = ((responseInterceptor
          { a5 with requestTaskMap := mapDelete a5.requestTaskMap k
                    pendingRequests := setDelete a5.pendingRequests k } response p).1,
        .ok (.tokenRefreshed config)) := by
    rw [← hr]
  generalize (responseInterceptor
          { a5 with requestTaskMap := mapDelete a5.requestTaskMap k
                    pendingRequests := setDelete a5.pendingRequests k } response p).1 = a7
    at hr2 ⊢
  rw [request, hd2]
  simp only [ht]
  rw [hr2]

theorem handleTokenRefreshRetry_first (transport : Nat → TransportResult) (a : App)
    (config : RequestOptions) :
    handleTokenRefreshRetry transport a (some config) 0
      = request transport (a.emit (.setTimeout RETRY_DELAY)) config 1 := by
  rw [handleTokenRefreshRetry.eq_def]
  simp [MAX_RETRY_COUNT]

theorem handleTokenRefreshRetry_last (transport : Nat → TransportResult) (a : App)
    (config : Option RequestOptions) :
    handleTokenRefreshRetry transport a config 1
      = (a, .rejected (createRequestError "重试次数超限")) := by
  rw [handleTokenRefreshRetry.eq_def]
  simp [MAX_RETRY_COUNT]

/-- Claim C22 fails on the code: with the API base URL `/api` the descriptor for
`/user/info` is processed to `/api/user/info`, and processing that again, as the
retry after a refresh does, gives `/api/api/user/info` and another request id;
run with a 401 answer, the retry after the refresh is sent to that URL. -/
theorem retry_identity_changes_with_relative_base :
    proxyEnvApp.env.API_BASE_URL = "/api" ∧
    (∃ p, (requestDispatch proxyEnvApp userInfoRequest).2
        = .issued 0 p "GET_/api/user/info_undefined" ∧
      p.url = "/api/user/info" ∧
      ∃ q, (requestInterceptor proxyEnvApp p).2 = .ok q ∧ q.url = "/api/api/user/info" ∧
        generateRequestId q = "GET_/api/api/user/info_undefined") ∧
    requestedUrls (request alwaysUnauthorized proxyEnvApp userInfoRequest 0).1.trace
      = ["/api/user/info", "/api/api/user/info"] := by
  refine ⟨rfl, ⟨_, rfl, rfl, _, rfl, rfl, by decide⟩, ?_⟩
  rw [request_refresh_signal alwaysUnauthorized proxyEnvApp userInfoRequest 0 _ _ _ _ _
    (by exact rfl) (by exact rfl) (by exact rfl)]
  rw [handleTokenRefreshRetry_first]
  rw [request_refresh_signal alwaysUnauthorized _ _ 1 _ _ _ _ _
    (by exact rfl) (by exact rfl) (by exact rfl)]
  rw [handleTokenRefreshRetry_last]
  rfl

/-- Where the retry does keep the identity: when the URL of the descriptor starts
with `http`, or the configured API base URL starts with `http` or is empty,
`requestInterceptor` returns a descriptor `p` such that running the interceptor
again, in any state with the same environment, on any descriptor with the url,
method and data of `p` (so on `p` and on the retry descriptor) leaves url,
method and data unchanged and gives the request id of `p`; a descriptor marked
`_tokenRefreshed` is then dispatched under the request id of `p`. -/
theorem requestInterceptor_idempotent_identity (a b : App) (options : RequestOptions)
    (henv : a.env.failure = none) (hb : b.env = a.env)
    (habs : startsWith options.url "http" = true ∨
      startsWith a.env.API_BASE_URL "http" = true ∨ a.env.API_BASE_URL = "") :
    ∃ a1 p, requestInterceptor a options = (a1, .ok p) ∧
      ∀ c : RequestOptions, c.url = p.url → c.method = p.method → c.data = p.data →
        ∃ b1 q, requestInterceptor b c = (b1, .ok q) ∧
          q.url = p.url ∧ q.method = p.method ∧ q.data = p.data ∧
          generateRequestId q = generateRequestId p ∧
          (c._tokenRefreshed = true →
            ∃ t, (requestDispatch b c).2 = .issued t q (generateRequestId p)) := by
  obtain ⟨a1, p, hi, hu, hm, hd⟩ := requestInterceptor_core a options henv
  refine ⟨a1, p, hi, ?_⟩
  intro c hcu hcm hcd
  obtain ⟨m, hmm, hne⟩ := defaultMethod_method options
  have hpm : p.method = some m := hm.trans hmm
  have hdc : defaultMethod c = c := defaultMethod_of_method c m (hcm.trans hpm) hne
  have hpabs : startsWith p.url "http" = true ∨ a.env.API_BASE_URL = "" := by
    rw [hu]
    exact prefixBaseUrl_url_absolute a.env (defaultMethod options)
      (by rw [(defaultMethod_fields options).1]; exact habs)
  obtain ⟨b1, q, hj, hqu, hqm, hqd⟩ := requestInterceptor_core b c (by rw [hb]; exact henv)
  rw [hdc] at hqu hqm
  have hqu2 : q.url = p.url :=
    (hqu.trans (prefixBaseUrl_url_stable b.env c (by rw [hb, hcu]; exact hpabs))).trans hcu
  have hqm2 : q.method = p.method := hqm.trans hcm
  have hqd2 : q.data = p.data := hqd.trans hcd
  have hid : generateRequestId q = generateRequestId p :=
    generateRequestId_congr q p hqu2 hqm2 hqd2
  refine ⟨b1, q, hj, hqu2, hqm2, hqd2, hid, ?_⟩
  intro hc
  have hdisp : requestDispatch b c = dispatchProcessed b1 c q := by
    unfold requestDispatch
    rw [hj]
  rw [hdisp, ← hid]
  rcases dispatchProcessed_cases b1 c q with h | h
  · have := h.1
    rw [hc] at this
    simp at this
  · exact h.2.1

theorem requestInterceptor_idempotent_identity_witness :
    ∃ a1 p, requestInterceptor absoluteEnvApp userInfoRequest = (a1, .ok p) ∧
      ∃ b1 q, requestInterceptor (refreshToken absoluteEnvApp).1 { p with _tokenRefreshed := true }
          = (b1, .ok q) ∧ q.url = p.url ∧ generateRequestId q = generateRequestId p ∧
        ∃ t, (requestDispatch (refreshToken absoluteEnvApp).1 { p with _tokenRefreshed := true }).2
          = .issued t q (generateRequestId p) :=
  match requestInterceptor_idempotent_identity absoluteEnvApp (refreshToken absoluteEnvApp).1
      userInfoRequest rfl rfl (Or.inr (Or.inl (by decide))) with
  | ⟨a1, p, hi, h⟩ =>
    match h { p with _tokenRefreshed := true } rfl rfl rfl with
    | ⟨b1, q, hj, hu, _, _, hid, hdisp⟩ => ⟨a1, p, hi, b1, q, hj, hu, hid, hdisp rfl⟩

end UniappTemplate
